import Mathlib

/-!
# Break'em: the per-frame update of `breakem.go`

A shallow embedding of `Game.Update` (breakem.go, lines 100-274) together with the
data it works on, and the properties of one frame.

Modelling decisions.

* Go `int` (positions, velocities, lives) is modelled by `Int`.  The arithmetic of
  `Update` on it is additions and subtractions of coordinates and speeds of a 500x500
  field, computed exactly.  In the states that the program reaches (`Reachable`,
  `Playfield`) these values are small; the one value of a frame that nothing bounds is
  the cursor position.  The paddle update is therefore also given in 64-bit
  two's-complement arithmetic (`wrap64`, `stepPaddle64`): in a reachable state it
  computes a paddle that the exact update computes as well (`stepPaddle64_exact`), at
  the same cursor position unless that lies within 425 of the smallest `int`.
  Statements about states outside `Reachable` carry the bounds under which the exact
  sum is the 64-bit one.
* Go `uint8` (`Game.Score`, `Brick.Points`) is modelled by `Nat`, and the one
  arithmetic operation on it, `g.Score += brick.Points`, reduces modulo `2^8`.
* Go integer division truncates toward zero: `Int.tdiv`.
* `image.Point` and `image.Rectangle` come from the Go standard library; the methods
  used by the game (`Add`, `Sub`, `Dx`, `Dy`, `Size`, `Empty`, `Intersect`) are
  transcribed from package `image`.
* The device state read through `ebiten` and the two draws of `rand.Intn` made by
  `NewBall` are the explicit `Input` of a frame.
* `Update` always returns a `nil` error, so the embedding returns the new game state.
-/

namespace Breakem

/-! ## Constants (breakem.go, lines 30-52) -/

abbrev GameWidth : Int := 500
abbrev GameHeight : Int := 500
abbrev WallSize : Int := 25
abbrev LeftWall : Int := WallSize
abbrev RightWall : Int := GameWidth - WallSize
abbrev TopWall : Int := WallSize
abbrev BrickWidth : Int := WallSize * 2
abbrev BrickHeight : Int := WallSize
abbrev PaddleWidth : Int := WallSize * 4
abbrev PaddleHeight : Int := WallSize.tdiv 2
abbrev PaddleSpeed : Int := 5
abbrev PaddleMaxSpeed : Int := 10
abbrev PaddleDecel : Int := 2
abbrev BallWidth : Int := 5
abbrev BallHeight : Int := BallWidth
abbrev BallMaxSpeed : Int := 10

/-! ## Geometry (Go package `image`) -/

/-- Go `image.Point`: an X, Y coordinate pair. -/
structure Point where
  X : Int
  Y : Int
deriving DecidableEq

/-- Go `image.Rectangle`: the points with `Min.X <= x < Max.X`, `Min.Y <= y < Max.Y`. -/
structure Rectangle where
  Min : Point
  Max : Point
deriving DecidableEq

namespace Rectangle

/-- Go `Rectangle.Add`: the rectangle translated by `p`. -/
def Add (r : Rectangle) (p : Point) : Rectangle :=
  { Min := ⟨r.Min.X + p.X, r.Min.Y + p.Y⟩, Max := ⟨r.Max.X + p.X, r.Max.Y + p.Y⟩ }

/-- Go `Rectangle.Sub`: the rectangle translated by `-p`. -/
def Sub (r : Rectangle) (p : Point) : Rectangle :=
  { Min := ⟨r.Min.X - p.X, r.Min.Y - p.Y⟩, Max := ⟨r.Max.X - p.X, r.Max.Y - p.Y⟩ }

/-- Go `Rectangle.Dx`: the width. -/
def Dx (r : Rectangle) : Int := r.Max.X - r.Min.X

/-- Go `Rectangle.Dy`: the height. -/
def Dy (r : Rectangle) : Int := r.Max.Y - r.Min.Y

/-- Go `Rectangle.Size`: width and height as a point. -/
def Size (r : Rectangle) : Point := ⟨r.Max.X - r.Min.X, r.Max.Y - r.Min.Y⟩

/-- Go `Rectangle.Empty`: whether the rectangle contains no points. -/
def Empty (r : Rectangle) : Bool :=
  decide (r.Min.X ≥ r.Max.X) || decide (r.Min.Y ≥ r.Max.Y)

/-- The zero rectangle `image.ZR`, returned by `Intersect` for an empty overlap. -/
def ZR : Rectangle := ⟨⟨0, 0⟩, ⟨0, 0⟩⟩

/-- Go `Rectangle.Intersect`: the largest rectangle contained in both, or `ZR` when the
two do not overlap. -/
def Intersect (r s : Rectangle) : Rectangle :=
  let minX := if r.Min.X < s.Min.X then s.Min.X else r.Min.X
  let minY := if r.Min.Y < s.Min.Y then s.Min.Y else r.Min.Y
  let maxX := if r.Max.X > s.Max.X then s.Max.X else r.Max.X
  let maxY := if r.Max.Y > s.Max.Y then s.Max.Y else r.Max.Y
  let t : Rectangle := ⟨⟨minX, minY⟩, ⟨maxX, maxY⟩⟩
  if t.Empty then ZR else t

end Rectangle

/-! ## Entities (breakem.go, lines 54-75) -/

/-- A destructible brick; `Points` is a `uint8`. -/
structure Brick where
  Rect : Rectangle
  Points : Nat
deriving DecidableEq

/-- The ball: its rectangle and its velocity per frame. -/
structure Ball where
  Rect : Rectangle
  Vel : Point
deriving DecidableEq

/-- The paddle: its rectangle and its horizontal velocity. -/
structure Paddle where
  Rect : Rectangle
  Vel : Int
deriving DecidableEq

/-- The whole game state; `Score` is a `uint8`. -/
structure Game where
  Lives : Int
  Score : Nat
  Paddle : Paddle
  Ball : Ball
  Bricks : List Brick
deriving DecidableEq

/-- What one frame reads from outside the game state: the device state polled through
`ebiten` and the raw values behind the two `rand.Intn` calls of `NewBall`. -/
structure Input where
  /-- The value of `ebiten.IsMouseButtonPressed(ebiten.MouseButtonLeft)`. -/
  mousePressed : Bool
  /-- The first component of `ebiten.CursorPosition()`. -/
  cursorX : Int
  /-- The value of `ebiten.IsKeyPressed(ebiten.KeyLeft)`. -/
  keyLeft : Bool
  /-- The value of `ebiten.IsKeyPressed(ebiten.KeyRight)`. -/
  keyRight : Bool
  /-- The raw random value behind the first `rand.Intn` call. -/
  randX : Nat
  /-- The raw random value behind the second `rand.Intn` call. -/
  randY : Nat
deriving DecidableEq

/-! ## Functions (breakem.go, lines 77-274) -/

/-- Source `Clamp` (lines 77-85). -/
def Clamp (value min max : Int) : Int :=
  if value < min then min
  else if value > max then max
  else value

/-- Go `rand.Intn(n)` for `n > 0`: a value in `[0, n)` obtained from the raw draw. -/
def Intn (n : Nat) (raw : Nat) : Int := ((raw % n : Nat) : Int)

/-- Source `NewBall` (lines 87-98): the ball at its start position; `rx` and `ry` are the
raw draws of the two `rand.Intn(BallMaxSpeed/2)` calls, in evaluation order. -/
def NewBall (rx ry : Nat) : Ball :=
  { Rect :=
      { Min := ⟨WallSize, WallSize⟩
        Max := ⟨WallSize + BallWidth, WallSize + BallHeight⟩ }
    Vel := ⟨Intn 5 rx + 1, Intn 5 ry + 1⟩ }

/-- Lines 105-128 of `Update`: pointer drag, otherwise keyboard movement or
deceleration followed by the speed clamp and the translation. -/
def movePaddle (p : Paddle) (inp : Input) : Paddle :=
  if inp.mousePressed then
    let diff := inp.cursorX - (p.Rect.Min.X + p.Rect.Dx.tdiv 2)
    { Rect := p.Rect.Add ⟨diff, 0⟩, Vel := diff }
  else
    let vel :=
      if inp.keyLeft then p.Vel - PaddleSpeed
      else if inp.keyRight then p.Vel + PaddleSpeed
      else if p.Vel > 0 then p.Vel - PaddleDecel
      else if p.Vel < 0 then p.Vel + PaddleDecel
      else p.Vel
    let vel := Clamp vel (-PaddleMaxSpeed) PaddleMaxSpeed
    { Rect := p.Rect.Add ⟨vel, 0⟩, Vel := vel }

/-- Lines 130-134 of `Update`: clamp the paddle to the right wall. -/
def paddleRightWall (p : Paddle) : Paddle :=
  let diff := p.Rect.Max.X - RightWall
  if diff > 0 then { Rect := p.Rect.Sub ⟨diff, 0⟩, Vel := 0 } else p

/-- Lines 136-140 of `Update`: clamp the paddle to the left wall. -/
def paddleLeftWall (p : Paddle) : Paddle :=
  let diff := LeftWall - p.Rect.Min.X
  if diff > 0 then { Rect := p.Rect.Add ⟨diff, 0⟩, Vel := 0 } else p

/-- Lines 105-140 of `Update`: the whole paddle update of a frame. -/
def stepPaddle (p : Paddle) (inp : Input) : Paddle :=
  paddleLeftWall (paddleRightWall (movePaddle p inp))

/-- Line 142 of `Update`: the ball translated by its velocity. -/
def moveBall (b : Ball) : Ball :=
  { b with Rect := b.Rect.Add b.Vel }

/-- Lines 150-154 of `Update`: ball against the right wall. -/
def ballRightWall (b : Ball) : Ball :=
  let diff := b.Rect.Max.X - RightWall
  if diff > 0 then
    { Rect := b.Rect.Sub ⟨diff, 0⟩, Vel := ⟨b.Vel.X * -1, b.Vel.Y⟩ }
  else b

/-- Lines 156-160 of `Update`: ball against the left wall. -/
def ballLeftWall (b : Ball) : Ball :=
  let diff := LeftWall - b.Rect.Min.X
  if diff > 0 then
    { Rect := b.Rect.Add ⟨diff, 0⟩, Vel := ⟨b.Vel.X * -1, b.Vel.Y⟩ }
  else b

/-- Lines 162-166 of `Update`: ball against the top wall. -/
def ballTopWall (b : Ball) : Ball :=
  let diff := TopWall - b.Rect.Min.Y
  if diff > 0 then
    { Rect := b.Rect.Add ⟨0, diff⟩, Vel := ⟨b.Vel.X, b.Vel.Y * -1⟩ }
  else b

/-- Lines 150-166 of `Update`: the three wall checks, in source order. -/
def ballWalls (b : Ball) : Ball :=
  ballTopWall (ballLeftWall (ballRightWall b))

/-- Lines 168-212 of `Update`: ball against the paddle. -/
def hitPaddle (b : Ball) (p : Paddle) : Ball :=
  let diff := b.Rect.Intersect p.Rect
  if diff.Empty then b
  else
    let size := diff.Size
    if size.X > size.Y then
      if p.Vel ≠ 0 then
        { b with Vel := ⟨p.Vel, b.Vel.Y⟩ }
      else
        let rect := b.Rect.Sub ⟨0, size.Y⟩
        let divOne := p.Rect.Min.X + p.Rect.Dx.tdiv 4
        let divTwo := p.Rect.Max.X - p.Rect.Dx.tdiv 4
        let diffCenter := diff.Min.X + size.X.tdiv 2
        if diffCenter < divOne then
          { Rect := rect, Vel := ⟨(-BallMaxSpeed).tdiv 2, (-BallMaxSpeed).tdiv 3⟩ }
        else if diffCenter > divTwo then
          { Rect := rect, Vel := ⟨BallMaxSpeed.tdiv 2, (-BallMaxSpeed).tdiv 3⟩ }
        else
          { Rect := rect, Vel := ⟨b.Vel.X, (-BallMaxSpeed).tdiv 2⟩ }
    else
      if diff.Min.X = p.Rect.Min.X then
        { Rect := b.Rect.Sub ⟨size.X, 0⟩, Vel := ⟨-BallMaxSpeed, b.Vel.Y * -1⟩ }
      else
        { Rect := b.Rect.Add ⟨size.X, 0⟩, Vel := ⟨BallMaxSpeed, b.Vel.Y * -1⟩ }

/-- Lines 227-265 of `Update`: what a brick with the non-empty overlap `diff` does to
the ball. -/
def hitBrick (b : Ball) (brick : Brick) (diff : Rectangle) : Ball :=
  let size := diff.Size
  if size.X > size.Y then
    let rect := b.Rect.Sub ⟨0, size.Y⟩
    let divOne := brick.Rect.Min.X + brick.Rect.Dx.tdiv 3
    let divTwo := brick.Rect.Max.X - brick.Rect.Dx.tdiv 3
    let diffXCenter := diff.Min.X + size.X.tdiv 2
    let diffYCenter := diff.Min.Y + size.Y.tdiv 2
    if diffXCenter < divOne then
      { Rect := rect, Vel := ⟨(-BallMaxSpeed).tdiv 3, b.Vel.Y⟩ }
    else if diffXCenter > divTwo then
      { Rect := rect, Vel := ⟨BallMaxSpeed.tdiv 3, b.Vel.Y⟩ }
    else
      if diffYCenter < brick.Rect.Min.Y + brick.Rect.Dy.tdiv 2 then
        { Rect := rect, Vel := ⟨b.Vel.X, (-BallMaxSpeed).tdiv 2⟩ }
      else
        { Rect := rect, Vel := ⟨b.Vel.X, BallMaxSpeed.tdiv 2⟩ }
  else
    if diff.Min.X = brick.Rect.Min.X then
      { Rect := b.Rect.Sub ⟨size.X, 0⟩, Vel := ⟨(-BallMaxSpeed).tdiv 2, b.Vel.Y * -1⟩ }
    else
      { Rect := b.Rect.Add ⟨size.X, 0⟩, Vel := ⟨BallMaxSpeed.tdiv 2, b.Vel.Y * -1⟩ }

/-- The variables the brick loop of `Update` (lines 214-266) reads and writes:
`g.Ball`, `g.Score` and the local slice `remainingBricks`. -/
structure LoopState where
  ball : Ball
  score : Nat
  remaining : List Brick
deriving DecidableEq

/-- One iteration of the brick loop (lines 217-266). -/
def brickStep (st : LoopState) (brick : Brick) : LoopState :=
  let diff := st.ball.Rect.Intersect brick.Rect
  if diff.Empty then
    { st with remaining := st.remaining ++ [brick] }
  else
    { ball := hitBrick st.ball brick diff
      score := (st.score + brick.Points) % 256
      remaining := st.remaining }

/-- The brick loop `for _, brick := range g.Bricks` (lines 217-266). -/
def brickLoop (st : LoopState) (bricks : List Brick) : LoopState :=
  bricks.foldl brickStep st

/-- Source `Game.Update` (lines 100-274). -/
def Update (g : Game) (inp : Input) : Game :=
  if g.Lives = 0 ∨ g.Bricks.length = 0 then g
  else
    let paddle := stepPaddle g.Paddle inp
    let ball := moveBall g.Ball
    if ball.Rect.Min.Y > GameHeight then
      { Lives := g.Lives - 1
        Score := g.Score
        Paddle := paddle
        Ball := NewBall inp.randX inp.randY
        Bricks := g.Bricks }
    else
      let ball := hitPaddle (ballWalls ball) paddle
      let st := brickLoop ⟨ball, g.Score, []⟩ g.Bricks
      { Lives := g.Lives
        Score := st.score
        Paddle := paddle
        Ball :=
          { Rect := st.ball.Rect
            Vel := ⟨Clamp st.ball.Vel.X (-BallMaxSpeed) BallMaxSpeed,
                    Clamp st.ball.Vel.Y (-BallMaxSpeed) BallMaxSpeed⟩ }
        Bricks := st.remaining }

/-- The brick row built in `main` (lines 371-388): `n` more bricks starting at
rectangle `pos` with loop counter `i`, appended to `acc`. -/
def layBricks : Nat → Nat → Rectangle → List Brick → List Brick
  | 0, _, _, acc => acc
  | n + 1, i, pos, acc =>
      layBricks n (i + 1) (pos.Add ⟨BrickWidth, 0⟩) (acc ++ [⟨pos, i % 256⟩])

/-- The game value built in `main` (lines 358-388); `rx` and `ry` are the raw draws of
its `NewBall` call. -/
def mainGame (rx ry : Nat) : Game :=
  { Lives := 5
    Score := 0
    Paddle :=
      { Rect :=
          { Min := ⟨WallSize, GameHeight - PaddleHeight⟩
            Max := ⟨WallSize + PaddleWidth, GameHeight⟩ }
        Vel := 0 }
    Ball := NewBall rx ry
    Bricks :=
      layBricks 9 0
        ⟨⟨WallSize, WallSize * 4⟩, ⟨WallSize + BrickWidth, WallSize * 4 + BrickHeight⟩⟩ [] }

/-- The game states the program can be in: the one built in `main` and every state
obtained from it by calls of `Update`. -/
inductive Reachable : Game → Prop
  | init (rx ry : Nat) : Reachable (mainGame rx ry)
  | step {g : Game} (inp : Input) : Reachable g → Reachable (Update g inp)

/-- The sum of the points of a list of bricks. -/
def sumPoints (bricks : List Brick) : Nat :=
  (bricks.map Brick.Points).sum

/-- The ball as the brick loop of `Update` finds it (line 214): moved, resolved against
the walls and against the updated paddle. -/
def ballAtBricks (g : Game) (inp : Input) : Ball :=
  hitPaddle (ballWalls (moveBall g.Ball)) (stepPaddle g.Paddle inp)

/-! ## Concrete game states -/

/-- No button and no key held; both raw random draws are 7. -/
def idle : Input := ⟨false, 0, false, false, 7, 7⟩

/-- The game of `main` with its ball replaced by `b`. -/
def gameWithBall (b : Ball) : Game :=
  { mainGame 0 0 with Ball := b }

/-- The ball is about to leave the field: moved by its velocity, its top edge is at 501. -/
def lossGame : Game :=
  gameWithBall ⟨⟨⟨100, 496⟩, ⟨105, 501⟩⟩, ⟨3, 5⟩⟩

/-- Only the last brick of the row is left and the ball is about to enter it from
below. -/
def lastBrickGame : Game :=
  { Lives := 5
    Score := 28
    Paddle := ⟨⟨⟨25, 488⟩, ⟨125, 500⟩⟩, 0⟩
    Ball := ⟨⟨⟨440, 125⟩, ⟨445, 130⟩⟩, ⟨3, -5⟩⟩
    Bricks := [⟨⟨⟨425, 100⟩, ⟨475, 125⟩⟩, 8⟩] }

/-- The pointer button is held far to the right of the field, the left key as well. -/
def dragFar : Input := ⟨true, 100000, true, false, 7, 7⟩

/-- The score is 250 and the ball is about to enter the last brick of the row, worth 8
points, from below. -/
def wrapGame : Game :=
  { mainGame 0 0 with Score := 250, Ball := ⟨⟨⟨440, 125⟩, ⟨445, 130⟩⟩, ⟨3, -5⟩⟩ }

/-- The top edge of the ball is at 501 and the ball is moving up. -/
def risingGame : Game :=
  gameWithBall ⟨⟨⟨300, 501⟩, ⟨305, 506⟩⟩, ⟨3, -5⟩⟩

/-- The ball comes down on the middle of the resting paddle; the brick row is far away. -/
def paddleTopGame : Game :=
  gameWithBall ⟨⟨⟨68, 482⟩, ⟨73, 487⟩⟩, ⟨2, 3⟩⟩

/-- The ball moves onto the right edge of a brick; a second brick is out of reach. -/
def edgeHitGame : Game :=
  { Lives := 5
    Score := 0
    Paddle := ⟨⟨⟨25, 488⟩, ⟨125, 500⟩⟩, 0⟩
    Ball := ⟨⟨⟨245, 115⟩, ⟨250, 120⟩⟩, ⟨3, -5⟩⟩
    Bricks := [⟨⟨⟨200, 100⟩, ⟨250, 125⟩⟩, 4⟩, ⟨⟨⟨300, 100⟩, ⟨350, 125⟩⟩, 6⟩] }

/-- The game of `main` with the ball below the first brick of the row, two units from
the second brick, moving up. -/
def doubleHitGame : Game :=
  gameWithBall ⟨⟨⟨65, 125⟩, ⟨70, 130⟩⟩, ⟨3, -5⟩⟩

/-- The game of `main` with the ball below the first brick, moving up at 20 per frame. -/
def fastSideGame : Game :=
  gameWithBall ⟨⟨⟨40, 140⟩, ⟨45, 145⟩⟩, ⟨3, -20⟩⟩

/-- The right key is held, the pointer button is not. -/
def pressRight : Input := ⟨false, 0, false, true, 7, 7⟩

/-- The pointer button is held with the cursor at `x = 263`. -/
def drag263 : Input := ⟨true, 263, false, false, 7, 7⟩

/-- The game of `main` with the paddle in the middle of the field, moving right at 5. -/
def coastGame : Game :=
  { mainGame 0 0 with Paddle := ⟨⟨⟨200, 488⟩, ⟨300, 500⟩⟩, 5⟩ }

/-- The game of `main` with the paddle at rest in the middle of the field. -/
def restGame : Game :=
  { mainGame 0 0 with Paddle := ⟨⟨⟨200, 488⟩, ⟨300, 500⟩⟩, 0⟩ }

/-- The game of `main` with the ball below the first brick of the row, moving up: the
moved ball overlaps the bottom edge of the brick by 2. -/
def bottomHitGame : Game :=
  gameWithBall ⟨⟨⟨40, 128⟩, ⟨45, 133⟩⟩, ⟨3, -5⟩⟩

/-! ## The layout of the playfield -/

/-- A rectangle of the size of the ball, `BallWidth` by `BallHeight`. -/
def IsBall (r : Rectangle) : Prop :=
  r.Max.X = r.Min.X + 5 ∧ r.Max.Y = r.Min.Y + 5

/-- A brick of the row that `main` lays: `BrickWidth` wide, between the side walls, with
`y` from 100 to 125. -/
def InRow (b : Brick) : Prop :=
  b.Rect.Min.Y = 100 ∧ b.Rect.Max.Y = 125 ∧ b.Rect.Max.X = b.Rect.Min.X + 50 ∧
    25 ≤ b.Rect.Min.X ∧ b.Rect.Max.X ≤ 475

/-- The layout that the game of `main` has and that `Update` keeps: a 5 by 5 ball whose
top edge is not below the field and whose speed is at most `BallMaxSpeed` on each axis,
the paddle 100 wide between the side walls at `y` from 488 to 500 with a velocity of at
most 350 either way, the remaining bricks in their row, 36 points in the score and the
remaining bricks together, and between 0 and 5 lives. -/
structure Playfield (g : Game) : Prop where
  ball : IsBall g.Ball.Rect
  ballTop : g.Ball.Rect.Min.Y ≤ 500
  velX : -10 ≤ g.Ball.Vel.X ∧ g.Ball.Vel.X ≤ 10
  velY : -10 ≤ g.Ball.Vel.Y ∧ g.Ball.Vel.Y ≤ 10
  padY : g.Paddle.Rect.Min.Y = 488 ∧ g.Paddle.Rect.Max.Y = 500
  padX : g.Paddle.Rect.Max.X = g.Paddle.Rect.Min.X + 100 ∧ 25 ≤ g.Paddle.Rect.Min.X ∧
    g.Paddle.Rect.Max.X ≤ 475
  padV : -350 ≤ g.Paddle.Vel ∧ g.Paddle.Vel ≤ 350
  row : ∀ b ∈ g.Bricks, InRow b
  score : g.Score + sumPoints g.Bricks = 36
  lives : 0 ≤ g.Lives ∧ g.Lives ≤ 5

/-! ## The paddle update in 64-bit arithmetic -/

/-- Go `math.MinInt64`, the smallest value of an `int` on a 64-bit platform. -/
abbrev MinInt64 : Int := -9223372036854775808

/-- Go `math.MaxInt64`, the largest value of an `int` on a 64-bit platform. -/
abbrev MaxInt64 : Int := 9223372036854775807

/-- The value that a 64-bit Go `int` holds after an operation whose exact result is `x`:
the two's-complement representative of `x` modulo `2^64`. -/
def wrap64 (x : Int) : Int :=
  (x + 9223372036854775808) % 18446744073709551616 - 9223372036854775808

namespace Rectangle

/-- Go `Rectangle.Add` on 64-bit coordinates. -/
def Add64 (r : Rectangle) (p : Point) : Rectangle :=
  { Min := ⟨wrap64 (r.Min.X + p.X), wrap64 (r.Min.Y + p.Y)⟩
    Max := ⟨wrap64 (r.Max.X + p.X), wrap64 (r.Max.Y + p.Y)⟩ }

/-- Go `Rectangle.Sub` on 64-bit coordinates. -/
def Sub64 (r : Rectangle) (p : Point) : Rectangle :=
  { Min := ⟨wrap64 (r.Min.X - p.X), wrap64 (r.Min.Y - p.Y)⟩
    Max := ⟨wrap64 (r.Max.X - p.X), wrap64 (r.Max.Y - p.Y)⟩ }

/-- Go `Rectangle.Dx` on 64-bit coordinates. -/
def Dx64 (r : Rectangle) : Int := wrap64 (r.Max.X - r.Min.X)

end Rectangle

/-- Lines 105-128 of `Update` with every operation on an `int` reduced to 64 bits. -/
def movePaddle64 (p : Paddle) (inp : Input) : Paddle :=
  if inp.mousePressed then
    let diff := wrap64 (inp.cursorX - wrap64 (p.Rect.Min.X + p.Rect.Dx64.tdiv 2))
    { Rect := p.Rect.Add64 ⟨diff, 0⟩, Vel := diff }
  else
    let vel :=
      if inp.keyLeft then wrap64 (p.Vel - PaddleSpeed)
      else if inp.keyRight then wrap64 (p.Vel + PaddleSpeed)
      else if p.Vel > 0 then wrap64 (p.Vel - PaddleDecel)
      else if p.Vel < 0 then wrap64 (p.Vel + PaddleDecel)
      else p.Vel
    let vel := Clamp vel (-PaddleMaxSpeed) PaddleMaxSpeed
    { Rect := p.Rect.Add64 ⟨vel, 0⟩, Vel := vel }

/-- Lines 130-134 of `Update` in 64-bit arithmetic. -/
def paddleRightWall64 (p : Paddle) : Paddle :=
  let diff := wrap64 (p.Rect.Max.X - RightWall)
  if diff > 0 then { Rect := p.Rect.Sub64 ⟨diff, 0⟩, Vel := 0 } else p

/-- Lines 136-140 of `Update` in 64-bit arithmetic. -/
def paddleLeftWall64 (p : Paddle) : Paddle :=
  let diff := wrap64 (LeftWall - p.Rect.Min.X)
  if diff > 0 then { Rect := p.Rect.Add64 ⟨diff, 0⟩, Vel := 0 } else p

/-- Lines 105-140 of `Update` in 64-bit arithmetic: the paddle update of a frame as a
64-bit platform computes it. -/
def stepPaddle64 (p : Paddle) (inp : Input) : Paddle :=
  paddleLeftWall64 (paddleRightWall64 (movePaddle64 p inp))

/-! ## States of play -/

/-- The pointer button is held with the cursor at `x = 391`. -/
def drag391 : Input := ⟨true, 391, false, false, 7, 7⟩

/-- The pointer button is held with the cursor at `x = 413`. -/
def drag413 : Input := ⟨true, 413, false, false, 7, 7⟩

/-- The pointer button is held with the cursor at the smallest 64-bit `int`. -/
def dragMin : Input := ⟨true, MinInt64, false, false, 7, 7⟩

/-- The pointer button is held with the cursor at `x = 77`. -/
def drag77 : Input := ⟨true, 77, false, false, 7, 7⟩

/-- The pointer button is held with the cursor at `x = 75`. -/
def drag75 : Input := ⟨true, 75, false, false, 7, 7⟩

/-- The input of a frame with its cursor position replaced, when the pointer button is
held with the cursor less than 425 above the smallest `int`, by a position beyond the
right wall. -/
def Input.inRange (inp : Input) : Input :=
  if inp.mousePressed = true ∧ inp.cursorX < MinInt64 + 425 then
    { inp with cursorX := 426 }
  else inp

/-- The state of the game of `main` with draws 2 and 4 after 14 frames without input: the
ball, moving at (3, 5), is about to enter the first brick of the row next to the second. -/
def doubleBrickRun : Game :=
  { Lives := 5
    Score := 0
    Paddle := ⟨⟨⟨25, 488⟩, ⟨125, 500⟩⟩, 0⟩
    Ball := ⟨⟨⟨67, 95⟩, ⟨72, 100⟩⟩, ⟨3, 5⟩⟩
    Bricks :=
      [⟨⟨⟨25, 100⟩, ⟨75, 125⟩⟩, 0⟩,
        ⟨⟨⟨75, 100⟩, ⟨125, 125⟩⟩, 1⟩,
        ⟨⟨⟨125, 100⟩, ⟨175, 125⟩⟩, 2⟩,
        ⟨⟨⟨175, 100⟩, ⟨225, 125⟩⟩, 3⟩,
        ⟨⟨⟨225, 100⟩, ⟨275, 125⟩⟩, 4⟩,
        ⟨⟨⟨275, 100⟩, ⟨325, 125⟩⟩, 5⟩,
        ⟨⟨⟨325, 100⟩, ⟨375, 125⟩⟩, 6⟩,
        ⟨⟨⟨375, 100⟩, ⟨425, 125⟩⟩, 7⟩,
        ⟨⟨⟨425, 100⟩, ⟨475, 125⟩⟩, 8⟩] }

/-- The state of the game of `main` with draws 0 and 4 after 30 frames without input: the
ball, moving at (5, -5), is about to cross the top wall. -/
def topWallRun : Game :=
  { Lives := 5
    Score := 0
    Paddle := ⟨⟨⟨25, 488⟩, ⟨125, 500⟩⟩, 0⟩
    Ball := ⟨⟨⟨120, 25⟩, ⟨125, 30⟩⟩, ⟨5, -5⟩⟩
    Bricks :=
      [⟨⟨⟨75, 100⟩, ⟨125, 125⟩⟩, 1⟩,
        ⟨⟨⟨125, 100⟩, ⟨175, 125⟩⟩, 2⟩,
        ⟨⟨⟨175, 100⟩, ⟨225, 125⟩⟩, 3⟩,
        ⟨⟨⟨225, 100⟩, ⟨275, 125⟩⟩, 4⟩,
        ⟨⟨⟨275, 100⟩, ⟨325, 125⟩⟩, 5⟩,
        ⟨⟨⟨325, 100⟩, ⟨375, 125⟩⟩, 6⟩,
        ⟨⟨⟨375, 100⟩, ⟨425, 125⟩⟩, 7⟩,
        ⟨⟨⟨425, 100⟩, ⟨475, 125⟩⟩, 8⟩] }

/-- The state of the game of `main` with draws 2 and 4 after 91 frames without input: the
ball, moving at (5, 5), is about to reach the height of the paddle at `x` in [360, 365]. -/
def paddleEndRun : Game :=
  { Lives := 5
    Score := 1
    Paddle := ⟨⟨⟨25, 488⟩, ⟨125, 500⟩⟩, 0⟩
    Ball := ⟨⟨⟨355, 480⟩, ⟨360, 485⟩⟩, ⟨5, 5⟩⟩
    Bricks :=
      [⟨⟨⟨125, 100⟩, ⟨175, 125⟩⟩, 2⟩,
        ⟨⟨⟨175, 100⟩, ⟨225, 125⟩⟩, 3⟩,
        ⟨⟨⟨225, 100⟩, ⟨275, 125⟩⟩, 4⟩,
        ⟨⟨⟨275, 100⟩, ⟨325, 125⟩⟩, 5⟩,
        ⟨⟨⟨325, 100⟩, ⟨375, 125⟩⟩, 6⟩,
        ⟨⟨⟨375, 100⟩, ⟨425, 125⟩⟩, 7⟩,
        ⟨⟨⟨425, 100⟩, ⟨475, 125⟩⟩, 8⟩] }

/-- The state of the game of `main` with draws 4 and 1 after 204 frames without input: the
ball, moving at (5, 5), is about to land on the middle of the resting paddle. -/
def paddleTopRun : Game :=
  { Lives := 5
    Score := 17
    Paddle := ⟨⟨⟨25, 488⟩, ⟨125, 500⟩⟩, 0⟩
    Ball := ⟨⟨⟨70, 480⟩, ⟨75, 485⟩⟩, ⟨5, 5⟩⟩
    Bricks :=
      [⟨⟨⟨25, 100⟩, ⟨75, 125⟩⟩, 0⟩,
        ⟨⟨⟨75, 100⟩, ⟨125, 125⟩⟩, 1⟩,
        ⟨⟨⟨125, 100⟩, ⟨175, 125⟩⟩, 2⟩,
        ⟨⟨⟨225, 100⟩, ⟨275, 125⟩⟩, 4⟩,
        ⟨⟨⟨275, 100⟩, ⟨325, 125⟩⟩, 5⟩,
        ⟨⟨⟨375, 100⟩, ⟨425, 125⟩⟩, 7⟩] }

/-- The state of the game of `main` with draws 3 and 3 after 17 frames without input: the
ball, moving at (4, 4), is about to come down on the second brick of the row. -/
def brickTopRun : Game :=
  { Lives := 5
    Score := 0
    Paddle := ⟨⟨⟨25, 488⟩, ⟨125, 500⟩⟩, 0⟩
    Ball := ⟨⟨⟨93, 93⟩, ⟨98, 98⟩⟩, ⟨4, 4⟩⟩
    Bricks :=
      [⟨⟨⟨25, 100⟩, ⟨75, 125⟩⟩, 0⟩,
        ⟨⟨⟨75, 100⟩, ⟨125, 125⟩⟩, 1⟩,
        ⟨⟨⟨125, 100⟩, ⟨175, 125⟩⟩, 2⟩,
        ⟨⟨⟨175, 100⟩, ⟨225, 125⟩⟩, 3⟩,
        ⟨⟨⟨225, 100⟩, ⟨275, 125⟩⟩, 4⟩,
        ⟨⟨⟨275, 100⟩, ⟨325, 125⟩⟩, 5⟩,
        ⟨⟨⟨325, 100⟩, ⟨375, 125⟩⟩, 6⟩,
        ⟨⟨⟨375, 100⟩, ⟨425, 125⟩⟩, 7⟩,
        ⟨⟨⟨425, 100⟩, ⟨475, 125⟩⟩, 8⟩] }

/-- The state of the game of `main` with draws 4 and 3 after 158 frames without input: the
ball, moving at (-5, 4), has its top edge at 497 and is about to leave the field. -/
def bottomRun : Game :=
  { Lives := 5
    Score := 3
    Paddle := ⟨⟨⟨25, 488⟩, ⟨125, 500⟩⟩, 0⟩
    Ball := ⟨⟨⟨330, 497⟩, ⟨335, 502⟩⟩, ⟨-5, 4⟩⟩
    Bricks :=
      [⟨⟨⟨25, 100⟩, ⟨75, 125⟩⟩, 0⟩,
        ⟨⟨⟨175, 100⟩, ⟨225, 125⟩⟩, 3⟩,
        ⟨⟨⟨225, 100⟩, ⟨275, 125⟩⟩, 4⟩,
        ⟨⟨⟨275, 100⟩, ⟨325, 125⟩⟩, 5⟩,
        ⟨⟨⟨325, 100⟩, ⟨375, 125⟩⟩, 6⟩,
        ⟨⟨⟨375, 100⟩, ⟨425, 125⟩⟩, 7⟩,
        ⟨⟨⟨425, 100⟩, ⟨475, 125⟩⟩, 8⟩] }

/-- The state of the game of `main` with draws 4 and 4 after 153 frames without input: the
ball, moving at (-5, 5), is about to land on the left part of the paddle. -/
def paddleLeftRun : Game :=
  { Lives := 5
    Score := 20
    Paddle := ⟨⟨⟨25, 488⟩, ⟨125, 500⟩⟩, 0⟩
    Ball := ⟨⟨⟨40, 480⟩, ⟨45, 485⟩⟩, ⟨-5, 5⟩⟩
    Bricks :=
      [⟨⟨⟨25, 100⟩, ⟨75, 125⟩⟩, 0⟩,
        ⟨⟨⟨125, 100⟩, ⟨175, 125⟩⟩, 2⟩,
        ⟨⟨⟨175, 100⟩, ⟨225, 125⟩⟩, 3⟩,
        ⟨⟨⟨275, 100⟩, ⟨325, 125⟩⟩, 5⟩,
        ⟨⟨⟨325, 100⟩, ⟨375, 125⟩⟩, 6⟩] }

/-- The state of the game of `main` with draws 1 and 4 after 76 frames without input: the
ball, moving at (5, 5), is about to enter the eighth brick of the row flush with its left
edge `x = 375`, next to the seventh brick. -/
def keptBrickRun : Game :=
  { Lives := 5
    Score := 3
    Paddle := ⟨⟨⟨25, 488⟩, ⟨125, 500⟩⟩, 0⟩
    Ball := ⟨⟨⟨370, 95⟩, ⟨375, 100⟩⟩, ⟨5, 5⟩⟩
    Bricks :=
      [⟨⟨⟨75, 100⟩, ⟨125, 125⟩⟩, 1⟩,
        ⟨⟨⟨125, 100⟩, ⟨175, 125⟩⟩, 2⟩,
        ⟨⟨⟨225, 100⟩, ⟨275, 125⟩⟩, 4⟩,
        ⟨⟨⟨275, 100⟩, ⟨325, 125⟩⟩, 5⟩,
        ⟨⟨⟨325, 100⟩, ⟨375, 125⟩⟩, 6⟩,
        ⟨⟨⟨375, 100⟩, ⟨425, 125⟩⟩, 7⟩,
        ⟨⟨⟨425, 100⟩, ⟨475, 125⟩⟩, 8⟩] }

/-- The state of the game of `main` with draws 2 and 4 after 93 frames without input, one
frame with the pointer held at `x = 391` and 6 more frames without input: the ball,
moving at (10, -5), is inside the right end of the paddle, next to the right wall. -/
def wallPushRun : Game :=
  { Lives := 5
    Score := 1
    Paddle := ⟨⟨⟨371, 488⟩, ⟨471, 500⟩⟩, 0⟩
    Ball := ⟨⟨⟨465, 495⟩, ⟨470, 500⟩⟩, ⟨10, -5⟩⟩
    Bricks :=
      [⟨⟨⟨125, 100⟩, ⟨175, 125⟩⟩, 2⟩,
        ⟨⟨⟨175, 100⟩, ⟨225, 125⟩⟩, 3⟩,
        ⟨⟨⟨225, 100⟩, ⟨275, 125⟩⟩, 4⟩,
        ⟨⟨⟨275, 100⟩, ⟨325, 125⟩⟩, 5⟩,
        ⟨⟨⟨325, 100⟩, ⟨375, 125⟩⟩, 6⟩,
        ⟨⟨⟨375, 100⟩, ⟨425, 125⟩⟩, 7⟩,
        ⟨⟨⟨425, 100⟩, ⟨475, 125⟩⟩, 8⟩] }

/-- The state of the game of `main` with draws 2 and 2 after 222 frames without input,
one frame with the pointer held at `x = 77`, one with the pointer held at `x = 75` and
108 more frames without input: the ball, moving at (-3, 5), is about to enter the first
brick of the row flush with the left wall `x = 25`. -/
def wallBrickRun : Game :=
  { Lives := 5
    Score := 20
    Paddle := ⟨⟨⟨25, 488⟩, ⟨125, 500⟩⟩, 0⟩
    Ball := ⟨⟨⟨28, 95⟩, ⟨33, 100⟩⟩, ⟨-3, 5⟩⟩
    Bricks :=
      [⟨⟨⟨25, 100⟩, ⟨75, 125⟩⟩, 0⟩,
        ⟨⟨⟨225, 100⟩, ⟨275, 125⟩⟩, 4⟩,
        ⟨⟨⟨275, 100⟩, ⟨325, 125⟩⟩, 5⟩,
        ⟨⟨⟨375, 100⟩, ⟨425, 125⟩⟩, 7⟩] }

/-- Whether the brick loop, started in state `st` over the bricks given, hits no brick on
a side: every brick that it finds overlapped is overlapped wider than high. -/
def topHitsOnly (st : LoopState) : List Brick → Bool
  | [] => true
  | b :: bs =>
      ((st.ball.Rect.Intersect b.Rect).Empty ||
          decide ((st.ball.Rect.Intersect b.Rect).Size.X >
            (st.ball.Rect.Intersect b.Rect).Size.Y)) &&
        topHitsOnly (brickStep st b) bs

/-! ## The three paths of `Update` -/

set_option maxRecDepth 100000

/-- A terminal state (no lives or no bricks) is returned as it is. -/
theorem Update_terminal (g : Game) (inp : Input) (h : g.Lives = 0 ∨ g.Bricks = []) :
    Update g inp = g := by
  have h2 : g.Lives = 0 ∨ g.Bricks.length = 0 := by
    rcases h with h | h
    · exact Or.inl h
    · exact Or.inr (by simp [h])
  unfold Update
  rw [if_pos h2]

/-- The life-loss path: the moved ball has its top edge below the field. -/
theorem Update_lost (g : Game) (inp : Input) (hl : g.Lives ≠ 0) (hb : g.Bricks ≠ [])
    (hy : (moveBall g.Ball).Rect.Min.Y > GameHeight) :
    Update g inp =
      { Lives := g.Lives - 1
        Score := g.Score
        Paddle := stepPaddle g.Paddle inp
        Ball := NewBall inp.randX inp.randY
        Bricks := g.Bricks } := by
  have h2 : ¬ (g.Lives = 0 ∨ g.Bricks.length = 0) := by
    simp [hl, hb]
  simp only [Update, h2, if_false, hy, if_true]

/-- The playing path: walls, paddle, bricks and the final clamp. -/
theorem Update_play (g : Game) (inp : Input) (hl : g.Lives ≠ 0) (hb : g.Bricks ≠ [])
    (hy : ¬ (moveBall g.Ball).Rect.Min.Y > GameHeight) :
    Update g inp =
      { Lives := g.Lives
        Score :=
          (brickLoop ⟨hitPaddle (ballWalls (moveBall g.Ball)) (stepPaddle g.Paddle inp),
            g.Score, []⟩ g.Bricks).score
        Paddle := stepPaddle g.Paddle inp
        Ball :=
          { Rect :=
              (brickLoop ⟨hitPaddle (ballWalls (moveBall g.Ball)) (stepPaddle g.Paddle inp),
                g.Score, []⟩ g.Bricks).ball.Rect
            Vel :=
              ⟨Clamp (brickLoop ⟨hitPaddle (ballWalls (moveBall g.Ball))
                  (stepPaddle g.Paddle inp), g.Score, []⟩ g.Bricks).ball.Vel.X
                  (-BallMaxSpeed) BallMaxSpeed,
                Clamp (brickLoop ⟨hitPaddle (ballWalls (moveBall g.Ball))
                  (stepPaddle g.Paddle inp), g.Score, []⟩ g.Bricks).ball.Vel.Y
                  (-BallMaxSpeed) BallMaxSpeed⟩ }
        Bricks :=
          (brickLoop ⟨hitPaddle (ballWalls (moveBall g.Ball)) (stepPaddle g.Paddle inp),
            g.Score, []⟩ g.Bricks).remaining } := by
  have h2 : ¬ (g.Lives = 0 ∨ g.Bricks.length = 0) := by
    simp [hl, hb]
  simp only [Update, h2, if_false, hy]

/-- The result of `Clamp` lies between its bounds. -/
theorem Clamp_bounds (value min max : Int) (h : min ≤ max) :
    min ≤ Clamp value min max ∧ Clamp value min max ≤ max := by
  unfold Clamp
  split_ifs <;> omega

/-- The velocity of a fresh ball has both components in `[1, 5]`. -/
theorem NewBall_vel (rx ry : Nat) :
    1 ≤ (NewBall rx ry).Vel.X ∧ (NewBall rx ry).Vel.X ≤ 5 ∧
      1 ≤ (NewBall rx ry).Vel.Y ∧ (NewBall rx ry).Vel.Y ≤ 5 := by
  simp only [NewBall, Intn]
  omega

/-! ## The brick loop -/

/-- The loop over no bricks. -/
theorem brickLoop_nil (st : LoopState) : brickLoop st [] = st := rfl

/-- The loop visits the bricks in order. -/
theorem brickLoop_cons (st : LoopState) (b : Brick) (bs : List Brick) :
    brickLoop st (b :: bs) = brickLoop (brickStep st b) bs := rfl

/-- The loop over a concatenation. -/
theorem brickLoop_append (st : LoopState) (xs ys : List Brick) :
    brickLoop st (xs ++ ys) = brickLoop (brickLoop st xs) ys := by
  simp only [brickLoop, List.foldl_append]

/-- A brick that the ball does not overlap is appended to the survivors. -/
theorem brickStep_miss (st : LoopState) (b : Brick)
    (h : (st.ball.Rect.Intersect b.Rect).Empty = true) :
    brickStep st b = { st with remaining := st.remaining ++ [b] } := by
  simp only [brickStep, h, if_true]

/-- A brick that the ball overlaps is dropped, scored and resolved. -/
theorem brickStep_hit (st : LoopState) (b : Brick)
    (h : (st.ball.Rect.Intersect b.Rect).Empty = false) :
    brickStep st b =
      { ball := hitBrick st.ball b (st.ball.Rect.Intersect b.Rect)
        score := (st.score + b.Points) % 256
        remaining := st.remaining } := by
  simp [brickStep, h]

/-- The survivors already collected are a prefix of the final survivors; ball and score
do not depend on them. -/
theorem brickLoop_remaining (bs : List Brick) (st : LoopState) :
    brickLoop st bs =
      { ball := (brickLoop ⟨st.ball, st.score, []⟩ bs).ball
        score := (brickLoop ⟨st.ball, st.score, []⟩ bs).score
        remaining := st.remaining ++ (brickLoop ⟨st.ball, st.score, []⟩ bs).remaining } := by
  induction bs generalizing st with
  | nil => simp [brickLoop_nil]
  | cons b bs ih =>
      rw [brickLoop_cons, brickLoop_cons]
      cases h : (st.ball.Rect.Intersect b.Rect).Empty
      · rw [brickStep_hit st b h, brickStep_hit ⟨st.ball, st.score, []⟩ b h, ih]
      · rw [brickStep_miss st b h, brickStep_miss ⟨st.ball, st.score, []⟩ b h, ih]
        conv_rhs => rw [ih]
        simp

/-- The survivors of the loop are a sublist of the bricks it visits. -/
theorem brickLoop_sublist (bs : List Brick) (ball : Ball) (score : Nat) :
    (brickLoop ⟨ball, score, []⟩ bs).remaining.Sublist bs := by
  induction bs generalizing ball score with
  | nil => simp [brickLoop_nil]
  | cons b bs ih =>
      rw [brickLoop_cons]
      cases h : (ball.Rect.Intersect b.Rect).Empty
      · rw [brickStep_hit ⟨ball, score, []⟩ b h]
        exact List.Sublist.cons b (ih _ _)
      · rw [brickStep_miss ⟨ball, score, []⟩ b h, brickLoop_remaining]
        simpa using (ih ball score).cons₂ b

/-- The loop keeps a sublist of the bricks, and the score grows, modulo 256, by the
points of the bricks it drops. -/
theorem brickLoop_spec (bs : List Brick) (ball : Ball) (score : Nat) (hs : score < 256) :
    ∃ removed : List Brick,
      (brickLoop ⟨ball, score, []⟩ bs).remaining.Sublist bs ∧
      ((brickLoop ⟨ball, score, []⟩ bs).remaining ++ removed).Perm bs ∧
      (brickLoop ⟨ball, score, []⟩ bs).score = (score + sumPoints removed) % 256 := by
  induction bs generalizing ball score with
  | nil =>
      refine ⟨[], ?_, ?_, ?_⟩
      · simp [brickLoop_nil]
      · simp [brickLoop_nil]
      · simp [brickLoop_nil, sumPoints, Nat.mod_eq_of_lt hs]
  | cons b bs ih =>
      rw [brickLoop_cons]
      cases h : (ball.Rect.Intersect b.Rect).Empty
      · rw [brickStep_hit ⟨ball, score, []⟩ b h]
        obtain ⟨removed, h1, h2, h3⟩ :=
          ih (hitBrick ball b (ball.Rect.Intersect b.Rect)) ((score + b.Points) % 256)
            (Nat.mod_lt _ (by norm_num))
        refine ⟨b :: removed, ?_, ?_, ?_⟩
        · exact List.Sublist.cons b h1
        · exact List.perm_middle.trans (List.Perm.cons b h2)
        · rw [h3]
          simp only [sumPoints, List.map_cons, List.sum_cons]
          omega
      · rw [brickStep_miss ⟨ball, score, []⟩ b h, brickLoop_remaining]
        obtain ⟨removed, h1, h2, h3⟩ := ih ball score hs
        refine ⟨removed, ?_, ?_, ?_⟩
        · simpa using h1.cons₂ b
        · simpa using List.Perm.cons b h2
        · exact h3

/-- The bricks after a playing frame are the survivors of the brick loop. -/
theorem Update_play_Bricks (g : Game) (inp : Input) (hl : g.Lives ≠ 0) (hb : g.Bricks ≠ [])
    (hy : ¬ (moveBall g.Ball).Rect.Min.Y > GameHeight) :
    (Update g inp).Bricks = (brickLoop ⟨ballAtBricks g inp, g.Score, []⟩ g.Bricks).remaining := by
  rw [Update_play g inp hl hb hy, ballAtBricks]

/-- The score after a playing frame is the score at the end of the brick loop. -/
theorem Update_play_Score (g : Game) (inp : Input) (hl : g.Lives ≠ 0) (hb : g.Bricks ≠ [])
    (hy : ¬ (moveBall g.Ball).Rect.Min.Y > GameHeight) :
    (Update g inp).Score = (brickLoop ⟨ballAtBricks g inp, g.Score, []⟩ g.Bricks).score := by
  rw [Update_play g inp hl hb hy, ballAtBricks]

/-- Outside the playing path neither the score nor the bricks change. -/
theorem Update_idle_Score_Bricks (g : Game) (inp : Input)
    (h : g.Lives = 0 ∨ g.Bricks = [] ∨ (moveBall g.Ball).Rect.Min.Y > GameHeight) :
    (Update g inp).Score = g.Score ∧ (Update g inp).Bricks = g.Bricks := by
  by_cases ht : g.Lives = 0 ∨ g.Bricks = []
  · rw [Update_terminal g inp ht]
    exact ⟨rfl, rfl⟩
  · have hl : g.Lives ≠ 0 := fun h => ht (Or.inl h)
    have hb : g.Bricks ≠ [] := fun h => ht (Or.inr h)
    have hy : (moveBall g.Ball).Rect.Min.Y > GameHeight := by
      rcases h with h | h | h
      · exact absurd h hl
      · exact absurd h hb
      · exact h
    rw [Update_lost g inp hl hb hy]
    exact ⟨rfl, rfl⟩

/-- The survivors of a list split at a brick: those of the part before it, then the
brick itself if the ball misses it, then those of the part after it. -/
theorem brickLoop_split (st : LoopState) (pre post : List Brick) (b : Brick) :
    ((brickLoop st pre).ball.Rect.Intersect b.Rect).Empty = true →
        (brickLoop st (pre ++ b :: post)).remaining =
          (brickLoop st pre).remaining ++
            b :: (brickLoop ⟨(brickLoop st pre).ball, (brickLoop st pre).score, []⟩
              post).remaining := by
  intro h
  rw [brickLoop_append, brickLoop_cons, brickStep_miss (brickLoop st pre) b h,
    brickLoop_remaining]
  simp

/-- The survivors of a list split at a brick that the ball hits. -/
theorem brickLoop_split_hit (st : LoopState) (pre post : List Brick) (b : Brick) :
    ((brickLoop st pre).ball.Rect.Intersect b.Rect).Empty = false →
        (brickLoop st (pre ++ b :: post)).remaining =
          (brickLoop st pre).remaining ++
            (brickLoop ⟨hitBrick (brickLoop st pre).ball b
                ((brickLoop st pre).ball.Rect.Intersect b.Rect),
              ((brickLoop st pre).score + b.Points) % 256, []⟩ post).remaining := by
  intro h
  rw [brickLoop_append, brickLoop_cons, brickStep_hit (brickLoop st pre) b h,
    brickLoop_remaining]

/-! ## Collisions -/

/-- A non-empty intersection is the overlap of the two rectangles. -/
theorem Intersect_nonempty (r s : Rectangle) (h : (r.Intersect s).Empty = false) :
    r.Intersect s =
      ⟨⟨if r.Min.X < s.Min.X then s.Min.X else r.Min.X,
          if r.Min.Y < s.Min.Y then s.Min.Y else r.Min.Y⟩,
        ⟨if r.Max.X > s.Max.X then s.Max.X else r.Max.X,
          if r.Max.Y > s.Max.Y then s.Max.Y else r.Max.Y⟩⟩ := by
  unfold Rectangle.Intersect at h ⊢
  dsimp only at h ⊢
  by_cases he : (Rectangle.mk
      ⟨if r.Min.X < s.Min.X then s.Min.X else r.Min.X,
        if r.Min.Y < s.Min.Y then s.Min.Y else r.Min.Y⟩
      ⟨if r.Max.X > s.Max.X then s.Max.X else r.Max.X,
        if r.Max.Y > s.Max.Y then s.Max.Y else r.Max.Y⟩).Empty = true
  · rw [if_pos he] at h
    exact absurd h (by decide)
  · rw [if_neg he]

/-- Both rectangles of a non-empty intersection have a positive width. -/
theorem Intersect_nonempty_width (r s : Rectangle) (h : (r.Intersect s).Empty = false) :
    s.Min.X < s.Max.X ∧ s.Min.X ≤ (r.Intersect s).Min.X ∧
      (r.Intersect s).Max.X ≤ s.Max.X ∧ (r.Intersect s).Min.X < (r.Intersect s).Max.X := by
  have he := h
  rw [Intersect_nonempty r s h] at he ⊢
  simp only [Rectangle.Empty, Bool.or_eq_false_iff, decide_eq_false_iff_not, not_le,
    ge_iff_le] at he
  dsimp only
  obtain ⟨h1, _⟩ := he
  split_ifs at h1 ⊢ <;> omega

/-- Bricks that the ball does not overlap all survive, and the ball is not touched. -/
theorem brickLoop_all_miss (bs : List Brick) (st : LoopState)
    (h : ∀ x ∈ bs, (st.ball.Rect.Intersect x.Rect).Empty = true) :
    brickLoop st bs = { st with remaining := st.remaining ++ bs } := by
  induction bs generalizing st with
  | nil => simp [brickLoop_nil]
  | cons b bs ih =>
      rw [brickLoop_cons, brickStep_miss st b (h b (List.mem_cons_self b bs)), ih]
      · simp
      · intro x hx
        exact h x (List.mem_cons_of_mem b hx)

/-- With no pointer or key input a paddle at rest stays at rest. -/
theorem stepPaddle_rest (p : Paddle) (inp : Input) (hm : inp.mousePressed = false)
    (hkl : inp.keyLeft = false) (hkr : inp.keyRight = false) (hv : p.Vel = 0) :
    (stepPaddle p inp).Vel = 0 := by
  have hmove : movePaddle p inp = ⟨p.Rect.Add ⟨0, 0⟩, 0⟩ := by
    simp [movePaddle, hm, hkl, hkr, hv, Clamp, PaddleMaxSpeed]
  rw [stepPaddle, hmove]
  unfold paddleLeftWall paddleRightWall
  dsimp only
  split_ifs <;> rfl

/-- A hit on the top face of a paddle at rest: the ball is pushed up by the overlap
height and the velocity is chosen by the zone of the overlap centre. -/
theorem hitPaddle_top_rest (b : Ball) (p : Paddle)
    (hne : (b.Rect.Intersect p.Rect).Empty = false)
    (hwh : (b.Rect.Intersect p.Rect).Size.X > (b.Rect.Intersect p.Rect).Size.Y)
    (hv : p.Vel = 0) :
    hitPaddle b p =
      { Rect := b.Rect.Sub ⟨0, (b.Rect.Intersect p.Rect).Size.Y⟩
        Vel :=
          if (b.Rect.Intersect p.Rect).Min.X + (b.Rect.Intersect p.Rect).Size.X.tdiv 2 <
              p.Rect.Min.X + p.Rect.Dx.tdiv 4 then ⟨-5, -3⟩
          else if (b.Rect.Intersect p.Rect).Min.X + (b.Rect.Intersect p.Rect).Size.X.tdiv 2 >
              p.Rect.Max.X - p.Rect.Dx.tdiv 4 then ⟨5, -3⟩
          else ⟨b.Vel.X, -5⟩ } := by
  unfold hitPaddle
  simp only [hne, hwh, hv]
  simp only [Bool.false_eq_true, if_false, if_true, ne_eq, not_true_eq_false]
  split_ifs <;> rfl

/-- The ball and its velocity after a playing frame, from the state of the brick loop. -/
theorem Update_play_Ball (g : Game) (inp : Input) (hl : g.Lives ≠ 0) (hb : g.Bricks ≠ [])
    (hy : ¬ (moveBall g.Ball).Rect.Min.Y > GameHeight) :
    (Update g inp).Ball =
      { Rect := (brickLoop ⟨ballAtBricks g inp, g.Score, []⟩ g.Bricks).ball.Rect
        Vel :=
          ⟨Clamp (brickLoop ⟨ballAtBricks g inp, g.Score, []⟩ g.Bricks).ball.Vel.X (-10) 10,
            Clamp (brickLoop ⟨ballAtBricks g inp, g.Score, []⟩ g.Bricks).ball.Vel.Y
              (-10) 10⟩ } := by
  rw [Update_play g inp hl hb hy, ballAtBricks]

/-- A ball that does not overlap the paddle is not touched by it. -/
theorem hitPaddle_miss (b : Ball) (p : Paddle) (h : (b.Rect.Intersect p.Rect).Empty = true) :
    hitPaddle b p = b := by
  simp only [hitPaddle, h, if_true]

/-- A hit on the side of a brick: the ball is translated by the overlap width, away from
the brick edge that the overlap starts at, and its vertical velocity is negated. -/
theorem hitBrick_side (b : Ball) (brick : Brick) (d : Rectangle)
    (hhw : d.Size.Y ≥ d.Size.X) :
    hitBrick b brick d =
      if d.Min.X = brick.Rect.Min.X then
        { Rect := b.Rect.Sub ⟨d.Size.X, 0⟩, Vel := ⟨-5, b.Vel.Y * -1⟩ }
      else
        { Rect := b.Rect.Add ⟨d.Size.X, 0⟩, Vel := ⟨5, b.Vel.Y * -1⟩ } := by
  have h : ¬ d.Size.X > d.Size.Y := by omega
  simp only [hitBrick, h, if_false]
  split_ifs <;> rfl

/-! ## Ball velocity bound -/

/-- C1. After one `Update` of a non-terminal state (lives left, at least one brick) the
ball velocity has both components in `[-BallMaxSpeed, BallMaxSpeed]`, whatever the
velocity was before and whatever the input, on the life-loss path as well; hence the
bound holds in every state reachable from the game built in `main`. -/
theorem ball_velocity_bound :
    (∀ (g : Game) (inp : Input), g.Lives ≠ 0 → g.Bricks ≠ [] →
        (-10 ≤ (Update g inp).Ball.Vel.X ∧ (Update g inp).Ball.Vel.X ≤ 10) ∧
          (-10 ≤ (Update g inp).Ball.Vel.Y ∧ (Update g inp).Ball.Vel.Y ≤ 10)) ∧
      (∀ g : Game, Reachable g →
        (-10 ≤ g.Ball.Vel.X ∧ g.Ball.Vel.X ≤ 10) ∧
          (-10 ≤ g.Ball.Vel.Y ∧ g.Ball.Vel.Y ≤ 10)) := by
  have one : ∀ (g : Game) (inp : Input), g.Lives ≠ 0 → g.Bricks ≠ [] →
      (-10 ≤ (Update g inp).Ball.Vel.X ∧ (Update g inp).Ball.Vel.X ≤ 10) ∧
        (-10 ≤ (Update g inp).Ball.Vel.Y ∧ (Update g inp).Ball.Vel.Y ≤ 10) := by
    intro g inp hl hb
    by_cases hy : (moveBall g.Ball).Rect.Min.Y > GameHeight
    · rw [Update_lost g inp hl hb hy]
      have hv := NewBall_vel inp.randX inp.randY
      dsimp only
      omega
    · rw [Update_play g inp hl hb hy]
      exact ⟨Clamp_bounds _ (-10) 10 (by decide), Clamp_bounds _ (-10) 10 (by decide)⟩
  refine ⟨one, ?_⟩
  intro g hg
  induction hg with
  | init rx ry =>
      have hv := NewBall_vel rx ry
      simp only [mainGame]
      omega
  | @step s inp _ ih =>
      by_cases ht : s.Lives = 0 ∨ s.Bricks = []
      · rw [Update_terminal s inp ht]
        exact ih
      · have hl : s.Lives ≠ 0 := fun h => ht (Or.inl h)
        have hb : s.Bricks ≠ [] := fun h => ht (Or.inr h)
        exact one s inp hl hb

/-- The bound of C1 on the life-loss path of a concrete game. -/
theorem ball_velocity_bound_witness :
    (lossGame.Lives ≠ 0 ∧ lossGame.Bricks ≠ [] ∧
        (moveBall lossGame.Ball).Rect.Min.Y > GameHeight) ∧
      ((-10 ≤ (Update lossGame idle).Ball.Vel.X ∧ (Update lossGame idle).Ball.Vel.X ≤ 10) ∧
        (-10 ≤ (Update lossGame idle).Ball.Vel.Y ∧
          (Update lossGame idle).Ball.Vel.Y ≤ 10)) :=
  ⟨by decide, ball_velocity_bound.1 lossGame idle (by decide) (by decide)⟩

/-! ## Paddle containment -/

/-- In a non-terminal state the new paddle is the stepped paddle, on both paths. -/
theorem Update_Paddle (g : Game) (inp : Input) (hl : g.Lives ≠ 0) (hb : g.Bricks ≠ []) :
    (Update g inp).Paddle = stepPaddle g.Paddle inp := by
  by_cases hy : (moveBall g.Ball).Rect.Min.Y > GameHeight
  · rw [Update_lost g inp hl hb hy]
  · rw [Update_play g inp hl hb hy]

/-- Moving the paddle keeps its width. -/
theorem movePaddle_Dx (p : Paddle) (inp : Input) :
    (movePaddle p inp).Rect.Dx = p.Rect.Dx := by
  unfold movePaddle
  split_ifs <;> simp only [Rectangle.Dx, Rectangle.Add] <;> omega

/-- The two wall checks put a paddle of width `PaddleWidth` between the walls, and zero
its velocity when it had crossed one. -/
theorem paddleWalls_contained (q : Paddle) (hw : q.Rect.Dx = PaddleWidth) :
    (LeftWall ≤ (paddleLeftWall (paddleRightWall q)).Rect.Min.X ∧
        (paddleLeftWall (paddleRightWall q)).Rect.Max.X ≤ RightWall) ∧
      (q.Rect.Max.X > RightWall ∨ q.Rect.Min.X < LeftWall →
        (paddleLeftWall (paddleRightWall q)).Vel = 0) := by
  simp only [Rectangle.Dx, PaddleWidth, WallSize] at hw
  unfold paddleLeftWall paddleRightWall
  simp only [Rectangle.Sub, Rectangle.Add, RightWall, LeftWall, GameWidth, WallSize]
  split_ifs <;> (try dsimp only at *) <;> refine ⟨⟨?_, ?_⟩, ?_⟩ <;> omega

/-- C2. After one `Update` of a non-terminal state whose paddle is `PaddleWidth` wide the
paddle lies between the walls, `LeftWall <= Min.X` and `Max.X <= RightWall`, for every
input, a pointer drag to any cursor position included; and when the moved paddle had
crossed a wall, so that it was put back, its velocity is 0 afterwards. -/
theorem paddle_containment (g : Game) (inp : Input) (hl : g.Lives ≠ 0) (hb : g.Bricks ≠ [])
    (hw : g.Paddle.Rect.Dx = PaddleWidth) :
    (LeftWall ≤ (Update g inp).Paddle.Rect.Min.X ∧
        (Update g inp).Paddle.Rect.Max.X ≤ RightWall) ∧
      ((movePaddle g.Paddle inp).Rect.Max.X > RightWall ∨
          (movePaddle g.Paddle inp).Rect.Min.X < LeftWall →
        (Update g inp).Paddle.Vel = 0) := by
  rw [Update_Paddle g inp hl hb]
  exact paddleWalls_contained (movePaddle g.Paddle inp)
    ((movePaddle_Dx g.Paddle inp).trans hw)

/-- C2 for a pointer drag far beyond the right wall: the paddle is put back and stopped. -/
theorem paddle_containment_witness :
    ((mainGame 0 0).Lives ≠ 0 ∧ (mainGame 0 0).Bricks ≠ [] ∧
        (mainGame 0 0).Paddle.Rect.Dx = PaddleWidth ∧
        (movePaddle (mainGame 0 0).Paddle dragFar).Rect.Max.X > RightWall) ∧
      ((LeftWall ≤ (Update (mainGame 0 0) dragFar).Paddle.Rect.Min.X ∧
          (Update (mainGame 0 0) dragFar).Paddle.Rect.Max.X ≤ RightWall) ∧
        ((movePaddle (mainGame 0 0).Paddle dragFar).Rect.Max.X > RightWall ∨
            (movePaddle (mainGame 0 0).Paddle dragFar).Rect.Min.X < LeftWall →
          (Update (mainGame 0 0) dragFar).Paddle.Vel = 0)) :=
  ⟨by decide, paddle_containment (mainGame 0 0) dragFar (by decide) (by decide) (by decide)⟩
/-! ## Terminal absorption -/

/-- C3. In a state with no lives or no bricks, `Update` returns the state unchanged in
every field, for every input, and so does every sequence of `Update` calls; in
particular, once an `Update` has removed the last brick, all later calls are no-ops. -/
theorem terminal_absorption (g : Game) (h : g.Lives = 0 ∨ g.Bricks = []) :
    (∀ inp : Input, Update g inp = g) ∧
      (∀ inps : List Input, inps.foldl Update g = g) := by
  have one : ∀ inp : Input, Update g inp = g := fun inp => Update_terminal g inp h
  refine ⟨one, ?_⟩
  intro inps
  induction inps with
  | nil => rfl
  | cons inp rest ih =>
      rw [List.foldl_cons, one inp]
      exact ih

/-- The scenario of C3: one `Update` removes the last brick, and every later `Update`
leaves the state as it is. -/
theorem terminal_absorption_witness :
    (lastBrickGame.Bricks ≠ [] ∧ (Update lastBrickGame idle).Bricks = []) ∧
      ((∀ inp : Input, Update (Update lastBrickGame idle) inp = Update lastBrickGame idle) ∧
        (∀ inps : List Input,
          inps.foldl Update (Update lastBrickGame idle) = Update lastBrickGame idle)) :=
  ⟨by decide, terminal_absorption (Update lastBrickGame idle) (Or.inr (by decide))⟩

/-! ## Brick removal -/

/-- C5. For every state and input the bricks after `Update` are a sublist of the bricks
before (nothing added, changed or reordered), so their number does not grow; outside the
playing path the list is unchanged; and on the playing path a brick whose rectangle has
an empty intersection with the ball, as the ball stands when the loop reaches that
brick, is kept in its place, so a dropped brick had a non-empty intersection (and a
brick with a non-empty intersection is dropped). -/
theorem brick_removal (g : Game) (inp : Input) :
    (Update g inp).Bricks.Sublist g.Bricks ∧
      (Update g inp).Bricks.length ≤ g.Bricks.length ∧
      (g.Lives = 0 ∨ g.Bricks = [] ∨ (moveBall g.Ball).Rect.Min.Y > GameHeight →
        (Update g inp).Bricks = g.Bricks) ∧
      (g.Lives ≠ 0 → ¬ (moveBall g.Ball).Rect.Min.Y > GameHeight →
        ∀ (pre post : List Brick) (b : Brick), g.Bricks = pre ++ b :: post →
          (((brickLoop ⟨ballAtBricks g inp, g.Score, []⟩ pre).ball.Rect.Intersect
                b.Rect).Empty = true →
            (Update g inp).Bricks =
              (brickLoop ⟨ballAtBricks g inp, g.Score, []⟩ pre).remaining ++
                b :: (brickLoop ⟨(brickLoop ⟨ballAtBricks g inp, g.Score, []⟩ pre).ball,
                  (brickLoop ⟨ballAtBricks g inp, g.Score, []⟩ pre).score, []⟩
                  post).remaining) ∧
          (((brickLoop ⟨ballAtBricks g inp, g.Score, []⟩ pre).ball.Rect.Intersect
                b.Rect).Empty = false →
            (Update g inp).Bricks =
              (brickLoop ⟨ballAtBricks g inp, g.Score, []⟩ pre).remaining ++
                (brickLoop ⟨hitBrick (brickLoop ⟨ballAtBricks g inp, g.Score, []⟩ pre).ball b
                    ((brickLoop ⟨ballAtBricks g inp, g.Score, []⟩ pre).ball.Rect.Intersect
                      b.Rect),
                  ((brickLoop ⟨ballAtBricks g inp, g.Score, []⟩ pre).score + b.Points) % 256,
                  []⟩ post).remaining)) := by
  have sub : (Update g inp).Bricks.Sublist g.Bricks := by
    by_cases h : g.Lives = 0 ∨ g.Bricks = [] ∨ (moveBall g.Ball).Rect.Min.Y > GameHeight
    · rw [(Update_idle_Score_Bricks g inp h).2]
    · have hl : g.Lives ≠ 0 := fun e => h (Or.inl e)
      have hb : g.Bricks ≠ [] := fun e => h (Or.inr (Or.inl e))
      have hy : ¬ (moveBall g.Ball).Rect.Min.Y > GameHeight := fun e => h (Or.inr (Or.inr e))
      rw [Update_play_Bricks g inp hl hb hy]
      exact brickLoop_sublist g.Bricks _ _
  refine ⟨sub, sub.length_le, fun h => (Update_idle_Score_Bricks g inp h).2, ?_⟩
  intro hl hy pre post b hsplit
  have hb : g.Bricks ≠ [] := by
    rw [hsplit]
    simp
  rw [Update_play_Bricks g inp hl hb hy, hsplit]
  exact ⟨brickLoop_split _ pre post b, brickLoop_split_hit _ pre post b⟩

/-- C5 on the game of `main` with the ball entering the last brick: the brick 3 of the
row is missed and kept between the survivors before and after it. -/
theorem brick_removal_witness :
    (wrapGame.Lives ≠ 0 ∧ ¬ (moveBall wrapGame.Ball).Rect.Min.Y > GameHeight ∧
        wrapGame.Bricks = wrapGame.Bricks.take 3 ++
          ⟨⟨⟨175, 100⟩, ⟨225, 125⟩⟩, 3⟩ :: wrapGame.Bricks.drop 4 ∧
        (Update wrapGame idle).Bricks = wrapGame.Bricks.take 8) ∧
      (Update wrapGame idle).Bricks.Sublist wrapGame.Bricks ∧
      (Update wrapGame idle).Bricks =
        (brickLoop ⟨ballAtBricks wrapGame idle, wrapGame.Score, []⟩
            (wrapGame.Bricks.take 3)).remaining ++
          ⟨⟨⟨175, 100⟩, ⟨225, 125⟩⟩, 3⟩ ::
            (brickLoop
              ⟨(brickLoop ⟨ballAtBricks wrapGame idle, wrapGame.Score, []⟩
                  (wrapGame.Bricks.take 3)).ball,
                (brickLoop ⟨ballAtBricks wrapGame idle, wrapGame.Score, []⟩
                  (wrapGame.Bricks.take 3)).score, []⟩
              (wrapGame.Bricks.drop 4)).remaining :=
  ⟨by decide, (brick_removal wrapGame idle).1,
    ((brick_removal wrapGame idle).2.2.2 (by decide) (by decide)
      (wrapGame.Bricks.take 3) (wrapGame.Bricks.drop 4) ⟨⟨⟨175, 100⟩, ⟨225, 125⟩⟩, 3⟩
      (by decide)).1 (by decide)⟩

/-! ## Lives -/

/-- C7. From a state with `Lives >= 0`, `Update` leaves `Lives >= 0`; `Lives` is
unchanged or lower by exactly one, and it is lower exactly when the state was not
terminal and the top edge of the ball, after the ball is moved by its velocity, is
strictly greater than `GameHeight`. -/
theorem lives_invariant (g : Game) (inp : Input) (h : 0 ≤ g.Lives) :
    0 ≤ (Update g inp).Lives ∧
      ((Update g inp).Lives = g.Lives ∨ (Update g inp).Lives = g.Lives - 1) ∧
      ((Update g inp).Lives = g.Lives - 1 ↔
        (g.Lives ≠ 0 ∧ g.Bricks ≠ []) ∧ (moveBall g.Ball).Rect.Min.Y > GameHeight) := by
  by_cases ht : g.Lives = 0 ∨ g.Bricks = []
  · rw [Update_terminal g inp ht]
    refine ⟨h, Or.inl rfl, ?_⟩
    constructor
    · intro h1
      omega
    · rintro ⟨⟨hl, hb⟩, _⟩
      rcases ht with ht | ht
      · exact absurd ht hl
      · exact absurd ht hb
  · have hl : g.Lives ≠ 0 := fun h => ht (Or.inl h)
    have hb : g.Bricks ≠ [] := fun h => ht (Or.inr h)
    by_cases hy : (moveBall g.Ball).Rect.Min.Y > GameHeight
    · rw [Update_lost g inp hl hb hy]
      dsimp only
      refine ⟨by omega, Or.inr rfl, ?_⟩
      exact ⟨fun _ => ⟨⟨hl, hb⟩, hy⟩, fun _ => rfl⟩
    · rw [Update_play g inp hl hb hy]
      dsimp only
      refine ⟨h, Or.inl rfl, ?_⟩
      constructor
      · intro h1
        omega
      · rintro ⟨_, h2⟩
        exact absurd h2 hy

/-- C7 on a concrete game that loses a life: `Lives` goes from 5 to 4. -/
theorem lives_invariant_witness :
    (0 ≤ lossGame.Lives ∧ (Update lossGame idle).Lives = 4) ∧
      (0 ≤ (Update lossGame idle).Lives ∧
        ((Update lossGame idle).Lives = lossGame.Lives ∨
          (Update lossGame idle).Lives = lossGame.Lives - 1) ∧
        ((Update lossGame idle).Lives = lossGame.Lives - 1 ↔
          (lossGame.Lives ≠ 0 ∧ lossGame.Bricks ≠ []) ∧
            (moveBall lossGame.Ball).Rect.Min.Y > GameHeight)) :=
  ⟨by decide, lives_invariant lossGame idle (by decide)⟩

/-! ## Clamp -/

/-- C8. For `min <= max`, `Clamp value min max` lies in `[min, max]`, equals `value`
when `min <= value <= max`, equals `min` when `value < min` and `max` when
`value > max`; clamping a clamped value changes nothing. -/
theorem clamp_contract (value min max : Int) (h : min ≤ max) :
    (min ≤ Clamp value min max ∧ Clamp value min max ≤ max) ∧
      (min ≤ value → value ≤ max → Clamp value min max = value) ∧
      (value < min → Clamp value min max = min) ∧
      (value > max → Clamp value min max = max) ∧
      Clamp (Clamp value min max) min max = Clamp value min max := by
  unfold Clamp
  refine ⟨?_, ?_, ?_, ?_, ?_⟩
  · split_ifs
    all_goals omega
  · intro h1 h2
    split_ifs
    all_goals omega
  · intro h1
    split_ifs
    all_goals omega
  · intro h1
    split_ifs
    all_goals omega
  · split_ifs <;> first | rfl | omega

/-- C8 at `value = 37`, `min = -10`, `max = 10`: the result is 10. -/
theorem clamp_contract_witness :
    ((-10 : Int) ≤ 10 ∧ Clamp 37 (-10) 10 = 10) ∧
      ((-10 ≤ Clamp 37 (-10) 10 ∧ Clamp 37 (-10) 10 ≤ 10) ∧
        (-10 ≤ (37 : Int) → (37 : Int) ≤ 10 → Clamp 37 (-10) 10 = 37) ∧
        ((37 : Int) < -10 → Clamp 37 (-10) 10 = -10) ∧
        ((37 : Int) > 10 → Clamp 37 (-10) 10 = 10) ∧
        Clamp (Clamp 37 (-10) 10) (-10) 10 = Clamp 37 (-10) 10) :=
  ⟨by decide, clamp_contract 37 (-10) 10 (by decide)⟩

/-! ## Brick side hit -/

/-- C10, as the code has it. Non-terminal state, no life lost; `β` is the moved,
wall-resolved ball, which overlaps neither the updated paddle nor any brick listed before
the brick `b`, and `d` is its overlap with `b`, non-empty and at least as high as wide.
If the ball, once translated by the overlap width, overlaps none of the bricks listed
after `b`, then `Update` removes exactly `b`, adds its `Points` to the score (modulo
256), sets `vy` to the negated wall-resolved `vy` clamped to `[-10, 10]`, and: if the
left edge of the overlap is not the left edge of the brick, translates the ball right by
the overlap width and sets `vx = 5`; if it is, translates the ball left and sets
`vx = -5`. When the overlap does not start at the left edge of the brick and reaches
`b.Max.X`, the ball ends with its left edge at `b.Max.X`. -/
theorem brick_side_hit (g : Game) (inp : Input) (β : Ball) (P : Paddle) (d : Rectangle)
    (pre post : List Brick) (b : Brick)
    (hβ : β = ballWalls (moveBall g.Ball)) (hP : P = stepPaddle g.Paddle inp)
    (hd : d = β.Rect.Intersect b.Rect)
    (hl : g.Lives ≠ 0) (hy : ¬ (moveBall g.Ball).Rect.Min.Y > GameHeight)
    (hsplit : g.Bricks = pre ++ b :: post)
    (hpad : (β.Rect.Intersect P.Rect).Empty = true)
    (hpre : ∀ x ∈ pre, (β.Rect.Intersect x.Rect).Empty = true)
    (hne : d.Empty = false) (hhw : d.Size.Y ≥ d.Size.X)
    (hpost : ∀ x ∈ post,
      ((if d.Min.X = b.Rect.Min.X then β.Rect.Sub ⟨d.Size.X, 0⟩
        else β.Rect.Add ⟨d.Size.X, 0⟩).Intersect x.Rect).Empty = true) :
    (Update g inp).Bricks = pre ++ post ∧
      (Update g inp).Score = (g.Score + b.Points) % 256 ∧
      (Update g inp).Ball.Vel.Y = Clamp (-β.Vel.Y) (-10) 10 ∧
      (d.Min.X ≠ b.Rect.Min.X →
        (Update g inp).Ball.Rect = β.Rect.Add ⟨d.Size.X, 0⟩ ∧
          (Update g inp).Ball.Vel.X = 5) ∧
      (d.Min.X = b.Rect.Min.X →
        (Update g inp).Ball.Rect = β.Rect.Sub ⟨d.Size.X, 0⟩ ∧
          (Update g inp).Ball.Vel.X = -5) ∧
      (d.Min.X ≠ b.Rect.Min.X → d.Max.X = b.Rect.Max.X →
        (Update g inp).Ball.Rect.Min.X = b.Rect.Max.X) := by
  have hb : g.Bricks ≠ [] := by
    rw [hsplit]
    simp
  have hstart : ballAtBricks g inp = β := by
    rw [ballAtBricks, ← hβ, ← hP]
    exact hitPaddle_miss β P hpad
  have hloop : brickLoop ⟨ballAtBricks g inp, g.Score, []⟩ g.Bricks =
      ⟨hitBrick β b d, (g.Score + b.Points) % 256, pre ++ post⟩ := by
    rw [hstart, hsplit, brickLoop_append, brickLoop_all_miss pre ⟨β, g.Score, []⟩ hpre,
      brickLoop_cons, brickStep_hit _ b (by rw [← hd]; exact hne), ← hd,
      brickLoop_all_miss post _ (by rw [hitBrick_side β b d hhw]; split_ifs at hpost ⊢ <;> exact hpost)]
    simp
  have hbricks := Update_play_Bricks g inp hl hb hy
  have hscore := Update_play_Score g inp hl hb hy
  have hball := Update_play_Ball g inp hl hb hy
  rw [hloop] at hbricks hscore hball
  rw [hitBrick_side β b d hhw] at hball
  have hneg : β.Vel.Y * -1 = -β.Vel.Y := by omega
  refine ⟨hbricks, hscore, ?_, ?_, ?_, ?_⟩
  · rw [hball]
    split_ifs <;> simp only [hneg]
  · intro h1
    rw [hball, if_neg h1]
    exact ⟨rfl, rfl⟩
  · intro h1
    rw [hball, if_pos h1]
    exact ⟨rfl, rfl⟩
  · intro h1 h2
    rw [hball, if_neg h1]
    rw [hd] at h1 h2 hne
    rw [hd]
    rw [Intersect_nonempty β.Rect b.Rect hne] at h1 h2 ⊢
    simp only [Rectangle.Add, Rectangle.Size] at h1 h2 ⊢
    split_ifs at h1 h2 ⊢ <;> omega

/-- C10 on a ball that moves onto the right edge of a brick: the brick goes, the score
grows by its 4 points and the ball ends at the edge `x = 250` with velocity `(5, 5)`. -/
theorem brick_side_hit_witness :
    (Update edgeHitGame idle).Ball = ⟨⟨⟨250, 110⟩, ⟨255, 115⟩⟩, ⟨5, 5⟩⟩ ∧
      (Update edgeHitGame idle).Bricks = [] ++ [⟨⟨⟨300, 100⟩, ⟨350, 125⟩⟩, 6⟩] ∧
      (Update edgeHitGame idle).Score = (edgeHitGame.Score + 4) % 256 ∧
      (Update edgeHitGame idle).Ball.Vel.Y =
        Clamp (-(ballWalls (moveBall edgeHitGame.Ball)).Vel.Y) (-10) 10 ∧
      (Update edgeHitGame idle).Ball.Rect.Min.X = 250 :=
  ⟨by decide,
    (brick_side_hit edgeHitGame idle _ _ _ [] [⟨⟨⟨300, 100⟩, ⟨350, 125⟩⟩, 6⟩]
      ⟨⟨⟨200, 100⟩, ⟨250, 125⟩⟩, 4⟩ rfl rfl rfl (by decide) (by decide) rfl (by decide)
      (by decide) (by decide) (by decide) (by decide)).1,
    (brick_side_hit edgeHitGame idle _ _ _ [] [⟨⟨⟨300, 100⟩, ⟨350, 125⟩⟩, 6⟩]
      ⟨⟨⟨200, 100⟩, ⟨250, 125⟩⟩, 4⟩ rfl rfl rfl (by decide) (by decide) rfl (by decide)
      (by decide) (by decide) (by decide) (by decide)).2.1,
    (brick_side_hit edgeHitGame idle _ _ _ [] [⟨⟨⟨300, 100⟩, ⟨350, 125⟩⟩, 6⟩]
      ⟨⟨⟨200, 100⟩, ⟨250, 125⟩⟩, 4⟩ rfl rfl rfl (by decide) (by decide) rfl (by decide)
      (by decide) (by decide) (by decide) (by decide)).2.2.1,
    (brick_side_hit edgeHitGame idle _ _ _ [] [⟨⟨⟨300, 100⟩, ⟨350, 125⟩⟩, 6⟩]
      ⟨⟨⟨200, 100⟩, ⟨250, 125⟩⟩, 4⟩ rfl rfl rfl (by decide) (by decide) rfl (by decide)
      (by decide) (by decide) (by decide) (by decide)).2.2.2.2.2 (by decide) (by decide)⟩

/-- C10, as stated, fails twice. In the brick row of `main`, a ball that enters the first
brick two units from the second one overlaps exactly one brick; translated right by the
overlap width it overlaps the second brick, which is removed too and sends the ball back
left. And a ball with vertical velocity -20 does not end with `vy = 20`: the final clamp
makes it 10. -/
theorem brick_side_hit_counterexample :
    ((ballWalls (moveBall doubleHitGame.Ball)).Rect = ⟨⟨68, 120⟩, ⟨73, 125⟩⟩ ∧
        (Update doubleHitGame idle).Ball = ⟨⟨⟨70, 120⟩, ⟨75, 125⟩⟩, ⟨-5, -5⟩⟩ ∧
        (Update doubleHitGame idle).Bricks = doubleHitGame.Bricks.drop 2 ∧
        (Update doubleHitGame idle).Score = 1 ∧
        (ballWalls (moveBall fastSideGame.Ball)).Vel = ⟨3, -20⟩ ∧
        (Update fastSideGame idle).Ball.Vel = ⟨5, 10⟩) ∧
      (¬ ∀ (g : Game) (inp : Input) (β : Ball) (P : Paddle) (d : Rectangle)
        (pre post : List Brick) (b : Brick),
        β = ballWalls (moveBall g.Ball) → P = stepPaddle g.Paddle inp →
        d = β.Rect.Intersect b.Rect →
        g.Lives ≠ 0 → ¬ (moveBall g.Ball).Rect.Min.Y > GameHeight →
        g.Bricks = pre ++ b :: post →
        (β.Rect.Intersect P.Rect).Empty = true →
        (∀ x ∈ pre ++ post, (β.Rect.Intersect x.Rect).Empty = true) →
        d.Empty = false → d.Size.Y ≥ d.Size.X →
        (Update g inp).Bricks = pre ++ post ∧
          (Update g inp).Score = (g.Score + b.Points) % 256 ∧
          (d.Min.X ≠ b.Rect.Min.X →
            (Update g inp).Ball.Rect = β.Rect.Add ⟨d.Size.X, 0⟩ ∧
              (Update g inp).Ball.Vel.X = 5)) ∧
      (¬ ∀ (g : Game) (inp : Input) (β : Ball) (P : Paddle) (d : Rectangle)
        (pre post : List Brick) (b : Brick),
        β = ballWalls (moveBall g.Ball) → P = stepPaddle g.Paddle inp →
        d = β.Rect.Intersect b.Rect →
        g.Lives ≠ 0 → ¬ (moveBall g.Ball).Rect.Min.Y > GameHeight →
        g.Bricks = pre ++ b :: post →
        (β.Rect.Intersect P.Rect).Empty = true →
        (∀ x ∈ pre ++ post, (β.Rect.Intersect x.Rect).Empty = true) →
        d.Empty = false → d.Size.Y ≥ d.Size.X →
        (Update g inp).Ball.Vel.Y = -β.Vel.Y) := by
  refine ⟨by decide, ?_, ?_⟩
  · intro h
    have h1 := (h doubleHitGame idle _ _ _ [] (doubleHitGame.Bricks.drop 1)
      ⟨⟨⟨25, 100⟩, ⟨75, 125⟩⟩, 0⟩ rfl rfl rfl (by decide) (by decide) (by decide)
      (by decide) (by decide) (by decide) (by decide)).1
    revert h1
    decide
  · intro h
    have h1 := h fastSideGame idle _ _ _ [] (fastSideGame.Bricks.drop 1)
      ⟨⟨⟨25, 100⟩, ⟨75, 125⟩⟩, 0⟩ rfl rfl rfl (by decide) (by decide) (by decide)
      (by decide) (by decide) (by decide) (by decide)
    revert h1
    decide

/-! ## More about the phases of `Update` -/

/-- A hit on the top face of a moving paddle: only the horizontal velocity changes. -/
theorem hitPaddle_top_moving (b : Ball) (p : Paddle)
    (hne : (b.Rect.Intersect p.Rect).Empty = false)
    (hwh : (b.Rect.Intersect p.Rect).Size.X > (b.Rect.Intersect p.Rect).Size.Y)
    (hv : p.Vel ≠ 0) :
    hitPaddle b p = { Rect := b.Rect, Vel := ⟨p.Vel, b.Vel.Y⟩ } := by
  unfold hitPaddle
  simp only [hne, hwh]
  simp only [Bool.false_eq_true, if_false, if_true]
  rw [if_pos hv]

/-- A hit on a side face of the paddle: the ball is translated by the overlap width, away
from the paddle edge that the overlap starts at, and its vertical velocity is negated. -/
theorem hitPaddle_side (b : Ball) (p : Paddle)
    (hne : (b.Rect.Intersect p.Rect).Empty = false)
    (hhw : (b.Rect.Intersect p.Rect).Size.Y ≥ (b.Rect.Intersect p.Rect).Size.X) :
    hitPaddle b p =
      if (b.Rect.Intersect p.Rect).Min.X = p.Rect.Min.X then
        { Rect := b.Rect.Sub ⟨(b.Rect.Intersect p.Rect).Size.X, 0⟩
          Vel := ⟨-10, b.Vel.Y * -1⟩ }
      else
        { Rect := b.Rect.Add ⟨(b.Rect.Intersect p.Rect).Size.X, 0⟩
          Vel := ⟨10, b.Vel.Y * -1⟩ } := by
  have h : ¬ (b.Rect.Intersect p.Rect).Size.X > (b.Rect.Intersect p.Rect).Size.Y := by
    omega
  unfold hitPaddle
  simp only [hne, h]
  simp only [Bool.false_eq_true, if_false]

/-- A hit on the top or bottom face of a brick: the ball is moved up by the overlap
height and the velocity is chosen by the third of the brick that the overlap centre
falls in. -/
theorem hitBrick_top (b : Ball) (brick : Brick) (d : Rectangle)
    (hwh : d.Size.X > d.Size.Y) :
    hitBrick b brick d =
      { Rect := b.Rect.Sub ⟨0, d.Size.Y⟩
        Vel :=
          if d.Min.X + d.Size.X.tdiv 2 < brick.Rect.Min.X + brick.Rect.Dx.tdiv 3 then
            ⟨-3, b.Vel.Y⟩
          else if d.Min.X + d.Size.X.tdiv 2 > brick.Rect.Max.X - brick.Rect.Dx.tdiv 3 then
            ⟨3, b.Vel.Y⟩
          else if d.Min.Y + d.Size.Y.tdiv 2 < brick.Rect.Min.Y + brick.Rect.Dy.tdiv 2 then
            ⟨b.Vel.X, -5⟩
          else ⟨b.Vel.X, 5⟩ } := by
  simp only [hitBrick, hwh, if_true]
  split_ifs <;> rfl

/-- The playing frame in which the brick loop hits nothing: the ball found by the loop
is the ball of the new state, clamped, and all bricks stay. -/
theorem Update_play_no_brick (g : Game) (inp : Input) (hl : g.Lives ≠ 0) (hb : g.Bricks ≠ [])
    (hy : ¬ (moveBall g.Ball).Rect.Min.Y > GameHeight)
    (hbr : ∀ x ∈ g.Bricks, ((ballAtBricks g inp).Rect.Intersect x.Rect).Empty = true) :
    (Update g inp).Ball =
        { Rect := (ballAtBricks g inp).Rect
          Vel := ⟨Clamp (ballAtBricks g inp).Vel.X (-10) 10,
            Clamp (ballAtBricks g inp).Vel.Y (-10) 10⟩ } ∧
      (Update g inp).Bricks = g.Bricks ∧ (Update g inp).Score = g.Score := by
  have hloop := brickLoop_all_miss g.Bricks ⟨ballAtBricks g inp, g.Score, []⟩ hbr
  have hball := Update_play_Ball g inp hl hb hy
  have hbricks := Update_play_Bricks g inp hl hb hy
  have hscore := Update_play_Score g inp hl hb hy
  rw [hloop] at hball hbricks hscore
  exact ⟨hball, by simpa using hbricks, hscore⟩

/-- The three wall checks on a ball of width 5: the ball is moved back by the overflow on
the right or the left wall and on the top wall, and the velocity component across each
crossed wall is negated. -/
theorem ballWalls_spec (m : Ball) (hdx : m.Rect.Dx = 5) :
    ballWalls m =
      { Rect :=
          m.Rect.Add
            ⟨if m.Rect.Max.X > 475 then -(m.Rect.Max.X - 475)
              else if m.Rect.Min.X < 25 then 25 - m.Rect.Min.X else 0,
             if m.Rect.Min.Y < 25 then 25 - m.Rect.Min.Y else 0⟩
        Vel :=
          ⟨if m.Rect.Max.X > 475 ∨ m.Rect.Min.X < 25 then -m.Vel.X else m.Vel.X,
           if m.Rect.Min.Y < 25 then -m.Vel.Y else m.Vel.Y⟩ } := by
  obtain ⟨⟨⟨x0, y0⟩, ⟨x1, y1⟩⟩, ⟨vx, vy⟩⟩ := m
  simp only [Rectangle.Dx] at hdx
  unfold ballWalls ballTopWall ballLeftWall ballRightWall
  simp only [Rectangle.Add, Rectangle.Sub, RightWall, LeftWall, TopWall, GameWidth, WallSize]
  split_ifs <;> (try dsimp only at *) <;>
    (try simp only [Ball.mk.injEq, Rectangle.mk.injEq, Point.mk.injEq, and_true, true_and]) <;>
    omega

/-- Moving the ball keeps its width. -/
theorem moveBall_Dx (b : Ball) : (moveBall b).Rect.Dx = b.Rect.Dx := by
  simp only [moveBall, Rectangle.Dx, Rectangle.Add]
  omega

/-- The paddle update moves the paddle horizontally only. -/
theorem stepPaddle_Y (p : Paddle) (inp : Input) :
    (stepPaddle p inp).Rect.Min.Y = p.Rect.Min.Y ∧
      (stepPaddle p inp).Rect.Max.Y = p.Rect.Max.Y := by
  unfold stepPaddle paddleLeftWall paddleRightWall movePaddle
  simp only [Rectangle.Add, Rectangle.Sub]
  split_ifs <;> (try dsimp only at *) <;> omega

/-- Two rectangles of which the first ends where the second begins, or higher, have an
empty intersection. -/
theorem Intersect_above (r s : Rectangle) (h : r.Max.Y ≤ s.Min.Y) :
    (r.Intersect s).Empty = true := by
  unfold Rectangle.Intersect
  dsimp only
  have he : (Rectangle.mk
      ⟨if r.Min.X < s.Min.X then s.Min.X else r.Min.X,
        if r.Min.Y < s.Min.Y then s.Min.Y else r.Min.Y⟩
      ⟨if r.Max.X > s.Max.X then s.Max.X else r.Max.X,
        if r.Max.Y > s.Max.Y then s.Max.Y else r.Max.Y⟩).Empty = true := by
    simp only [Rectangle.Empty, Bool.or_eq_true, decide_eq_true_eq]
    right
    split_ifs <;> omega
  rw [if_pos he]
  decide

/-- The velocity that the keyboard branch of the paddle update computes. -/
theorem movePaddle_keys (p : Paddle) (inp : Input) (hm : inp.mousePressed = false) :
    movePaddle p inp =
      { Rect := p.Rect.Add ⟨(movePaddle p inp).Vel, 0⟩, Vel := (movePaddle p inp).Vel } := by
  simp only [movePaddle, hm, Bool.false_eq_true, if_false]

/-- The two wall checks leave the paddle velocity as it is or set it to 0. -/
theorem paddleWalls_Vel (q : Paddle) :
    (paddleLeftWall (paddleRightWall q)).Vel = q.Vel ∨
      (paddleLeftWall (paddleRightWall q)).Vel = 0 := by
  unfold paddleLeftWall paddleRightWall
  dsimp only
  split_ifs
  · exact Or.inr rfl
  · exact Or.inr rfl
  · exact Or.inr rfl
  · exact Or.inl rfl

/-- With no pointer or key input the paddle velocity moves toward zero by `PaddleDecel`
and is clamped. -/
theorem movePaddle_idle_Vel (p : Paddle) (inp : Input) (hm : inp.mousePressed = false)
    (hkl : inp.keyLeft = false) (hkr : inp.keyRight = false) :
    (movePaddle p inp).Vel =
      Clamp (if p.Vel > 0 then p.Vel - 2 else if p.Vel < 0 then p.Vel + 2 else p.Vel)
        (-10) 10 := by
  simp only [movePaddle, hm, hkl, hkr, Bool.false_eq_true, if_false]

/-- An odd velocity of magnitude at most 11 decelerates to an odd velocity of magnitude
at most 11: the step of 2 jumps over zero. -/
theorem decel_odd (v : Int) (hodd : v % 2 = 1) (hlo : -11 ≤ v) (hhi : v ≤ 11) :
    Clamp (if v > 0 then v - 2 else if v < 0 then v + 2 else v) (-10) 10 =
        (if v > 0 then v - 2 else v + 2) ∧
      (if v > 0 then v - 2 else v + 2) % 2 = 1 ∧
      -11 ≤ (if v > 0 then v - 2 else v + 2) ∧ (if v > 0 then v - 2 else v + 2) ≤ 11 := by
  unfold Clamp
  split_ifs <;> omega

/-- A paddle between the walls is left alone by the two wall checks. -/
theorem paddleWalls_inside (q : Paddle) (h1 : q.Rect.Max.X ≤ RightWall)
    (h2 : LeftWall ≤ q.Rect.Min.X) : paddleLeftWall (paddleRightWall q) = q := by
  simp only [RightWall, LeftWall, GameWidth, WallSize] at h1 h2
  have e1 : paddleRightWall q = q := by
    unfold paddleRightWall
    simp only [RightWall, GameWidth, WallSize]
    rw [if_neg (by omega)]
  rw [e1]
  unfold paddleLeftWall
  simp only [LeftWall, WallSize]
  rw [if_neg (by omega)]

/-- The points of a brick list do not depend on the order of the bricks. -/
theorem sumPoints_perm {xs ys : List Brick} (h : xs.Perm ys) : sumPoints xs = sumPoints ys := by
  unfold sumPoints
  exact (h.map Brick.Points).sum_eq

/-- The points of a concatenation. -/
theorem sumPoints_append (xs ys : List Brick) :
    sumPoints (xs ++ ys) = sumPoints xs + sumPoints ys := by
  simp [sumPoints]

/-- In every state with a score below 256, the bricks that `Update` removes account for
the new score modulo 256. -/
theorem Update_removed (g : Game) (inp : Input) (hs : g.Score < 256) :
    ∃ removed : List Brick,
      ((Update g inp).Bricks ++ removed).Perm g.Bricks ∧
      (Update g inp).Score = (g.Score + sumPoints removed) % 256 := by
  by_cases h : g.Lives = 0 ∨ g.Bricks = [] ∨ (moveBall g.Ball).Rect.Min.Y > GameHeight
  · obtain ⟨h1, h2⟩ := Update_idle_Score_Bricks g inp h
    refine ⟨[], ?_, ?_⟩
    · rw [h2, List.append_nil]
    · rw [h1]
      simp [sumPoints, Nat.mod_eq_of_lt hs]
  · have hl : g.Lives ≠ 0 := fun e => h (Or.inl e)
    have hb : g.Bricks ≠ [] := fun e => h (Or.inr (Or.inl e))
    have hy : ¬ (moveBall g.Ball).Rect.Min.Y > GameHeight := fun e => h (Or.inr (Or.inr e))
    obtain ⟨removed, _, h2, h3⟩ := brickLoop_spec g.Bricks (ballAtBricks g inp) g.Score hs
    refine ⟨removed, ?_, ?_⟩
    · rw [Update_play_Bricks g inp hl hb hy]
      exact h2
    · rw [Update_play_Score g inp hl hb hy]
      exact h3

/-- Every state obtained from a reachable state by further `Update` calls is reachable. -/
theorem Reachable_foldl (inps : List Input) (g : Game) (h : Reachable g) :
    Reachable (inps.foldl Update g) := by
  induction inps generalizing g with
  | nil => exact h
  | cons inp rest ih => exact ih (Update g inp) (Reachable.step inp h)

/-! ## Brick push-back -/

/-- C12 at a hit from below. In the game of `main` the ball moves up to (43,123)-(48,128)
and overlaps the bottom edge of the first brick, (25,100)-(75,125), by 5 wide and 2 high.
The brick branch of `Update` moves the ball up by the overlap height, as it does for a
hit from above: the ball ends at (43,121)-(48,126), deeper in the rectangle of the brick,
which it now overlaps by 4. -/
theorem brick_bottom_push :
    (ballWalls (moveBall bottomHitGame.Ball)).Rect = ⟨⟨43, 123⟩, ⟨48, 128⟩⟩ ∧
      bottomHitGame.Bricks.head? = some ⟨⟨⟨25, 100⟩, ⟨75, 125⟩⟩, 0⟩ ∧
      (ballWalls (moveBall bottomHitGame.Ball)).Rect.Intersect ⟨⟨25, 100⟩, ⟨75, 125⟩⟩ =
        ⟨⟨43, 123⟩, ⟨48, 125⟩⟩ ∧
      (hitBrick (ballWalls (moveBall bottomHitGame.Ball)) ⟨⟨⟨25, 100⟩, ⟨75, 125⟩⟩, 0⟩
        ⟨⟨43, 123⟩, ⟨48, 125⟩⟩).Rect = ⟨⟨43, 121⟩, ⟨48, 126⟩⟩ ∧
      (Update bottomHitGame idle).Ball.Rect = ⟨⟨43, 121⟩, ⟨48, 126⟩⟩ ∧
      (Update bottomHitGame idle).Ball.Rect.Intersect ⟨⟨25, 100⟩, ⟨75, 125⟩⟩ =
        ⟨⟨43, 121⟩, ⟨48, 125⟩⟩ ∧
      ((Update bottomHitGame idle).Ball.Rect.Intersect ⟨⟨25, 100⟩, ⟨75, 125⟩⟩).Empty =
        false := by
  decide

/-! ## Moving paddle -/

/-- C14. Non-terminal state, no life lost; `β` is the moved, wall-resolved ball, `P` the
updated paddle with a velocity other than 0, and `d` their overlap, non-empty and wider
than high; `β` overlaps no brick. Then `Update` leaves the ball rectangle at `β` (no
push-back), sets `vx` to the paddle velocity clamped to `[-10, 10]`, and leaves `vy`
un-inverted: it is the wall-resolved `vy` clamped to `[-10, 10]`, of the same sign, and
unchanged when it lies in that range. -/
theorem moving_paddle (g : Game) (inp : Input) (β : Ball) (P : Paddle) (d : Rectangle)
    (hβ : β = ballWalls (moveBall g.Ball)) (hP : P = stepPaddle g.Paddle inp)
    (hd : d = β.Rect.Intersect P.Rect)
    (hl : g.Lives ≠ 0) (hb : g.Bricks ≠ [])
    (hy : ¬ (moveBall g.Ball).Rect.Min.Y > GameHeight)
    (hv : P.Vel ≠ 0) (hne : d.Empty = false) (hwh : d.Size.X > d.Size.Y)
    (hbr : ∀ x ∈ g.Bricks, (β.Rect.Intersect x.Rect).Empty = true) :
    (Update g inp).Ball.Rect = β.Rect ∧
      (Update g inp).Ball.Vel.X = Clamp P.Vel (-10) 10 ∧
      (Update g inp).Ball.Vel.Y = Clamp β.Vel.Y (-10) 10 ∧
      (0 < β.Vel.Y → 0 < (Update g inp).Ball.Vel.Y) ∧
      (β.Vel.Y < 0 → (Update g inp).Ball.Vel.Y < 0) ∧
      (-10 ≤ β.Vel.Y → β.Vel.Y ≤ 10 → (Update g inp).Ball.Vel.Y = β.Vel.Y) ∧
      (-10 ≤ P.Vel → P.Vel ≤ 10 → (Update g inp).Ball.Vel.X = P.Vel) := by
  have hhit : ballAtBricks g inp = { Rect := β.Rect, Vel := ⟨P.Vel, β.Vel.Y⟩ } := by
    rw [ballAtBricks, ← hβ, ← hP]
    rw [hd] at hne hwh
    exact hitPaddle_top_moving β P hne hwh hv
  have hplay := (Update_play_no_brick g inp hl hb hy (by rw [hhit]; exact hbr)).1
  rw [hhit] at hplay
  rw [hplay]
  dsimp only
  refine ⟨rfl, rfl, rfl, ?_, ?_, ?_, ?_⟩ <;> unfold Clamp <;> intros <;> split_ifs <;> omega

/-- C14 on a ball that lands on the paddle of `main` while the right key moves it: the
ball stays at (70,485)-(75,490), inside the paddle, with velocity `(5, 3)`. -/
theorem moving_paddle_witness :
    (Update paddleTopGame pressRight).Ball = ⟨⟨⟨70, 485⟩, ⟨75, 490⟩⟩, ⟨5, 3⟩⟩ ∧
      (Update paddleTopGame pressRight).Ball.Rect =
        (ballWalls (moveBall paddleTopGame.Ball)).Rect ∧
      (Update paddleTopGame pressRight).Ball.Vel.X =
        Clamp (stepPaddle paddleTopGame.Paddle pressRight).Vel (-10) 10 :=
  ⟨by decide,
    (moving_paddle paddleTopGame pressRight _ _ _ rfl rfl rfl (by decide) (by decide)
      (by decide) (by decide) (by decide) (by decide) (by decide)).1,
    (moving_paddle paddleTopGame pressRight _ _ _ rfl rfl rfl (by decide) (by decide)
      (by decide) (by decide) (by decide) (by decide) (by decide)).2.1⟩

/-! ## Keyboard -/

/-- C18. Non-terminal state with the pointer button not held and old paddle velocity `v`.
The velocity before the wall checks is `Clamp (v - 5)` if the left key is held, also when
the right key is held too, `Clamp (v + 5)` if only the right key is held, and with no key
`Clamp (v - 2)` for `v > 0`, `Clamp (v + 2)` for `v < 0` and 0 for `v = 0`, the clamp
being to `[-10, 10]`. The paddle rectangle is translated horizontally by exactly that
velocity, the paddle of the new state is the result of the two wall checks, and its
velocity lies in `[-10, 10]`. -/
theorem keyboard_paddle (g : Game) (inp : Input) (hl : g.Lives ≠ 0) (hb : g.Bricks ≠ [])
    (hm : inp.mousePressed = false) :
    (inp.keyLeft = true →
        (movePaddle g.Paddle inp).Vel = Clamp (g.Paddle.Vel - 5) (-10) 10) ∧
      (inp.keyLeft = false → inp.keyRight = true →
        (movePaddle g.Paddle inp).Vel = Clamp (g.Paddle.Vel + 5) (-10) 10) ∧
      (inp.keyLeft = false → inp.keyRight = false →
        (g.Paddle.Vel > 0 → (movePaddle g.Paddle inp).Vel = Clamp (g.Paddle.Vel - 2) (-10) 10) ∧
        (g.Paddle.Vel < 0 → (movePaddle g.Paddle inp).Vel = Clamp (g.Paddle.Vel + 2) (-10) 10) ∧
        (g.Paddle.Vel = 0 → (movePaddle g.Paddle inp).Vel = 0)) ∧
      (movePaddle g.Paddle inp).Rect = g.Paddle.Rect.Add ⟨(movePaddle g.Paddle inp).Vel, 0⟩ ∧
      (Update g inp).Paddle = paddleLeftWall (paddleRightWall (movePaddle g.Paddle inp)) ∧
      (-10 ≤ (Update g inp).Paddle.Vel ∧ (Update g inp).Paddle.Vel ≤ 10) := by
  have hvel : (movePaddle g.Paddle inp).Vel =
      Clamp (if inp.keyLeft = true then g.Paddle.Vel - 5
        else if inp.keyRight = true then g.Paddle.Vel + 5
        else if g.Paddle.Vel > 0 then g.Paddle.Vel - 2
        else if g.Paddle.Vel < 0 then g.Paddle.Vel + 2
        else g.Paddle.Vel) (-10) 10 := by
    simp only [movePaddle, hm, Bool.false_eq_true, if_false]
  have hbound := Clamp_bounds (if inp.keyLeft = true then g.Paddle.Vel - 5
        else if inp.keyRight = true then g.Paddle.Vel + 5
        else if g.Paddle.Vel > 0 then g.Paddle.Vel - 2
        else if g.Paddle.Vel < 0 then g.Paddle.Vel + 2
        else g.Paddle.Vel) (-10) 10 (by decide)
  rw [← hvel] at hbound
  refine ⟨?_, ?_, ?_, ?_, ?_, ?_⟩
  · intro h1
    rw [hvel, if_pos h1]
  · intro h1 h2
    rw [hvel, if_neg (by simp [h1]), if_pos h2]
  · intro h1 h2
    rw [hvel, if_neg (by simp [h1]), if_neg (by simp [h2])]
    refine ⟨?_, ?_, ?_⟩
    · intro h3
      rw [if_pos h3]
    · intro h3
      rw [if_neg (by omega), if_pos h3]
    · intro h3
      rw [if_neg (by omega), if_neg (by omega), h3]
      rfl
  · conv_lhs => rw [movePaddle_keys g.Paddle inp hm]
  · rw [Update_Paddle g inp hl hb, stepPaddle]
  · rw [Update_Paddle g inp hl hb, stepPaddle]
    rcases paddleWalls_Vel (movePaddle g.Paddle inp) with h | h
    · rw [h]
      exact hbound
    · rw [h]
      decide

/-- C18 on the paddle moving right at 5 with the right key held: the velocity becomes
10 and the paddle moves from (200..300) to (210..310). -/
theorem keyboard_paddle_witness :
    (Update coastGame pressRight).Paddle = ⟨⟨⟨210, 488⟩, ⟨310, 500⟩⟩, 10⟩ ∧
      (movePaddle coastGame.Paddle pressRight).Vel = Clamp (coastGame.Paddle.Vel + 5) (-10) 10 ∧
      (-10 ≤ (Update coastGame pressRight).Paddle.Vel ∧
        (Update coastGame pressRight).Paddle.Vel ≤ 10) :=
  ⟨by decide,
    (keyboard_paddle coastGame pressRight (by decide) (by decide) rfl).2.1 rfl rfl,
    (keyboard_paddle coastGame pressRight (by decide) (by decide) rfl).2.2.2.2.2⟩

/-! ## Deceleration -/

/-- C19, as the code has it. With no pointer or key input in a non-terminal state: a
paddle strictly between the walls with velocity 1 has velocity -1 after one `Update`,
and from -1 it has velocity 1; an odd velocity `v` with `|v| <= 11`, in a frame without
wall contact, becomes `v - 2` for `v > 0` and `v + 2` for `v < 0` (so 5 goes 3, 1, -1, 1,
-1, ...); and over any run of such frames without wall contact the velocity stays odd,
hence is never 0. -/
theorem decel_overshoot :
    (∀ (g : Game) (inp : Input), g.Lives ≠ 0 → g.Bricks ≠ [] →
        inp.mousePressed = false → inp.keyLeft = false → inp.keyRight = false →
        LeftWall < g.Paddle.Rect.Min.X → g.Paddle.Rect.Max.X < RightWall →
        (g.Paddle.Vel = 1 → (Update g inp).Paddle.Vel = -1) ∧
          (g.Paddle.Vel = -1 → (Update g inp).Paddle.Vel = 1)) ∧
      (∀ (g : Game) (inp : Input), g.Lives ≠ 0 → g.Bricks ≠ [] →
        inp.mousePressed = false → inp.keyLeft = false → inp.keyRight = false →
        g.Paddle.Vel % 2 = 1 → -11 ≤ g.Paddle.Vel → g.Paddle.Vel ≤ 11 →
        stepPaddle g.Paddle inp = movePaddle g.Paddle inp →
        (Update g inp).Paddle.Vel = (if g.Paddle.Vel > 0 then g.Paddle.Vel - 2
          else g.Paddle.Vel + 2)) ∧
      (∀ (g : Game) (inps : List Input),
        (∀ i ∈ inps, i.mousePressed = false ∧ i.keyLeft = false ∧ i.keyRight = false) →
        g.Paddle.Vel % 2 = 1 → -11 ≤ g.Paddle.Vel → g.Paddle.Vel ≤ 11 →
        (∀ (k : Nat) (hk : k < inps.length),
          stepPaddle ((inps.take k).foldl Update g).Paddle inps[k] =
            movePaddle ((inps.take k).foldl Update g).Paddle inps[k]) →
        (inps.foldl Update g).Paddle.Vel % 2 = 1 ∧ (inps.foldl Update g).Paddle.Vel ≠ 0) := by
  have step : ∀ (g : Game) (inp : Input), g.Lives ≠ 0 → g.Bricks ≠ [] →
      inp.mousePressed = false → inp.keyLeft = false → inp.keyRight = false →
      g.Paddle.Vel % 2 = 1 → -11 ≤ g.Paddle.Vel → g.Paddle.Vel ≤ 11 →
      stepPaddle g.Paddle inp = movePaddle g.Paddle inp →
      (Update g inp).Paddle.Vel = (if g.Paddle.Vel > 0 then g.Paddle.Vel - 2
        else g.Paddle.Vel + 2) := by
    intro g inp hl hb hm hkl hkr hodd hlo hhi hfree
    rw [Update_Paddle g inp hl hb, hfree, movePaddle_idle_Vel g.Paddle inp hm hkl hkr]
    exact (decel_odd g.Paddle.Vel hodd hlo hhi).1
  refine ⟨?_, step, ?_⟩
  · intro g inp hl hb hm hkl hkr hleft hright
    have hmv := movePaddle_idle_Vel g.Paddle inp hm hkl hkr
    have hrect : (movePaddle g.Paddle inp).Rect =
        g.Paddle.Rect.Add ⟨(movePaddle g.Paddle inp).Vel, 0⟩ := by
      simp only [movePaddle, hm, Bool.false_eq_true, if_false]
    rw [Update_Paddle g inp hl hb, stepPaddle]
    simp only [LeftWall, RightWall, GameWidth, WallSize] at hleft hright
    constructor
    · intro hv
      rw [hv] at hmv
      have hv1 : (movePaddle g.Paddle inp).Vel = -1 := by
        rw [hmv]
        decide
      rw [hv1] at hrect
      rw [paddleWalls_inside (movePaddle g.Paddle inp)
        (by rw [hrect]; simp only [Rectangle.Add, RightWall, GameWidth, WallSize]; omega)
        (by rw [hrect]; simp only [Rectangle.Add, LeftWall, WallSize]; omega)]
      exact hv1
    · intro hv
      rw [hv] at hmv
      have hv1 : (movePaddle g.Paddle inp).Vel = 1 := by
        rw [hmv]
        decide
      rw [hv1] at hrect
      rw [paddleWalls_inside (movePaddle g.Paddle inp)
        (by rw [hrect]; simp only [Rectangle.Add, RightWall, GameWidth, WallSize]; omega)
        (by rw [hrect]; simp only [Rectangle.Add, LeftWall, WallSize]; omega)]
      exact hv1
  · intro g inps
    induction inps generalizing g with
    | nil =>
        intro _ hodd _ _ _
        show g.Paddle.Vel % 2 = 1 ∧ g.Paddle.Vel ≠ 0
        exact ⟨hodd, by omega⟩
    | cons inp rest ih =>
        intro hidle hodd hlo hhi hfree
        rw [List.foldl_cons]
        have hin := hidle inp (List.mem_cons_self inp rest)
        have h0 := hfree 0 (by simp)
        simp only [List.take_zero, List.foldl_nil, List.getElem_cons_zero] at h0
        have hnext : (Update g inp).Paddle.Vel % 2 = 1 ∧ -11 ≤ (Update g inp).Paddle.Vel ∧
            (Update g inp).Paddle.Vel ≤ 11 := by
          by_cases ht : g.Lives = 0 ∨ g.Bricks = []
          · rw [Update_terminal g inp ht]
            exact ⟨hodd, hlo, hhi⟩
          · rw [step g inp (fun h => ht (Or.inl h)) (fun h => ht (Or.inr h)) hin.1 hin.2.1
              hin.2.2 hodd hlo hhi h0]
            exact (decel_odd g.Paddle.Vel hodd hlo hhi).2
        apply ih (Update g inp) (fun i hi => hidle i (List.mem_cons_of_mem inp hi))
          hnext.1 hnext.2.1 hnext.2.2
        intro k hk
        have hk1 := hfree (k + 1) (by simp; omega)
        simpa using hk1

/-- C19 on the paddle of `coastGame`, velocity 5, over five frames without input: the
velocity goes 3, 1, -1, 1 and is odd after the fifth frame. -/
theorem decel_overshoot_witness :
    ((List.replicate 1 idle).foldl Update coastGame).Paddle.Vel = 3 ∧
      ((List.replicate 2 idle).foldl Update coastGame).Paddle.Vel = 1 ∧
      ((List.replicate 3 idle).foldl Update coastGame).Paddle.Vel = -1 ∧
      ((List.replicate 4 idle).foldl Update coastGame).Paddle.Vel = 1 ∧
      ((List.replicate 5 idle).foldl Update coastGame).Paddle.Vel % 2 = 1 ∧
      ((List.replicate 5 idle).foldl Update coastGame).Paddle.Vel ≠ 0 :=
  ⟨by decide, by decide, by decide, by decide,
    decel_overshoot.2.2 coastGame (List.replicate 5 idle) (by decide) (by decide) (by decide)
      (by decide) (by decide)⟩

/-- C19, as stated, fails for odd velocities above 11, which a pointer drag produces: a
drag by 13 leaves the paddle with velocity 13; with no further input and no wall contact
the next velocity is 11 clamped to 10, an even number, and the velocity goes 10, 8, 6, 4,
2, 0: it is 0 after the sixth frame. -/
theorem decel_overshoot_counterexample :
    ((Update restGame drag263).Paddle = ⟨⟨⟨213, 488⟩, ⟨313, 500⟩⟩, 13⟩ ∧
        ((List.replicate 1 idle).foldl Update (Update restGame drag263)).Paddle.Vel = 10 ∧
        ((List.replicate 5 idle).foldl Update (Update restGame drag263)).Paddle.Vel = 2 ∧
        ((List.replicate 6 idle).foldl Update (Update restGame drag263)).Paddle.Vel = 0) ∧
      ¬ ∀ (g : Game) (inps : List Input),
        (∀ i ∈ inps, i.mousePressed = false ∧ i.keyLeft = false ∧ i.keyRight = false) →
        g.Paddle.Vel % 2 = 1 →
        (∀ (k : Nat) (hk : k < inps.length),
          stepPaddle ((inps.take k).foldl Update g).Paddle inps[k] =
            movePaddle ((inps.take k).foldl Update g).Paddle inps[k]) →
        (inps.foldl Update g).Paddle.Vel ≠ 0 := by
  refine ⟨by decide, ?_⟩
  intro h
  exact h (Update restGame drag263) (List.replicate 6 idle) (by decide) (by decide)
    (by decide) (by decide)

/-! ## Score conservation -/

/-- C20. The game built in `main` has 9 bricks, brick `i` at `x` in `[25 + 50 i,
75 + 50 i]`, `y` in `[100, 125]`, worth `i` points, and score 0. In every state reachable
from it by `Update` calls with any inputs, the score plus the points of the remaining
bricks is 36, so the score is at most 36; and from a reachable state `Update` adds the
points of the bricks it removes without wrapping. -/
theorem score_conservation :
    (∀ rx ry : Nat,
        (mainGame rx ry).Bricks =
          (List.range 9).map
            (fun i => ⟨⟨⟨25 + 50 * (i : Int), 100⟩, ⟨75 + 50 * (i : Int), 125⟩⟩, i⟩) ∧
        (mainGame rx ry).Bricks.length = 9 ∧ (mainGame rx ry).Score = 0) ∧
      (∀ g : Game, Reachable g → g.Score + sumPoints g.Bricks = 36 ∧ g.Score ≤ 36) ∧
      (∀ (g : Game) (inp : Input), Reachable g →
        ∃ removed : List Brick,
          ((Update g inp).Bricks ++ removed).Perm g.Bricks ∧
            (Update g inp).Score = g.Score + sumPoints removed) := by
  have inv : ∀ g : Game, Reachable g → g.Score + sumPoints g.Bricks = 36 := by
    intro g hg
    induction hg with
    | init rx ry =>
        show (mainGame 0 0).Score + sumPoints (mainGame 0 0).Bricks = 36
        decide
    | @step s inp _ ih =>
        obtain ⟨removed, hperm, hscore⟩ := Update_removed s inp (by omega)
        have hsum := sumPoints_perm hperm
        rw [sumPoints_append] at hsum
        rw [hscore, Nat.mod_eq_of_lt (by omega)]
        omega
  have row : ∀ rx ry : Nat,
      (mainGame rx ry).Bricks =
          (List.range 9).map
            (fun i => ⟨⟨⟨25 + 50 * (i : Int), 100⟩, ⟨75 + 50 * (i : Int), 125⟩⟩, i⟩) ∧
        (mainGame rx ry).Bricks.length = 9 ∧ (mainGame rx ry).Score = 0 := by
    intro rx ry
    have e : (mainGame rx ry).Bricks = (mainGame 0 0).Bricks := rfl
    rw [e]
    exact ⟨by decide, by decide, rfl⟩
  refine ⟨row, fun g hg => ⟨inv g hg, ?_⟩, ?_⟩
  · have := inv g hg
    omega
  · intro g inp hg
    have h36 := inv g hg
    obtain ⟨removed, hperm, hscore⟩ := Update_removed g inp (by omega)
    have hsum := sumPoints_perm hperm
    rw [sumPoints_append] at hsum
    refine ⟨removed, hperm, ?_⟩
    rw [hscore, Nat.mod_eq_of_lt (by omega)]

/-- C20 on the state reached from `mainGame 4 4` after 15 frames without input: the ball
has just removed the second brick of the row, the score is 1 and the remaining bricks
are worth 35. -/
theorem score_conservation_witness :
    (((List.replicate 15 idle).foldl Update (mainGame 4 4)).Score = 1 ∧
        ((List.replicate 15 idle).foldl Update (mainGame 4 4)).Bricks.length = 8) ∧
      ((List.replicate 15 idle).foldl Update (mainGame 4 4)).Score +
          sumPoints ((List.replicate 15 idle).foldl Update (mainGame 4 4)).Bricks = 36 ∧
      ((List.replicate 15 idle).foldl Update (mainGame 4 4)).Score ≤ 36 :=
  ⟨by decide,
    score_conservation.2.1 _ (Reachable_foldl (List.replicate 15 idle) (mainGame 4 4)
      (Reachable.init 4 4))⟩

/-! ## Geometry of overlaps -/

/-- The intersection of two rectangles is empty exactly when the candidate overlap is. -/
theorem Intersect_Empty_eq (r s : Rectangle) :
    (r.Intersect s).Empty =
      (Rectangle.mk
        ⟨if r.Min.X < s.Min.X then s.Min.X else r.Min.X,
          if r.Min.Y < s.Min.Y then s.Min.Y else r.Min.Y⟩
        ⟨if r.Max.X > s.Max.X then s.Max.X else r.Max.X,
          if r.Max.Y > s.Max.Y then s.Max.Y else r.Max.Y⟩).Empty := by
  unfold Rectangle.Intersect
  dsimp only
  by_cases he : (Rectangle.mk
      ⟨if r.Min.X < s.Min.X then s.Min.X else r.Min.X,
        if r.Min.Y < s.Min.Y then s.Min.Y else r.Min.Y⟩
      ⟨if r.Max.X > s.Max.X then s.Max.X else r.Max.X,
        if r.Max.Y > s.Max.Y then s.Max.Y else r.Max.Y⟩).Empty = true
  · rw [if_pos he, he]
    decide
  · rw [if_neg he]

/-- Two rectangles with points of their own have an empty intersection exactly when one
of them ends where the other begins, or before, along one of the axes. -/
theorem Intersect_empty_iff (r s : Rectangle)
    (hr : r.Min.X < r.Max.X ∧ r.Min.Y < r.Max.Y) (hs : s.Min.X < s.Max.X ∧ s.Min.Y < s.Max.Y) :
    (r.Intersect s).Empty = true ↔
      (r.Max.X ≤ s.Min.X ∨ s.Max.X ≤ r.Min.X ∨ r.Max.Y ≤ s.Min.Y ∨ s.Max.Y ≤ r.Min.Y) := by
  rw [Intersect_Empty_eq]
  simp only [Rectangle.Empty, Bool.or_eq_true, decide_eq_true_eq, ge_iff_le]
  split_ifs
  all_goals omega

/-- The overlap of two rectangles with a non-empty intersection, edge by edge. -/
theorem Intersect_edges (r s : Rectangle) (h : (r.Intersect s).Empty = false) :
    ((r.Intersect s).Min.X = if r.Min.X < s.Min.X then s.Min.X else r.Min.X) ∧
      ((r.Intersect s).Min.Y = if r.Min.Y < s.Min.Y then s.Min.Y else r.Min.Y) ∧
      ((r.Intersect s).Max.X = if r.Max.X > s.Max.X then s.Max.X else r.Max.X) ∧
      ((r.Intersect s).Max.Y = if r.Max.Y > s.Max.Y then s.Max.Y else r.Max.Y) ∧
      (r.Intersect s).Min.X < (r.Intersect s).Max.X ∧
      (r.Intersect s).Min.Y < (r.Intersect s).Max.Y := by
  have he := h
  rw [Intersect_nonempty r s h] at he ⊢
  simp only [Rectangle.Empty, Bool.or_eq_false_iff, decide_eq_false_iff_not, not_le,
    ge_iff_le] at he
  exact ⟨rfl, rfl, rfl, rfl, he.1, he.2⟩

/-- Two rectangles of which the first begins where the second ends, or lower, have an
empty intersection. -/
theorem Intersect_below (r s : Rectangle) (h : s.Max.Y ≤ r.Min.Y) :
    (r.Intersect s).Empty = true := by
  rw [Intersect_Empty_eq]
  simp only [Rectangle.Empty, Bool.or_eq_true, decide_eq_true_eq, ge_iff_le]
  right
  split_ifs <;> omega

/-- The rectangle of the ball after the paddle check: where it was, moved up by the
overlap height, or moved left or right by the overlap width. -/
theorem hitPaddle_Rect (b : Ball) (p : Paddle) :
    (hitPaddle b p).Rect = b.Rect ∨
      ((b.Rect.Intersect p.Rect).Empty = false ∧
        ((hitPaddle b p).Rect = b.Rect.Sub ⟨0, (b.Rect.Intersect p.Rect).Size.Y⟩ ∨
          (hitPaddle b p).Rect = b.Rect.Sub ⟨(b.Rect.Intersect p.Rect).Size.X, 0⟩ ∨
          (hitPaddle b p).Rect = b.Rect.Add ⟨(b.Rect.Intersect p.Rect).Size.X, 0⟩)) := by
  cases h : (b.Rect.Intersect p.Rect).Empty
  · by_cases hwh : (b.Rect.Intersect p.Rect).Size.X > (b.Rect.Intersect p.Rect).Size.Y
    · by_cases hv : p.Vel = 0
      · right
        refine ⟨rfl, Or.inl ?_⟩
        rw [hitPaddle_top_rest b p h hwh hv]
      · left
        rw [hitPaddle_top_moving b p h hwh hv]
    · right
      refine ⟨rfl, Or.inr ?_⟩
      rw [hitPaddle_side b p h (by omega)]
      split_ifs
      · left; rfl
      · right; rfl
  · left
    rw [hitPaddle_miss b p h]

/-- The rectangle of the ball after a brick hit: moved up by the overlap height, or moved
left or right by the overlap width. -/
theorem hitBrick_Rect (b : Ball) (brick : Brick) (d : Rectangle) :
    (d.Size.X > d.Size.Y ∧ (hitBrick b brick d).Rect = b.Rect.Sub ⟨0, d.Size.Y⟩) ∨
      (d.Size.Y ≥ d.Size.X ∧
        ((hitBrick b brick d).Rect = b.Rect.Sub ⟨d.Size.X, 0⟩ ∨
          (hitBrick b brick d).Rect = b.Rect.Add ⟨d.Size.X, 0⟩)) := by
  by_cases h : d.Size.X > d.Size.Y
  · left
    refine ⟨h, ?_⟩
    rw [hitBrick_top b brick d h]
  · right
    have h2 : d.Size.Y ≥ d.Size.X := by omega
    refine ⟨h2, ?_⟩
    rw [hitBrick_side b brick d h2]
    split_ifs
    · left; rfl
    · right; rfl

/-- Width and height of the overlap of a 5 by 5 ball with another rectangle. -/
theorem overlap_size (r s : Rectangle) (hr : IsBall r) (h : (r.Intersect s).Empty = false) :
    0 < (r.Intersect s).Size.X ∧ (r.Intersect s).Size.X ≤ 5 ∧
      0 < (r.Intersect s).Size.Y ∧ (r.Intersect s).Size.Y ≤ 5 ∧
      r.Min.X < s.Max.X ∧ s.Min.X < r.Max.X ∧ r.Min.Y < s.Max.Y ∧ s.Min.Y < r.Max.Y := by
  obtain ⟨e1, e2, e3, e4, e5, e6⟩ := Intersect_edges r s h
  obtain ⟨h1, h2⟩ := hr
  simp only [Rectangle.Size]
  rw [e1, e2, e3, e4] at *
  split_ifs at e5 e6 ⊢
  all_goals omega

/-! ## The layout of every reachable state -/

/-- One brick of the row against a 5 by 5 ball: the ball keeps its size and does not move
down; if it was hit it ends with its top edge between 91 and 124. -/
theorem brickStep_shape (st : LoopState) (b : Brick) (hrow : InRow b)
    (hb : IsBall st.ball.Rect) :
    IsBall (brickStep st b).ball.Rect ∧
      (brickStep st b).ball.Rect.Min.Y ≤ st.ball.Rect.Min.Y ∧
      ((brickStep st b).ball.Rect = st.ball.Rect ∨
        (90 < (brickStep st b).ball.Rect.Min.Y ∧ (brickStep st b).ball.Rect.Min.Y < 125)) := by
  cases h : (st.ball.Rect.Intersect b.Rect).Empty
  · rw [brickStep_hit st b h]
    dsimp only
    obtain ⟨s1, s2, s3, s4, _, _, s7, s8⟩ := overlap_size st.ball.Rect b.Rect hb h
    obtain ⟨r1, r2, r3, r4, r5⟩ := hrow
    obtain ⟨b1, b2⟩ := hb
    rcases hitBrick_Rect st.ball b (st.ball.Rect.Intersect b.Rect) with ⟨_, e⟩ | ⟨_, e | e⟩
    all_goals
      rw [e]
      simp only [IsBall, Rectangle.Sub, Rectangle.Add]
      refine ⟨⟨?_, ?_⟩, ?_, Or.inr ⟨?_, ?_⟩⟩
      all_goals omega
  · rw [brickStep_miss st b h]
    exact ⟨hb, le_refl _, Or.inl rfl⟩

/-- The brick loop over bricks of the row against a 5 by 5 ball: the ball keeps its size
and does not move down; if any brick was hit it ends with its top edge between 91 and
124. -/
theorem brickLoop_shape (bs : List Brick) (st : LoopState) (hrow : ∀ b ∈ bs, InRow b)
    (hb : IsBall st.ball.Rect) :
    IsBall (brickLoop st bs).ball.Rect ∧
      (brickLoop st bs).ball.Rect.Min.Y ≤ st.ball.Rect.Min.Y ∧
      ((brickLoop st bs).ball.Rect = st.ball.Rect ∨
        (90 < (brickLoop st bs).ball.Rect.Min.Y ∧ (brickLoop st bs).ball.Rect.Min.Y < 125)) := by
  induction bs generalizing st with
  | nil => exact ⟨hb, le_refl _, Or.inl rfl⟩
  | cons b bs ih =>
      rw [brickLoop_cons]
      obtain ⟨s1, s2, s3⟩ := brickStep_shape st b (hrow b (List.mem_cons_self b bs)) hb
      obtain ⟨t1, t2, t3⟩ := ih (brickStep st b)
        (fun x hx => hrow x (List.mem_cons_of_mem b hx)) s1
      refine ⟨t1, le_trans t2 s2, ?_⟩
      rcases t3 with t3 | t3
      · rcases s3 with s3 | s3
        · left
          rw [t3, s3]
        · right
          rw [t3]
          exact s3
      · exact Or.inr t3

/-- The wall checks on a 5 by 5 ball: it keeps its size and ends inside the three walls;
its top edge moves only when it was above the top wall. -/
theorem ballWalls_shape (m : Ball) (hm : IsBall m.Rect) :
    IsBall (ballWalls m).Rect ∧
      25 ≤ (ballWalls m).Rect.Min.X ∧ (ballWalls m).Rect.Max.X ≤ 475 ∧
      (ballWalls m).Rect.Min.Y = (if m.Rect.Min.Y < 25 then 25 else m.Rect.Min.Y) ∧
      (ballWalls m).Vel.Y = (if m.Rect.Min.Y < 25 then -m.Vel.Y else m.Vel.Y) ∧
      ((ballWalls m).Vel.X = m.Vel.X ∨ (ballWalls m).Vel.X = -m.Vel.X) := by
  obtain ⟨h1, h2⟩ := hm
  rw [ballWalls_spec m (by simp only [Rectangle.Dx]; omega)]
  simp only [IsBall, Rectangle.Add]
  refine ⟨⟨?_, ?_⟩, ?_, ?_, ?_, ?_⟩
  · omega
  · omega
  · split_ifs <;> omega
  · split_ifs <;> omega
  · split_ifs <;> omega
  · split_ifs
    · exact ⟨trivial, Or.inr rfl⟩
    · exact ⟨trivial, Or.inl rfl⟩

/-- Moving a 5 by 5 ball keeps its size. -/
theorem moveBall_shape (b : Ball) (hb : IsBall b.Rect) :
    IsBall (moveBall b).Rect ∧ (moveBall b).Rect.Min.Y = b.Rect.Min.Y + b.Vel.Y ∧
      (moveBall b).Rect.Min.X = b.Rect.Min.X + b.Vel.X ∧ (moveBall b).Vel = b.Vel := by
  obtain ⟨h1, h2⟩ := hb
  simp only [moveBall, IsBall, Rectangle.Add]
  refine ⟨⟨?_, ?_⟩, ?_⟩
  · omega
  · omega
  · simp

/-- The paddle check on a 5 by 5 ball: the ball keeps its size and does not move down. -/
theorem hitPaddle_shape (b : Ball) (p : Paddle) (hb : IsBall b.Rect) :
    IsBall (hitPaddle b p).Rect ∧ (hitPaddle b p).Rect.Min.Y ≤ b.Rect.Min.Y ∧
      b.Rect.Min.Y - 5 ≤ (hitPaddle b p).Rect.Min.Y := by
  rcases hitPaddle_Rect b p with e | ⟨hne, e | e | e⟩
  · rw [e]
    exact ⟨hb, le_refl _, by omega⟩
  all_goals
    obtain ⟨s1, s2, s3, s4, _⟩ := overlap_size b.Rect p.Rect hb hne
    obtain ⟨b1, b2⟩ := hb
    rw [e]
    simp only [IsBall, Rectangle.Sub, Rectangle.Add]
    refine ⟨⟨?_, ?_⟩, ?_, ?_⟩
    all_goals omega

/-- The paddle update on a paddle of `main`: height, width and containment. -/
theorem stepPaddle_shape (p : Paddle) (inp : Input)
    (hy : p.Rect.Min.Y = 488 ∧ p.Rect.Max.Y = 500)
    (hw : p.Rect.Max.X = p.Rect.Min.X + 100) :
    ((stepPaddle p inp).Rect.Min.Y = 488 ∧ (stepPaddle p inp).Rect.Max.Y = 500) ∧
      ((stepPaddle p inp).Rect.Max.X = (stepPaddle p inp).Rect.Min.X + 100 ∧
        25 ≤ (stepPaddle p inp).Rect.Min.X ∧ (stepPaddle p inp).Rect.Max.X ≤ 475) := by
  have hY := stepPaddle_Y p inp
  have hdx : (movePaddle p inp).Rect.Dx = PaddleWidth := by
    rw [movePaddle_Dx]
    simp only [Rectangle.Dx, PaddleWidth, WallSize]
    omega
  have hc := (paddleWalls_contained (movePaddle p inp) hdx).1
  have hw2 : (paddleLeftWall (paddleRightWall (movePaddle p inp))).Rect.Max.X =
      (paddleLeftWall (paddleRightWall (movePaddle p inp))).Rect.Min.X + 100 := by
    simp only [Rectangle.Dx, PaddleWidth, WallSize] at hdx
    unfold paddleLeftWall paddleRightWall
    simp only [Rectangle.Sub, Rectangle.Add]
    split_ifs <;> (try dsimp only at *) <;> omega
  simp only [LeftWall, RightWall, GameWidth, WallSize] at hc
  unfold stepPaddle at hY ⊢
  refine ⟨⟨?_, ?_⟩, hw2, ?_, ?_⟩
  · omega
  · omega
  · exact hc.1
  · have := hc.2
    omega

/-- The paddle update for a pointer drag in exact arithmetic, on a paddle 100 wide: where
the cursor puts the paddle, and the velocity it leaves. -/
theorem stepPaddle_drag (p : Paddle) (inp : Input)
    (hw : p.Rect.Max.X - p.Rect.Min.X = 100) (hm : inp.mousePressed = true) :
    stepPaddle p inp =
      if inp.cursorX < 75 then ⟨⟨⟨25, p.Rect.Min.Y⟩, ⟨125, p.Rect.Max.Y⟩⟩, 0⟩
      else if inp.cursorX ≤ 425 then
        ⟨⟨⟨inp.cursorX - 50, p.Rect.Min.Y⟩, ⟨inp.cursorX + 50, p.Rect.Max.Y⟩⟩,
          inp.cursorX - (p.Rect.Min.X + 50)⟩
      else ⟨⟨⟨375, p.Rect.Min.Y⟩, ⟨475, p.Rect.Max.Y⟩⟩, 0⟩ := by
  obtain ⟨⟨⟨x0, y0⟩, ⟨x1, y1⟩⟩, v⟩ := p
  dsimp only at hw
  have hdx : (Rectangle.mk ⟨x0, y0⟩ ⟨x1, y1⟩).Dx = 100 := by
    simp only [Rectangle.Dx, hw]
  have h50 : (100 : Int).tdiv 2 = 50 := by decide
  have hmove : movePaddle ⟨⟨⟨x0, y0⟩, ⟨x1, y1⟩⟩, v⟩ inp =
      ⟨⟨⟨inp.cursorX - 50, y0⟩, ⟨inp.cursorX + 50, y1⟩⟩, inp.cursorX - (x0 + 50)⟩ := by
    simp only [movePaddle, hm, if_true, hdx, h50, Rectangle.Add, Paddle.mk.injEq,
      Rectangle.mk.injEq, Point.mk.injEq, and_true]
    omega
  rw [stepPaddle, hmove]
  unfold paddleLeftWall paddleRightWall
  simp only [Rectangle.Sub, Rectangle.Add, RightWall, LeftWall, GameWidth, WallSize]
  split_ifs <;> (try dsimp only at *) <;>
    (try simp only [Paddle.mk.injEq, Rectangle.mk.injEq, Point.mk.injEq, and_true,
      true_and]) <;>
    omega

/-- The paddle update on a paddle of `main` leaves a velocity of at most 350 either way:
a drag that keeps the paddle between the walls moves it by at most 350, and the keyboard
branch clamps. -/
theorem stepPaddle_Vel_bound (p : Paddle) (inp : Input)
    (hw : p.Rect.Max.X = p.Rect.Min.X + 100) (h0 : 25 ≤ p.Rect.Min.X)
    (h1 : p.Rect.Max.X ≤ 475) :
    -350 ≤ (stepPaddle p inp).Vel ∧ (stepPaddle p inp).Vel ≤ 350 := by
  cases hm : inp.mousePressed
  · have hk := movePaddle_keys p inp hm
    have hc := Clamp_bounds
      (if inp.keyLeft then p.Vel - PaddleSpeed
        else if inp.keyRight then p.Vel + PaddleSpeed
        else if p.Vel > 0 then p.Vel - PaddleDecel
        else if p.Vel < 0 then p.Vel + PaddleDecel
        else p.Vel) (-PaddleMaxSpeed) PaddleMaxSpeed (by decide)
    have hv : (movePaddle p inp).Vel =
        Clamp (if inp.keyLeft then p.Vel - PaddleSpeed
          else if inp.keyRight then p.Vel + PaddleSpeed
          else if p.Vel > 0 then p.Vel - PaddleDecel
          else if p.Vel < 0 then p.Vel + PaddleDecel
          else p.Vel) (-PaddleMaxSpeed) PaddleMaxSpeed := by
      simp only [movePaddle, hm, Bool.false_eq_true, if_false]
    rw [← hv] at hc
    simp only [PaddleMaxSpeed] at hc
    unfold stepPaddle
    rcases paddleWalls_Vel (movePaddle p inp) with e | e <;> rw [e] <;> omega
  · rw [stepPaddle_drag p inp (by omega) hm]
    split_ifs <;> dsimp only <;> omega

/-- The game built in `main` has the layout of the playfield. -/
theorem Playfield_mainGame (rx ry : Nat) : Playfield (mainGame rx ry) := by
  have hv := NewBall_vel rx ry
  have hbricks : (mainGame rx ry).Bricks = (mainGame 0 0).Bricks := rfl
  refine ⟨?_, ?_, ?_, ?_, ?_, ?_, ?_, ?_, ?_, ?_⟩
  · exact ⟨rfl, rfl⟩
  · show (25 : Int) ≤ 500
    decide
  · exact ⟨by have := hv.1; show -10 ≤ (NewBall rx ry).Vel.X; omega,
      by have := hv.2.1; show (NewBall rx ry).Vel.X ≤ 10; omega⟩
  · exact ⟨by have := hv.2.2.1; show -10 ≤ (NewBall rx ry).Vel.Y; omega,
      by have := hv.2.2.2; show (NewBall rx ry).Vel.Y ≤ 10; omega⟩
  · show (mainGame 0 0).Paddle.Rect.Min.Y = 488 ∧ (mainGame 0 0).Paddle.Rect.Max.Y = 500
    decide
  · show (mainGame 0 0).Paddle.Rect.Max.X = (mainGame 0 0).Paddle.Rect.Min.X + 100 ∧
      25 ≤ (mainGame 0 0).Paddle.Rect.Min.X ∧ (mainGame 0 0).Paddle.Rect.Max.X ≤ 475
    decide
  · show (-350 : Int) ≤ 0 ∧ (0 : Int) ≤ 350
    decide
  · rw [hbricks]
    unfold InRow
    decide
  · rw [hbricks]
    show (mainGame 0 0).Score + sumPoints (mainGame 0 0).Bricks = 36
    decide
  · show (0 : Int) ≤ 5 ∧ (5 : Int) ≤ 5
    decide

/-- One `Update` keeps the layout of the playfield. -/
theorem Playfield_Update (g : Game) (inp : Input) (h : Playfield g) :
    Playfield (Update g inp) := by
  by_cases ht : g.Lives = 0 ∨ g.Bricks = []
  · rw [Update_terminal g inp ht]
    exact h
  · have hl : g.Lives ≠ 0 := fun e => ht (Or.inl e)
    have hb : g.Bricks ≠ [] := fun e => ht (Or.inr e)
    have hpad := stepPaddle_shape g.Paddle inp h.padY h.padX.1
    have hpv := stepPaddle_Vel_bound g.Paddle inp h.padX.1 h.padX.2.1 h.padX.2.2
    obtain ⟨removed, hperm, hscore⟩ := Update_removed g inp (by have := h.score; omega)
    have hsum := sumPoints_perm hperm
    rw [sumPoints_append] at hsum
    have hsc : (Update g inp).Score + sumPoints (Update g inp).Bricks = 36 := by
      have := h.score
      rw [hscore, Nat.mod_eq_of_lt (by omega)]
      omega
    by_cases hy : (moveBall g.Ball).Rect.Min.Y > GameHeight
    · have hv := NewBall_vel inp.randX inp.randY
      have e := Update_lost g inp hl hb hy
      refine ⟨?_, ?_, ?_, ?_, ?_, ?_, ?_, ?_, hsc, ?_⟩
      · rw [e]
        exact ⟨rfl, rfl⟩
      · rw [e]
        show (25 : Int) ≤ 500
        decide
      · rw [e]
        dsimp only
        omega
      · rw [e]
        dsimp only
        omega
      · rw [e]
        exact hpad.1
      · rw [e]
        exact hpad.2
      · rw [e]
        exact hpv
      · rw [e]
        exact h.row
      · rw [e]
        dsimp only
        have := h.lives
        omega
    · obtain ⟨m1, m2, _, _⟩ := moveBall_shape g.Ball h.ball
      obtain ⟨w1, _, _, w4, _, _⟩ := ballWalls_shape (moveBall g.Ball) m1
      have hp : IsBall (ballAtBricks g inp).Rect ∧
          (ballAtBricks g inp).Rect.Min.Y ≤ (ballWalls (moveBall g.Ball)).Rect.Min.Y ∧
          (ballWalls (moveBall g.Ball)).Rect.Min.Y - 5 ≤ (ballAtBricks g inp).Rect.Min.Y :=
        hitPaddle_shape (ballWalls (moveBall g.Ball)) (stepPaddle g.Paddle inp) w1
      obtain ⟨p1, p2, _⟩ := hp
      obtain ⟨l1, l2, _⟩ := brickLoop_shape g.Bricks ⟨ballAtBricks g inp, g.Score, []⟩ h.row p1
      have eB := Update_play_Ball g inp hl hb hy
      have eBr := Update_play_Bricks g inp hl hb hy
      have eP := Update_Paddle g inp hl hb
      have eL : (Update g inp).Lives = g.Lives := by
        rw [Update_play g inp hl hb hy]
      refine ⟨?_, ?_, ?_, ?_, ?_, ?_, ?_, ?_, hsc, ?_⟩
      · rw [eB]
        exact l1
      · rw [eB]
        dsimp only at l2 ⊢
        simp only [GameHeight] at hy
        split_ifs at w4 <;> omega
      · rw [eB]
        exact Clamp_bounds _ (-10) 10 (by decide)
      · rw [eB]
        exact Clamp_bounds _ (-10) 10 (by decide)
      · rw [eP]
        exact hpad.1
      · rw [eP]
        exact hpad.2
      · rw [eP]
        exact hpv
      · rw [eBr]
        intro b hbm
        exact h.row b ((brickLoop_sublist g.Bricks _ _).subset hbm)
      · rw [eL]
        exact h.lives

/-- Every reachable state has the layout of the playfield. -/
theorem Reachable_Playfield (g : Game) (h : Reachable g) : Playfield g := by
  induction h with
  | init rx ry => exact Playfield_mainGame rx ry
  | @step s inp _ ih => exact Playfield_Update s inp ih

/-- A value between the bounds is left alone by `Clamp`. -/
theorem Clamp_id (v lo hi : Int) (h1 : lo ≤ v) (h2 : v ≤ hi) : Clamp v lo hi = v := by
  unfold Clamp
  split_ifs <;> omega

/-- In a state with the layout of the playfield, a wall-resolved ball that overlaps the
updated paddle comes from a move that loses no life and crosses no top wall: it has the
vertical velocity of the state, its top edge is below 483, and it is 5 by 5. -/
theorem paddle_overlap_low (g : Game) (inp : Input) (hpf : Playfield g)
    (hne : ((ballWalls (moveBall g.Ball)).Rect.Intersect
      (stepPaddle g.Paddle inp).Rect).Empty = false) :
    ¬ (moveBall g.Ball).Rect.Min.Y > GameHeight ∧
      (ballWalls (moveBall g.Ball)).Vel.Y = g.Ball.Vel.Y ∧
      483 < (ballWalls (moveBall g.Ball)).Rect.Min.Y ∧
      IsBall (ballWalls (moveBall g.Ball)).Rect ∧
      25 ≤ (ballWalls (moveBall g.Ball)).Rect.Min.X ∧
      (ballWalls (moveBall g.Ball)).Rect.Max.X ≤ 475 := by
  obtain ⟨m1, _, _, m4⟩ := moveBall_shape g.Ball hpf.ball
  obtain ⟨w1, w2, w3, w4, w5, _⟩ := ballWalls_shape (moveBall g.Ball) m1
  obtain ⟨py, px⟩ := stepPaddle_shape g.Paddle inp hpf.padY hpf.padX.1
  obtain ⟨_, _, _, _, _, _, o7, o8⟩ := overlap_size _ _ w1 hne
  have b2 := w1.2
  rw [m4] at w5
  simp only [GameHeight]
  refine ⟨?_, ?_, ?_, w1, w2, w3⟩
  · split_ifs at w4 <;> omega
  · split_ifs at w4 w5 <;> omega
  · omega

/-- In a state with the layout of the playfield, a wall-resolved ball that overlaps a
brick of the row comes from a move that loses no life; it is 5 by 5, its top edge lies
between 96 and 124, and it does not overlap the updated paddle. -/
theorem brick_overlap_high (g : Game) (inp : Input) (hpf : Playfield g) (b : Brick)
    (hb : InRow b)
    (hne : ((ballWalls (moveBall g.Ball)).Rect.Intersect b.Rect).Empty = false) :
    ¬ (moveBall g.Ball).Rect.Min.Y > GameHeight ∧
      IsBall (ballWalls (moveBall g.Ball)).Rect ∧
      95 < (ballWalls (moveBall g.Ball)).Rect.Min.Y ∧
      (ballWalls (moveBall g.Ball)).Rect.Min.Y < 125 ∧
      ((ballWalls (moveBall g.Ball)).Rect.Intersect
        (stepPaddle g.Paddle inp).Rect).Empty = true := by
  obtain ⟨m1, _, _, m4⟩ := moveBall_shape g.Ball hpf.ball
  obtain ⟨w1, w2, w3, w4, w5, _⟩ := ballWalls_shape (moveBall g.Ball) m1
  obtain ⟨py, px⟩ := stepPaddle_shape g.Paddle inp hpf.padY hpf.padX.1
  obtain ⟨_, _, _, _, _, _, o7, o8⟩ := overlap_size _ _ w1 hne
  obtain ⟨r1, r2, _⟩ := hb
  have b2 := w1.2
  simp only [GameHeight]
  refine ⟨?_, w1, ?_, ?_, ?_⟩
  · split_ifs at w4 <;> omega
  · omega
  · omega
  · apply Intersect_above
    omega

/-- The points of a brick of a list are among the points of the list. -/
theorem sumPoints_split (pre post : List Brick) (b : Brick) :
    sumPoints (pre ++ b :: post) = sumPoints pre + b.Points + sumPoints post := by
  simp [sumPoints]
  omega

/-! ## States reached in play -/

/-- `doubleBrickRun` is the state that the game of `main` reaches by the inputs named in its
description. -/
theorem doubleBrickRun_eq :
    (List.replicate 14 idle).foldl Update (mainGame 2 4) = doubleBrickRun := by
  decide

/-- `doubleBrickRun` is reachable. -/
theorem doubleBrickRun_reachable : Reachable doubleBrickRun := by
  rw [← doubleBrickRun_eq]
  exact Reachable_foldl _ _ (Reachable.init 2 4)

/-- `topWallRun` is the state that the game of `main` reaches by the inputs named in its
description. -/
theorem topWallRun_eq :
    (List.replicate 30 idle).foldl Update (mainGame 0 4) = topWallRun := by
  decide

/-- `topWallRun` is reachable. -/
theorem topWallRun_reachable : Reachable topWallRun := by
  rw [← topWallRun_eq]
  exact Reachable_foldl _ _ (Reachable.init 0 4)

/-- `paddleEndRun` is the state that the game of `main` reaches by the inputs named in its
description; the run is evaluated in stretches of at most 50 frames. -/
theorem paddleEndRun_eq :
    (List.replicate 91 idle).foldl Update (mainGame 2 4) = paddleEndRun := by
  obtain ⟨s1, e1⟩ : ∃ s : Game, s =
      { Lives := 5
        Score := 1
        Paddle := ⟨⟨⟨25, 488⟩, ⟨125, 500⟩⟩, 0⟩
        Ball := ⟨⟨⟨150, 275⟩, ⟨155, 280⟩⟩, ⟨5, 5⟩⟩
        Bricks :=
          [⟨⟨⟨125, 100⟩, ⟨175, 125⟩⟩, 2⟩,
          ⟨⟨⟨175, 100⟩, ⟨225, 125⟩⟩, 3⟩,
          ⟨⟨⟨225, 100⟩, ⟨275, 125⟩⟩, 4⟩,
          ⟨⟨⟨275, 100⟩, ⟨325, 125⟩⟩, 5⟩,
          ⟨⟨⟨325, 100⟩, ⟨375, 125⟩⟩, 6⟩,
          ⟨⟨⟨375, 100⟩, ⟨425, 125⟩⟩, 7⟩,
          ⟨⟨⟨425, 100⟩, ⟨475, 125⟩⟩, 8⟩] } := ⟨_, rfl⟩
  have h1 : (List.replicate 50 idle).foldl Update (mainGame 2 4) = s1 := by
    rw [e1]
    decide
  have h2 : (List.replicate 41 idle).foldl Update s1 = paddleEndRun := by
    rw [e1]
    decide
  have hs : List.replicate 91 idle =
      List.replicate 50 idle ++
        List.replicate 41 idle := by
    decide
  rw [hs]
  simp only [List.foldl_append] at *
  rw [h1, h2]

/-- `paddleEndRun` is reachable. -/
theorem paddleEndRun_reachable : Reachable paddleEndRun := by
  rw [← paddleEndRun_eq]
  exact Reachable_foldl _ _ (Reachable.init 2 4)

/-- `paddleTopRun` is the state that the game of `main` reaches by the inputs named in its
description; the run is evaluated in stretches of at most 50 frames. -/
theorem paddleTopRun_eq :
    (List.replicate 204 idle).foldl Update (mainGame 4 1) = paddleTopRun := by
  obtain ⟨s1, e1⟩ : ∃ s : Game, s =
      { Lives := 5
        Score := 3
        Paddle := ⟨⟨⟨25, 488⟩, ⟨125, 500⟩⟩, 0⟩
        Ball := ⟨⟨⟨275, 25⟩, ⟨280, 30⟩⟩, ⟨5, -5⟩⟩
        Bricks :=
          [⟨⟨⟨25, 100⟩, ⟨75, 125⟩⟩, 0⟩,
          ⟨⟨⟨75, 100⟩, ⟨125, 125⟩⟩, 1⟩,
          ⟨⟨⟨125, 100⟩, ⟨175, 125⟩⟩, 2⟩,
          ⟨⟨⟨225, 100⟩, ⟨275, 125⟩⟩, 4⟩,
          ⟨⟨⟨275, 100⟩, ⟨325, 125⟩⟩, 5⟩,
          ⟨⟨⟨325, 100⟩, ⟨375, 125⟩⟩, 6⟩,
          ⟨⟨⟨375, 100⟩, ⟨425, 125⟩⟩, 7⟩,
          ⟨⟨⟨425, 100⟩, ⟨475, 125⟩⟩, 8⟩] } := ⟨_, rfl⟩
  have h1 : (List.replicate 50 idle).foldl Update (mainGame 4 1) = s1 := by
    rw [e1]
    decide
  obtain ⟨s2, e2⟩ : ∃ s : Game, s =
      { Lives := 5
        Score := 17
        Paddle := ⟨⟨⟨25, 488⟩, ⟨125, 500⟩⟩, 0⟩
        Ball := ⟨⟨⟨450, 85⟩, ⟨455, 90⟩⟩, ⟨5, -5⟩⟩
        Bricks :=
          [⟨⟨⟨25, 100⟩, ⟨75, 125⟩⟩, 0⟩,
          ⟨⟨⟨75, 100⟩, ⟨125, 125⟩⟩, 1⟩,
          ⟨⟨⟨125, 100⟩, ⟨175, 125⟩⟩, 2⟩,
          ⟨⟨⟨225, 100⟩, ⟨275, 125⟩⟩, 4⟩,
          ⟨⟨⟨275, 100⟩, ⟨325, 125⟩⟩, 5⟩,
          ⟨⟨⟨375, 100⟩, ⟨425, 125⟩⟩, 7⟩] } := ⟨_, rfl⟩
  have h2 : (List.replicate 50 idle).foldl Update s1 = s2 := by
    rw [e1, e2]
    decide
  obtain ⟨s3, e3⟩ : ∃ s : Game, s =
      { Lives := 5
        Score := 17
        Paddle := ⟨⟨⟨25, 488⟩, ⟨125, 500⟩⟩, 0⟩
        Ball := ⟨⟨⟨245, 210⟩, ⟨250, 215⟩⟩, ⟨-5, 5⟩⟩
        Bricks :=
          [⟨⟨⟨25, 100⟩, ⟨75, 125⟩⟩, 0⟩,
          ⟨⟨⟨75, 100⟩, ⟨125, 125⟩⟩, 1⟩,
          ⟨⟨⟨125, 100⟩, ⟨175, 125⟩⟩, 2⟩,
          ⟨⟨⟨225, 100⟩, ⟨275, 125⟩⟩, 4⟩,
          ⟨⟨⟨275, 100⟩, ⟨325, 125⟩⟩, 5⟩,
          ⟨⟨⟨375, 100⟩, ⟨425, 125⟩⟩, 7⟩] } := ⟨_, rfl⟩
  have h3 : (List.replicate 50 idle).foldl Update s2 = s3 := by
    rw [e2, e3]
    decide
  obtain ⟨s4, e4⟩ : ∃ s : Game, s =
      { Lives := 5
        Score := 17
        Paddle := ⟨⟨⟨25, 488⟩, ⟨125, 500⟩⟩, 0⟩
        Ball := ⟨⟨⟨50, 460⟩, ⟨55, 465⟩⟩, ⟨5, 5⟩⟩
        Bricks :=
          [⟨⟨⟨25, 100⟩, ⟨75, 125⟩⟩, 0⟩,
          ⟨⟨⟨75, 100⟩, ⟨125, 125⟩⟩, 1⟩,
          ⟨⟨⟨125, 100⟩, ⟨175, 125⟩⟩, 2⟩,
          ⟨⟨⟨225, 100⟩, ⟨275, 125⟩⟩, 4⟩,
          ⟨⟨⟨275, 100⟩, ⟨325, 125⟩⟩, 5⟩,
          ⟨⟨⟨375, 100⟩, ⟨425, 125⟩⟩, 7⟩] } := ⟨_, rfl⟩
  have h4 : (List.replicate 50 idle).foldl Update s3 = s4 := by
    rw [e3, e4]
    decide
  have h5 : (List.replicate 4 idle).foldl Update s4 = paddleTopRun := by
    rw [e4]
    decide
  have hs : List.replicate 204 idle =
      List.replicate 50 idle ++
        List.replicate 50 idle ++
        List.replicate 50 idle ++
        List.replicate 50 idle ++
        List.replicate 4 idle := by
    decide
  rw [hs]
  simp only [List.foldl_append] at *
  rw [h1, h2, h3, h4, h5]

/-- `paddleTopRun` is reachable. -/
theorem paddleTopRun_reachable : Reachable paddleTopRun := by
  rw [← paddleTopRun_eq]
  exact Reachable_foldl _ _ (Reachable.init 4 1)

/-- `brickTopRun` is the state that the game of `main` reaches by the inputs named in its
description. -/
theorem brickTopRun_eq :
    (List.replicate 17 idle).foldl Update (mainGame 3 3) = brickTopRun := by
  decide

/-- `brickTopRun` is reachable. -/
theorem brickTopRun_reachable : Reachable brickTopRun := by
  rw [← brickTopRun_eq]
  exact Reachable_foldl _ _ (Reachable.init 3 3)

/-- `bottomRun` is the state that the game of `main` reaches by the inputs named in its
description; the run is evaluated in stretches of at most 50 frames. -/
theorem bottomRun_eq :
    (List.replicate 158 idle).foldl Update (mainGame 4 3) = bottomRun := by
  obtain ⟨s1, e1⟩ : ∃ s : Game, s =
      { Lives := 5
        Score := 3
        Paddle := ⟨⟨⟨25, 488⟩, ⟨125, 500⟩⟩, 0⟩
        Ball := ⟨⟨⟨75, 65⟩, ⟨80, 70⟩⟩, ⟨5, 4⟩⟩
        Bricks :=
          [⟨⟨⟨25, 100⟩, ⟨75, 125⟩⟩, 0⟩,
          ⟨⟨⟨175, 100⟩, ⟨225, 125⟩⟩, 3⟩,
          ⟨⟨⟨225, 100⟩, ⟨275, 125⟩⟩, 4⟩,
          ⟨⟨⟨275, 100⟩, ⟨325, 125⟩⟩, 5⟩,
          ⟨⟨⟨325, 100⟩, ⟨375, 125⟩⟩, 6⟩,
          ⟨⟨⟨375, 100⟩, ⟨425, 125⟩⟩, 7⟩,
          ⟨⟨⟨425, 100⟩, ⟨475, 125⟩⟩, 8⟩] } := ⟨_, rfl⟩
  have h1 : (List.replicate 50 idle).foldl Update (mainGame 4 3) = s1 := by
    rw [e1]
    decide
  obtain ⟨s2, e2⟩ : ∃ s : Game, s =
      { Lives := 5
        Score := 3
        Paddle := ⟨⟨⟨25, 488⟩, ⟨125, 500⟩⟩, 0⟩
        Ball := ⟨⟨⟨325, 265⟩, ⟨330, 270⟩⟩, ⟨5, 4⟩⟩
        Bricks :=
          [⟨⟨⟨25, 100⟩, ⟨75, 125⟩⟩, 0⟩,
          ⟨⟨⟨175, 100⟩, ⟨225, 125⟩⟩, 3⟩,
          ⟨⟨⟨225, 100⟩, ⟨275, 125⟩⟩, 4⟩,
          ⟨⟨⟨275, 100⟩, ⟨325, 125⟩⟩, 5⟩,
          ⟨⟨⟨325, 100⟩, ⟨375, 125⟩⟩, 6⟩,
          ⟨⟨⟨375, 100⟩, ⟨425, 125⟩⟩, 7⟩,
          ⟨⟨⟨425, 100⟩, ⟨475, 125⟩⟩, 8⟩] } := ⟨_, rfl⟩
  have h2 : (List.replicate 50 idle).foldl Update s1 = s2 := by
    rw [e1, e2]
    decide
  obtain ⟨s3, e3⟩ : ∃ s : Game, s =
      { Lives := 5
        Score := 3
        Paddle := ⟨⟨⟨25, 488⟩, ⟨125, 500⟩⟩, 0⟩
        Ball := ⟨⟨⟨370, 465⟩, ⟨375, 470⟩⟩, ⟨-5, 4⟩⟩
        Bricks :=
          [⟨⟨⟨25, 100⟩, ⟨75, 125⟩⟩, 0⟩,
          ⟨⟨⟨175, 100⟩, ⟨225, 125⟩⟩, 3⟩,
          ⟨⟨⟨225, 100⟩, ⟨275, 125⟩⟩, 4⟩,
          ⟨⟨⟨275, 100⟩, ⟨325, 125⟩⟩, 5⟩,
          ⟨⟨⟨325, 100⟩, ⟨375, 125⟩⟩, 6⟩,
          ⟨⟨⟨375, 100⟩, ⟨425, 125⟩⟩, 7⟩,
          ⟨⟨⟨425, 100⟩, ⟨475, 125⟩⟩, 8⟩] } := ⟨_, rfl⟩
  have h3 : (List.replicate 50 idle).foldl Update s2 = s3 := by
    rw [e2, e3]
    decide
  have h4 : (List.replicate 8 idle).foldl Update s3 = bottomRun := by
    rw [e3]
    decide
  have hs : List.replicate 158 idle =
      List.replicate 50 idle ++
        List.replicate 50 idle ++
        List.replicate 50 idle ++
        List.replicate 8 idle := by
    decide
  rw [hs]
  simp only [List.foldl_append] at *
  rw [h1, h2, h3, h4]

/-- `bottomRun` is reachable. -/
theorem bottomRun_reachable : Reachable bottomRun := by
  rw [← bottomRun_eq]
  exact Reachable_foldl _ _ (Reachable.init 4 3)

/-- `paddleLeftRun` is the state that the game of `main` reaches by the inputs named in its
description; the run is evaluated in stretches of at most 50 frames. -/
theorem paddleLeftRun_eq :
    (List.replicate 153 idle).foldl Update (mainGame 4 4) = paddleLeftRun := by
  obtain ⟨s1, e1⟩ : ∃ s : Game, s =
      { Lives := 5
        Score := 5
        Paddle := ⟨⟨⟨25, 488⟩, ⟨125, 500⟩⟩, 0⟩
        Ball := ⟨⟨⟨285, 80⟩, ⟨290, 85⟩⟩, ⟨5, -5⟩⟩
        Bricks :=
          [⟨⟨⟨25, 100⟩, ⟨75, 125⟩⟩, 0⟩,
          ⟨⟨⟨125, 100⟩, ⟨175, 125⟩⟩, 2⟩,
          ⟨⟨⟨175, 100⟩, ⟨225, 125⟩⟩, 3⟩,
          ⟨⟨⟨275, 100⟩, ⟨325, 125⟩⟩, 5⟩,
          ⟨⟨⟨325, 100⟩, ⟨375, 125⟩⟩, 6⟩,
          ⟨⟨⟨375, 100⟩, ⟨425, 125⟩⟩, 7⟩,
          ⟨⟨⟨425, 100⟩, ⟨475, 125⟩⟩, 8⟩] } := ⟨_, rfl⟩
  have h1 : (List.replicate 50 idle).foldl Update (mainGame 4 4) = s1 := by
    rw [e1]
    decide
  obtain ⟨s2, e2⟩ : ∃ s : Game, s =
      { Lives := 5
        Score := 20
        Paddle := ⟨⟨⟨25, 488⟩, ⟨125, 500⟩⟩, 0⟩
        Ball := ⟨⟨⟨305, 215⟩, ⟨310, 220⟩⟩, ⟨-5, 5⟩⟩
        Bricks :=
          [⟨⟨⟨25, 100⟩, ⟨75, 125⟩⟩, 0⟩,
          ⟨⟨⟨125, 100⟩, ⟨175, 125⟩⟩, 2⟩,
          ⟨⟨⟨175, 100⟩, ⟨225, 125⟩⟩, 3⟩,
          ⟨⟨⟨275, 100⟩, ⟨325, 125⟩⟩, 5⟩,
          ⟨⟨⟨325, 100⟩, ⟨375, 125⟩⟩, 6⟩] } := ⟨_, rfl⟩
  have h2 : (List.replicate 50 idle).foldl Update s1 = s2 := by
    rw [e1, e2]
    decide
  obtain ⟨s3, e3⟩ : ∃ s : Game, s =
      { Lives := 5
        Score := 20
        Paddle := ⟨⟨⟨25, 488⟩, ⟨125, 500⟩⟩, 0⟩
        Ball := ⟨⟨⟨55, 465⟩, ⟨60, 470⟩⟩, ⟨-5, 5⟩⟩
        Bricks :=
          [⟨⟨⟨25, 100⟩, ⟨75, 125⟩⟩, 0⟩,
          ⟨⟨⟨125, 100⟩, ⟨175, 125⟩⟩, 2⟩,
          ⟨⟨⟨175, 100⟩, ⟨225, 125⟩⟩, 3⟩,
          ⟨⟨⟨275, 100⟩, ⟨325, 125⟩⟩, 5⟩,
          ⟨⟨⟨325, 100⟩, ⟨375, 125⟩⟩, 6⟩] } := ⟨_, rfl⟩
  have h3 : (List.replicate 50 idle).foldl Update s2 = s3 := by
    rw [e2, e3]
    decide
  have h4 : (List.replicate 3 idle).foldl Update s3 = paddleLeftRun := by
    rw [e3]
    decide
  have hs : List.replicate 153 idle =
      List.replicate 50 idle ++
        List.replicate 50 idle ++
        List.replicate 50 idle ++
        List.replicate 3 idle := by
    decide
  rw [hs]
  simp only [List.foldl_append] at *
  rw [h1, h2, h3, h4]

/-- `paddleLeftRun` is reachable. -/
theorem paddleLeftRun_reachable : Reachable paddleLeftRun := by
  rw [← paddleLeftRun_eq]
  exact Reachable_foldl _ _ (Reachable.init 4 4)

/-- `keptBrickRun` is the state that the game of `main` reaches by the inputs named in its
description; the run is evaluated in stretches of at most 50 frames. -/
theorem keptBrickRun_eq :
    (List.replicate 76 idle).foldl Update (mainGame 1 4) = keptBrickRun := by
  obtain ⟨s1, e1⟩ : ∃ s : Game, s =
      { Lives := 5
        Score := 3
        Paddle := ⟨⟨⟨25, 488⟩, ⟨125, 500⟩⟩, 0⟩
        Ball := ⟨⟨⟨240, 80⟩, ⟨245, 85⟩⟩, ⟨5, -5⟩⟩
        Bricks :=
          [⟨⟨⟨75, 100⟩, ⟨125, 125⟩⟩, 1⟩,
          ⟨⟨⟨125, 100⟩, ⟨175, 125⟩⟩, 2⟩,
          ⟨⟨⟨225, 100⟩, ⟨275, 125⟩⟩, 4⟩,
          ⟨⟨⟨275, 100⟩, ⟨325, 125⟩⟩, 5⟩,
          ⟨⟨⟨325, 100⟩, ⟨375, 125⟩⟩, 6⟩,
          ⟨⟨⟨375, 100⟩, ⟨425, 125⟩⟩, 7⟩,
          ⟨⟨⟨425, 100⟩, ⟨475, 125⟩⟩, 8⟩] } := ⟨_, rfl⟩
  have h1 : (List.replicate 50 idle).foldl Update (mainGame 1 4) = s1 := by
    rw [e1]
    decide
  have h2 : (List.replicate 26 idle).foldl Update s1 = keptBrickRun := by
    rw [e1]
    decide
  have hs : List.replicate 76 idle =
      List.replicate 50 idle ++
        List.replicate 26 idle := by
    decide
  rw [hs]
  simp only [List.foldl_append] at *
  rw [h1, h2]

/-- `keptBrickRun` is reachable. -/
theorem keptBrickRun_reachable : Reachable keptBrickRun := by
  rw [← keptBrickRun_eq]
  exact Reachable_foldl _ _ (Reachable.init 1 4)

/-- `wallPushRun` is the state that the game of `main` reaches by the inputs named in its
description; the run is evaluated in stretches of at most 50 frames. -/
theorem wallPushRun_eq :
    (List.replicate 93 idle ++ [drag391] ++ List.replicate 6 idle).foldl Update
      (mainGame 2 4) = wallPushRun := by
  obtain ⟨s1, e1⟩ : ∃ s : Game, s =
      { Lives := 5
        Score := 1
        Paddle := ⟨⟨⟨25, 488⟩, ⟨125, 500⟩⟩, 0⟩
        Ball := ⟨⟨⟨150, 275⟩, ⟨155, 280⟩⟩, ⟨5, 5⟩⟩
        Bricks :=
          [⟨⟨⟨125, 100⟩, ⟨175, 125⟩⟩, 2⟩,
          ⟨⟨⟨175, 100⟩, ⟨225, 125⟩⟩, 3⟩,
          ⟨⟨⟨225, 100⟩, ⟨275, 125⟩⟩, 4⟩,
          ⟨⟨⟨275, 100⟩, ⟨325, 125⟩⟩, 5⟩,
          ⟨⟨⟨325, 100⟩, ⟨375, 125⟩⟩, 6⟩,
          ⟨⟨⟨375, 100⟩, ⟨425, 125⟩⟩, 7⟩,
          ⟨⟨⟨425, 100⟩, ⟨475, 125⟩⟩, 8⟩] } := ⟨_, rfl⟩
  have h1 : (List.replicate 50 idle).foldl Update (mainGame 2 4) = s1 := by
    rw [e1]
    decide
  have h2 : (List.replicate 43 idle ++ [drag391] ++ List.replicate 6 idle).foldl Update s1 = wallPushRun := by
    rw [e1]
    decide
  have hs : List.replicate 93 idle ++ [drag391] ++ List.replicate 6 idle =
      List.replicate 50 idle ++
        (List.replicate 43 idle ++ [drag391] ++ List.replicate 6 idle) := by
    decide
  rw [hs]
  simp only [List.foldl_append] at *
  rw [h1, h2]

/-- `wallPushRun` is reachable. -/
theorem wallPushRun_reachable : Reachable wallPushRun := by
  rw [← wallPushRun_eq]
  exact Reachable_foldl _ _ (Reachable.init 2 4)

/-- `wallBrickRun` is the state that the game of `main` reaches by the inputs named in its
description; the run is evaluated in stretches of at most 50 frames. -/
theorem wallBrickRun_eq :
    (List.replicate 222 idle ++ [drag77, drag75] ++ List.replicate 108 idle).foldl Update
      (mainGame 2 2) = wallBrickRun := by
  obtain ⟨s1, e1⟩ : ∃ s : Game, s =
      { Lives := 5
        Score := 1
        Paddle := ⟨⟨⟨25, 488⟩, ⟨125, 500⟩⟩, 0⟩
        Ball := ⟨⟨⟨175, 80⟩, ⟨180, 85⟩⟩, ⟨3, 5⟩⟩
        Bricks :=
          [⟨⟨⟨25, 100⟩, ⟨75, 125⟩⟩, 0⟩,
          ⟨⟨⟨125, 100⟩, ⟨175, 125⟩⟩, 2⟩,
          ⟨⟨⟨175, 100⟩, ⟨225, 125⟩⟩, 3⟩,
          ⟨⟨⟨225, 100⟩, ⟨275, 125⟩⟩, 4⟩,
          ⟨⟨⟨275, 100⟩, ⟨325, 125⟩⟩, 5⟩,
          ⟨⟨⟨325, 100⟩, ⟨375, 125⟩⟩, 6⟩,
          ⟨⟨⟨375, 100⟩, ⟨425, 125⟩⟩, 7⟩,
          ⟨⟨⟨425, 100⟩, ⟨475, 125⟩⟩, 8⟩] } := ⟨_, rfl⟩
  have h1 : (List.replicate 50 idle).foldl Update (mainGame 2 2) = s1 := by
    rw [e1]
    decide
  obtain ⟨s2, e2⟩ : ∃ s : Game, s =
      { Lives := 5
        Score := 10
        Paddle := ⟨⟨⟨25, 488⟩, ⟨125, 500⟩⟩, 0⟩
        Ball := ⟨⟨⟨427, 25⟩, ⟨432, 30⟩⟩, ⟨5, -5⟩⟩
        Bricks :=
          [⟨⟨⟨25, 100⟩, ⟨75, 125⟩⟩, 0⟩,
          ⟨⟨⟨125, 100⟩, ⟨175, 125⟩⟩, 2⟩,
          ⟨⟨⟨225, 100⟩, ⟨275, 125⟩⟩, 4⟩,
          ⟨⟨⟨275, 100⟩, ⟨325, 125⟩⟩, 5⟩,
          ⟨⟨⟨375, 100⟩, ⟨425, 125⟩⟩, 7⟩,
          ⟨⟨⟨425, 100⟩, ⟨475, 125⟩⟩, 8⟩] } := ⟨_, rfl⟩
  have h2 : (List.replicate 50 idle).foldl Update s1 = s2 := by
    rw [e1, e2]
    decide
  obtain ⟨s3, e3⟩ : ∃ s : Game, s =
      { Lives := 5
        Score := 18
        Paddle := ⟨⟨⟨25, 488⟩, ⟨125, 500⟩⟩, 0⟩
        Ball := ⟨⟨⟨335, 115⟩, ⟨340, 120⟩⟩, ⟨-5, 5⟩⟩
        Bricks :=
          [⟨⟨⟨25, 100⟩, ⟨75, 125⟩⟩, 0⟩,
          ⟨⟨⟨125, 100⟩, ⟨175, 125⟩⟩, 2⟩,
          ⟨⟨⟨225, 100⟩, ⟨275, 125⟩⟩, 4⟩,
          ⟨⟨⟨275, 100⟩, ⟨325, 125⟩⟩, 5⟩,
          ⟨⟨⟨375, 100⟩, ⟨425, 125⟩⟩, 7⟩] } := ⟨_, rfl⟩
  have h3 : (List.replicate 50 idle).foldl Update s2 = s3 := by
    rw [e2, e3]
    decide
  obtain ⟨s4, e4⟩ : ∃ s : Game, s =
      { Lives := 5
        Score := 18
        Paddle := ⟨⟨⟨25, 488⟩, ⟨125, 500⟩⟩, 0⟩
        Ball := ⟨⟨⟨85, 365⟩, ⟨90, 370⟩⟩, ⟨-5, 5⟩⟩
        Bricks :=
          [⟨⟨⟨25, 100⟩, ⟨75, 125⟩⟩, 0⟩,
          ⟨⟨⟨125, 100⟩, ⟨175, 125⟩⟩, 2⟩,
          ⟨⟨⟨225, 100⟩, ⟨275, 125⟩⟩, 4⟩,
          ⟨⟨⟨275, 100⟩, ⟨325, 125⟩⟩, 5⟩,
          ⟨⟨⟨375, 100⟩, ⟨425, 125⟩⟩, 7⟩] } := ⟨_, rfl⟩
  have h4 : (List.replicate 50 idle).foldl Update s3 = s4 := by
    rw [e3, e4]
    decide
  obtain ⟨s5, e5⟩ : ∃ s : Game, s =
      { Lives := 5
        Score := 18
        Paddle := ⟨⟨⟨25, 488⟩, ⟨125, 500⟩⟩, 0⟩
        Ball := ⟨⟨⟨333, 363⟩, ⟨338, 368⟩⟩, ⟨10, -5⟩⟩
        Bricks :=
          [⟨⟨⟨25, 100⟩, ⟨75, 125⟩⟩, 0⟩,
          ⟨⟨⟨125, 100⟩, ⟨175, 125⟩⟩, 2⟩,
          ⟨⟨⟨225, 100⟩, ⟨275, 125⟩⟩, 4⟩,
          ⟨⟨⟨275, 100⟩, ⟨325, 125⟩⟩, 5⟩,
          ⟨⟨⟨375, 100⟩, ⟨425, 125⟩⟩, 7⟩] } := ⟨_, rfl⟩
  have h5 : (List.replicate 22 idle ++ [drag77, drag75] ++ List.replicate 26 idle).foldl Update s4 = s5 := by
    rw [e4, e5]
    decide
  obtain ⟨s6, e6⟩ : ∃ s : Game, s =
      { Lives := 5
        Score := 20
        Paddle := ⟨⟨⟨25, 488⟩, ⟨125, 500⟩⟩, 0⟩
        Ball := ⟨⟨⟨124, 111⟩, ⟨129, 116⟩⟩, ⟨-3, -5⟩⟩
        Bricks :=
          [⟨⟨⟨25, 100⟩, ⟨75, 125⟩⟩, 0⟩,
          ⟨⟨⟨225, 100⟩, ⟨275, 125⟩⟩, 4⟩,
          ⟨⟨⟨275, 100⟩, ⟨325, 125⟩⟩, 5⟩,
          ⟨⟨⟨375, 100⟩, ⟨425, 125⟩⟩, 7⟩] } := ⟨_, rfl⟩
  have h6 : (List.replicate 50 idle).foldl Update s5 = s6 := by
    rw [e5, e6]
    decide
  have h7 : (List.replicate 32 idle).foldl Update s6 = wallBrickRun := by
    rw [e6]
    decide
  have hs : List.replicate 222 idle ++ [drag77, drag75] ++ List.replicate 108 idle =
      List.replicate 50 idle ++
        List.replicate 50 idle ++
        List.replicate 50 idle ++
        List.replicate 50 idle ++
        (List.replicate 22 idle ++ [drag77, drag75] ++ List.replicate 26 idle) ++
        List.replicate 50 idle ++
        List.replicate 32 idle := by
    decide
  rw [hs]
  simp only [List.foldl_append] at *
  rw [h1, h2, h3, h4, h5, h6, h7]

/-- `wallBrickRun` is reachable. -/
theorem wallBrickRun_reachable : Reachable wallBrickRun := by
  rw [← wallBrickRun_eq]
  exact Reachable_foldl _ _ (Reachable.init 2 2)

/-! ## The paddle update in 64-bit arithmetic -/

/-- A value in the 64-bit range is its own 64-bit representative. -/
theorem wrap64_id (x : Int) (h1 : MinInt64 ≤ x) (h2 : x ≤ MaxInt64) : wrap64 x = x := by
  simp only [MinInt64, MaxInt64] at h1 h2
  unfold wrap64
  omega

/-- The paddle update for a pointer drag in 64-bit arithmetic, on a paddle 100 wide with
64-bit coordinates: where the cursor puts the paddle, and the velocity it leaves. -/
theorem stepPaddle64_drag (p : Paddle) (inp : Input)
    (hw : p.Rect.Max.X - p.Rect.Min.X = 100)
    (hx0 : MinInt64 ≤ p.Rect.Min.X) (hx1 : p.Rect.Max.X ≤ MaxInt64)
    (hy0 : MinInt64 ≤ p.Rect.Min.Y ∧ p.Rect.Min.Y ≤ MaxInt64)
    (hy1 : MinInt64 ≤ p.Rect.Max.Y ∧ p.Rect.Max.Y ≤ MaxInt64)
    (hm : inp.mousePressed = true)
    (hc : MinInt64 ≤ inp.cursorX ∧ inp.cursorX ≤ MaxInt64) :
    stepPaddle64 p inp =
      if inp.cursorX < MinInt64 + 425 then ⟨⟨⟨375, p.Rect.Min.Y⟩, ⟨475, p.Rect.Max.Y⟩⟩, 0⟩
      else if inp.cursorX < 75 then ⟨⟨⟨25, p.Rect.Min.Y⟩, ⟨125, p.Rect.Max.Y⟩⟩, 0⟩
      else if inp.cursorX ≤ 425 then
        ⟨⟨⟨inp.cursorX - 50, p.Rect.Min.Y⟩, ⟨inp.cursorX + 50, p.Rect.Max.Y⟩⟩,
          wrap64 (inp.cursorX - (p.Rect.Min.X + 50))⟩
      else ⟨⟨⟨375, p.Rect.Min.Y⟩, ⟨475, p.Rect.Max.Y⟩⟩, 0⟩ := by
  obtain ⟨⟨⟨x0, y0⟩, ⟨x1, y1⟩⟩, v⟩ := p
  obtain ⟨c1, c2⟩ := hc
  obtain ⟨hy00, hy01⟩ := hy0
  obtain ⟨hy10, hy11⟩ := hy1
  dsimp only at hw hx0 hx1 hy00 hy01 hy10 hy11
  simp only [MinInt64, MaxInt64] at hx0 hx1 hy00 hy01 hy10 hy11 c1 c2 ⊢
  have hdx : (Rectangle.mk ⟨x0, y0⟩ ⟨x1, y1⟩).Dx64 = 100 := by
    simp only [Rectangle.Dx64, hw]
    decide
  have h50 : (100 : Int).tdiv 2 = 50 := by decide
  have hY0 : wrap64 (y0 + 0) = y0 := by
    unfold wrap64
    omega
  have hY1 : wrap64 (y1 + 0) = y1 := by
    unfold wrap64
    omega
  have hY0s : wrap64 (y0 - 0) = y0 := by
    unfold wrap64
    omega
  have hY1s : wrap64 (y1 - 0) = y1 := by
    unfold wrap64
    omega
  have hcen : wrap64 (x0 + 50) = x0 + 50 := by
    unfold wrap64
    omega
  have hmove : movePaddle64 ⟨⟨⟨x0, y0⟩, ⟨x1, y1⟩⟩, v⟩ inp =
      ⟨⟨⟨wrap64 (inp.cursorX - 50), y0⟩, ⟨wrap64 (inp.cursorX + 50), y1⟩⟩,
        wrap64 (inp.cursorX - (x0 + 50))⟩ := by
    simp only [movePaddle64, hm, if_true, hdx, h50, hcen, Rectangle.Add64, hY0, hY1]
    have e1 : wrap64 (x0 + wrap64 (inp.cursorX - (x0 + 50))) = wrap64 (inp.cursorX - 50) := by
      unfold wrap64
      omega
    have e2 : wrap64 (x1 + wrap64 (inp.cursorX - (x0 + 50))) = wrap64 (inp.cursorX + 50) := by
      unfold wrap64
      omega
    rw [e1, e2]
  rw [stepPaddle64, hmove]
  by_cases k1 : inp.cursorX < -9223372036854775808 + 425
  · rw [if_pos k1]
    have d1 : wrap64 (wrap64 (inp.cursorX + 50) - RightWall) > 0 := by
      simp only [RightWall, GameWidth, WallSize]
      unfold wrap64
      omega
    simp only [paddleRightWall64, d1, if_true, Rectangle.Sub64, hY0s, hY1s]
    have e1 : wrap64 (wrap64 (inp.cursorX - 50) -
        wrap64 (wrap64 (inp.cursorX + 50) - RightWall)) = 375 := by
      simp only [RightWall, GameWidth, WallSize]
      unfold wrap64
      omega
    have e2 : wrap64 (wrap64 (inp.cursorX + 50) -
        wrap64 (wrap64 (inp.cursorX + 50) - RightWall)) = 475 := by
      simp only [RightWall, GameWidth, WallSize]
      unfold wrap64
      omega
    rw [e1, e2]
    have d2 : ¬ wrap64 (LeftWall - 375) > 0 := by decide
    simp only [paddleLeftWall64, d2, if_false]
  · rw [if_neg k1]
    by_cases k2 : inp.cursorX < 75
    · rw [if_pos k2]
      have d1 : ¬ wrap64 (wrap64 (inp.cursorX + 50) - RightWall) > 0 := by
        simp only [RightWall, GameWidth, WallSize]
        unfold wrap64
        omega
      simp only [paddleRightWall64, d1, if_false]
      have d2 : wrap64 (LeftWall - wrap64 (inp.cursorX - 50)) > 0 := by
        simp only [LeftWall, WallSize]
        unfold wrap64
        omega
      simp only [paddleLeftWall64, d2, if_true, Rectangle.Add64, hY0, hY1]
      have e1 : wrap64 (wrap64 (inp.cursorX - 50) +
          wrap64 (LeftWall - wrap64 (inp.cursorX - 50))) = 25 := by
        simp only [LeftWall, WallSize]
        unfold wrap64
        omega
      have e2 : wrap64 (wrap64 (inp.cursorX + 50) +
          wrap64 (LeftWall - wrap64 (inp.cursorX - 50))) = 125 := by
        simp only [LeftWall, WallSize]
        unfold wrap64
        omega
      rw [e1, e2]
    · rw [if_neg k2]
      by_cases k3 : inp.cursorX ≤ 425
      · rw [if_pos k3]
        have a1 : wrap64 (inp.cursorX - 50) = inp.cursorX - 50 := by
          unfold wrap64
          omega
        have a2 : wrap64 (inp.cursorX + 50) = inp.cursorX + 50 := by
          unfold wrap64
          omega
        rw [a1, a2]
        have d1 : ¬ wrap64 (inp.cursorX + 50 - RightWall) > 0 := by
          simp only [RightWall, GameWidth, WallSize]
          unfold wrap64
          omega
        simp only [paddleRightWall64, d1, if_false]
        have d2 : ¬ wrap64 (LeftWall - (inp.cursorX - 50)) > 0 := by
          simp only [LeftWall, WallSize]
          unfold wrap64
          omega
        simp only [paddleLeftWall64, d2, if_false]
      · rw [if_neg k3]
        have d1 : wrap64 (wrap64 (inp.cursorX + 50) - RightWall) > 0 := by
          simp only [RightWall, GameWidth, WallSize]
          unfold wrap64
          omega
        simp only [paddleRightWall64, d1, if_true, Rectangle.Sub64, hY0s, hY1s]
        have e1 : wrap64 (wrap64 (inp.cursorX - 50) -
            wrap64 (wrap64 (inp.cursorX + 50) - RightWall)) = 375 := by
          simp only [RightWall, GameWidth, WallSize]
          unfold wrap64
          omega
        have e2 : wrap64 (wrap64 (inp.cursorX + 50) -
            wrap64 (wrap64 (inp.cursorX + 50) - RightWall)) = 475 := by
          simp only [RightWall, GameWidth, WallSize]
          unfold wrap64
          omega
        rw [e1, e2]
        have d2 : ¬ wrap64 (LeftWall - 375) > 0 := by decide
        simp only [paddleLeftWall64, d2, if_false]

/-- On a rectangle and an offset that are small, the 64-bit translation is the exact
one. -/
theorem Add64_small (r : Rectangle) (p : Point)
    (hr : (-1000000 ≤ r.Min.X ∧ r.Min.X ≤ 1000000) ∧ (-1000000 ≤ r.Min.Y ∧ r.Min.Y ≤ 1000000) ∧
      (-1000000 ≤ r.Max.X ∧ r.Max.X ≤ 1000000) ∧ (-1000000 ≤ r.Max.Y ∧ r.Max.Y ≤ 1000000))
    (hp : (-1000000 ≤ p.X ∧ p.X ≤ 1000000) ∧ (-1000000 ≤ p.Y ∧ p.Y ≤ 1000000)) :
    r.Add64 p = r.Add p ∧ r.Sub64 p = r.Sub p := by
  simp only [Rectangle.Add64, Rectangle.Add, Rectangle.Sub64, Rectangle.Sub, wrap64,
    Rectangle.mk.injEq, Point.mk.injEq]
  omega

/-- In a state with the layout of the playfield, and for a cursor position that is a
64-bit value, the paddle update in 64-bit arithmetic is the exact paddle update, at the
same input or, when the cursor is less than 425 above the smallest `int`, at a cursor
beyond the right wall: every paddle that the 64-bit program computes is one that the
exact update computes. -/
theorem stepPaddle64_exact (g : Game) (inp : Input) (hpf : Playfield g)
    (hc : MinInt64 ≤ inp.cursorX ∧ inp.cursorX ≤ MaxInt64) :
    stepPaddle64 g.Paddle inp = stepPaddle g.Paddle inp.inRange := by
  obtain ⟨py0, py1⟩ := hpf.padY
  obtain ⟨pw, px0, px1⟩ := hpf.padX
  obtain ⟨pv0, pv1⟩ := hpf.padV
  cases hm : inp.mousePressed
  · have hin : inp.inRange = inp := by
      simp only [Input.inRange, hm, Bool.false_eq_true, false_and, if_false]
    rw [hin]
    have e1 : movePaddle64 g.Paddle inp = movePaddle g.Paddle inp := by
      have hv : (if inp.keyLeft then wrap64 (g.Paddle.Vel - PaddleSpeed)
          else if inp.keyRight then wrap64 (g.Paddle.Vel + PaddleSpeed)
          else if g.Paddle.Vel > 0 then wrap64 (g.Paddle.Vel - PaddleDecel)
          else if g.Paddle.Vel < 0 then wrap64 (g.Paddle.Vel + PaddleDecel)
          else g.Paddle.Vel) =
          (if inp.keyLeft then g.Paddle.Vel - PaddleSpeed
          else if inp.keyRight then g.Paddle.Vel + PaddleSpeed
          else if g.Paddle.Vel > 0 then g.Paddle.Vel - PaddleDecel
          else if g.Paddle.Vel < 0 then g.Paddle.Vel + PaddleDecel
          else g.Paddle.Vel) := by
        simp only [PaddleSpeed, PaddleDecel, wrap64]
        split_ifs <;> omega
      have hcl := Clamp_bounds
        (if inp.keyLeft then g.Paddle.Vel - PaddleSpeed
          else if inp.keyRight then g.Paddle.Vel + PaddleSpeed
          else if g.Paddle.Vel > 0 then g.Paddle.Vel - PaddleDecel
          else if g.Paddle.Vel < 0 then g.Paddle.Vel + PaddleDecel
          else g.Paddle.Vel) (-PaddleMaxSpeed) PaddleMaxSpeed (by decide)
      have hP : PaddleMaxSpeed = 10 := rfl
      simp only [movePaddle64, movePaddle, hm, Bool.false_eq_true, if_false, hv]
      rw [(Add64_small g.Paddle.Rect _ ⟨by omega, by omega, by omega, by omega⟩
        ⟨by dsimp only; omega, by dsimp only; omega⟩).1]
    have hmv := movePaddle_keys g.Paddle inp hm
    have hcl : -10 ≤ (movePaddle g.Paddle inp).Vel ∧ (movePaddle g.Paddle inp).Vel ≤ 10 := by
      have hv : (movePaddle g.Paddle inp).Vel =
          Clamp (if inp.keyLeft then g.Paddle.Vel - PaddleSpeed
            else if inp.keyRight then g.Paddle.Vel + PaddleSpeed
            else if g.Paddle.Vel > 0 then g.Paddle.Vel - PaddleDecel
            else if g.Paddle.Vel < 0 then g.Paddle.Vel + PaddleDecel
            else g.Paddle.Vel) (-PaddleMaxSpeed) PaddleMaxSpeed := by
        simp only [movePaddle, hm, Bool.false_eq_true, if_false]
      rw [hv]
      exact Clamp_bounds _ (-10) 10 (by decide)
    rw [stepPaddle64, stepPaddle, e1, hmv]
    generalize (movePaddle g.Paddle inp).Vel = v at hcl
    obtain ⟨v0, v1⟩ := hcl
    unfold paddleLeftWall64 paddleRightWall64 paddleLeftWall paddleRightWall
    simp only [Rectangle.Add64, Rectangle.Sub64, Rectangle.Add, Rectangle.Sub, wrap64,
      RightWall, LeftWall, GameWidth, WallSize]
    split_ifs <;> (try dsimp only at *) <;>
      (try simp only [Paddle.mk.injEq, Rectangle.mk.injEq, Point.mk.injEq, and_true,
        true_and]) <;>
      omega
  · have h64 := stepPaddle64_drag g.Paddle inp (by omega) (by simp only [MinInt64]; omega)
      (by simp only [MaxInt64]; omega) ⟨by simp only [MinInt64]; omega,
        by simp only [MaxInt64]; omega⟩ ⟨by simp only [MinInt64]; omega,
        by simp only [MaxInt64]; omega⟩ hm hc
    rw [h64]
    obtain ⟨c0, c1⟩ := hc
    simp only [MinInt64, MaxInt64] at c0 c1 ⊢
    by_cases k1 : inp.cursorX < -9223372036854775808 + 425
    · have hin : inp.inRange = { inp with cursorX := 426 } := by
        simp only [Input.inRange, hm, MinInt64, k1, and_self, if_true]
      rw [hin, if_pos k1, stepPaddle_drag g.Paddle { inp with cursorX := 426 } (by omega) hm]
      dsimp only
      rw [if_neg (by decide), if_neg (by decide)]
    · have hin : inp.inRange = inp := by
        simp only [Input.inRange, hm, MinInt64, k1, and_false, if_false]
      rw [hin, if_neg k1, stepPaddle_drag g.Paddle inp (by omega) hm]
      have e4 : wrap64 (inp.cursorX - (g.Paddle.Rect.Min.X + 50)) =
          inp.cursorX - (g.Paddle.Rect.Min.X + 50) := by
        unfold wrap64
        omega
      rw [e4]

/-! ## Score -/

/-- The bricks after `Update` are a sublist of the bricks before. -/
theorem Update_Bricks_sublist (g : Game) (inp : Input) :
    (Update g inp).Bricks.Sublist g.Bricks := by
  by_cases h : g.Lives = 0 ∨ g.Bricks = [] ∨ (moveBall g.Ball).Rect.Min.Y > GameHeight
  · rw [(Update_idle_Score_Bricks g inp h).2]
  · have hl : g.Lives ≠ 0 := fun e => h (Or.inl e)
    have hb : g.Bricks ≠ [] := fun e => h (Or.inr (Or.inl e))
    have hy : ¬ (moveBall g.Ball).Rect.Min.Y > GameHeight := fun e => h (Or.inr (Or.inr e))
    rw [Update_play_Bricks g inp hl hb hy]
    exact brickLoop_sublist g.Bricks _ _

/-- C4. In every state that the program reaches from the game of `main`, and for every
input, the score after `Update` is greater than or equal to the score before, and it is
the score before plus the sum of the `Points` of the bricks removed in that frame: the
bricks that are left are a sublist of the bricks before, and `removed` is the rest. The
`uint8` addition does not wrap, because the score and the remaining bricks together hold
36 points. -/
theorem score_monotone (g : Game) (inp : Input) (hr : Reachable g) :
    g.Score ≤ (Update g inp).Score ∧
      ∃ removed : List Brick,
        (Update g inp).Bricks.Sublist g.Bricks ∧
          ((Update g inp).Bricks ++ removed).Perm g.Bricks ∧
          (Update g inp).Score = g.Score + sumPoints removed := by
  have h36 := (Reachable_Playfield g hr).score
  obtain ⟨removed, hperm, hscore⟩ := Update_removed g inp (by omega)
  have hsum := sumPoints_perm hperm
  rw [sumPoints_append] at hsum
  have e : (Update g inp).Score = g.Score + sumPoints removed := by
    rw [hscore, Nat.mod_eq_of_lt (by omega)]
  exact ⟨by omega, removed, Update_Bricks_sublist g inp, hperm, e⟩

/-- C4 on `doubleBrickRun`: the next frame removes the first two bricks of the row, worth
0 and 1 points, and the score goes from 0 to 1. -/
theorem score_monotone_witness :
    (Reachable doubleBrickRun ∧ doubleBrickRun.Score = 0 ∧
        (Update doubleBrickRun idle).Score = 1 ∧
        (Update doubleBrickRun idle).Bricks = doubleBrickRun.Bricks.drop 2) ∧
      doubleBrickRun.Score ≤ (Update doubleBrickRun idle).Score ∧
      ∃ removed : List Brick,
        (Update doubleBrickRun idle).Bricks.Sublist doubleBrickRun.Bricks ∧
          ((Update doubleBrickRun idle).Bricks ++ removed).Perm doubleBrickRun.Bricks ∧
          (Update doubleBrickRun idle).Score = doubleBrickRun.Score + sumPoints removed :=
  ⟨⟨doubleBrickRun_reachable, by decide⟩,
    score_monotone doubleBrickRun idle doubleBrickRun_reachable⟩

/-! ## Walls -/

/-- A frame in which only the walls act, for any state with a ball 5 wide and any
velocity. `m` is the ball moved by its velocity, with no life lost, `β` the wall-resolved
ball, which overlaps neither the updated paddle nor any brick. After `Update` the ball is
at `β`, inside the walls:
when `m` crossed the right wall it has been moved left by the overflow and rests on that
wall (`Max.X = 475`), when `m` crossed the left wall it has been moved right by the
overflow (`Min.X = 25`), when `m` crossed the top wall it has been moved down by the
overflow (`Min.Y = 25`), and otherwise it is where `m` was, also when it reaches below
the field: there is no bottom wall. `vx` is the old `vx`, negated exactly when `m`
crossed the right or the left wall, and `vy` the old `vy`, negated exactly when `m`
crossed the top wall, each clamped to `[-10, 10]`. -/
theorem Update_walls (g : Game) (inp : Input) (m β : Ball) (P : Paddle)
    (hm : m = moveBall g.Ball) (hβ : β = ballWalls m) (hP : P = stepPaddle g.Paddle inp)
    (hl : g.Lives ≠ 0) (hb : g.Bricks ≠ []) (hy : ¬ m.Rect.Min.Y > GameHeight)
    (hdx : g.Ball.Rect.Dx = 5)
    (hpad : (β.Rect.Intersect P.Rect).Empty = true)
    (hbr : ∀ x ∈ g.Bricks, (β.Rect.Intersect x.Rect).Empty = true) :
    ((Update g inp).Ball.Rect = β.Rect ∧
        25 ≤ (Update g inp).Ball.Rect.Min.X ∧ (Update g inp).Ball.Rect.Max.X ≤ 475 ∧
        25 ≤ (Update g inp).Ball.Rect.Min.Y) ∧
      (m.Rect.Max.X > 475 →
        (Update g inp).Ball.Rect.Max.X = 475 ∧
          (Update g inp).Ball.Rect.Min.X = m.Rect.Min.X - (m.Rect.Max.X - 475)) ∧
      (m.Rect.Min.X < 25 →
        (Update g inp).Ball.Rect.Min.X = 25 ∧
          (Update g inp).Ball.Rect.Max.X = m.Rect.Max.X + (25 - m.Rect.Min.X)) ∧
      (¬ m.Rect.Max.X > 475 → ¬ m.Rect.Min.X < 25 →
        (Update g inp).Ball.Rect.Min.X = m.Rect.Min.X ∧
          (Update g inp).Ball.Rect.Max.X = m.Rect.Max.X) ∧
      (m.Rect.Min.Y < 25 →
        (Update g inp).Ball.Rect.Min.Y = 25 ∧
          (Update g inp).Ball.Rect.Max.Y = m.Rect.Max.Y + (25 - m.Rect.Min.Y)) ∧
      (¬ m.Rect.Min.Y < 25 →
        (Update g inp).Ball.Rect.Min.Y = m.Rect.Min.Y ∧
          (Update g inp).Ball.Rect.Max.Y = m.Rect.Max.Y) ∧
      (Update g inp).Ball.Vel.X =
        Clamp (if m.Rect.Max.X > 475 ∨ m.Rect.Min.X < 25 then -m.Vel.X else m.Vel.X)
          (-10) 10 ∧
      (Update g inp).Ball.Vel.Y =
        Clamp (if m.Rect.Min.Y < 25 then -m.Vel.Y else m.Vel.Y) (-10) 10 := by
  have hmdx : m.Rect.Dx = 5 := by
    rw [hm, moveBall_Dx]
    exact hdx
  have hspec := ballWalls_spec m hmdx
  rw [← hβ] at hspec
  have hstart : ballAtBricks g inp = β := by
    rw [ballAtBricks, ← hm, ← hβ, ← hP]
    exact hitPaddle_miss β P hpad
  have hplay := (Update_play_no_brick g inp hl hb (by rw [← hm]; exact hy)
    (by rw [hstart]; exact hbr)).1
  rw [hstart] at hplay
  rw [hplay, hspec]
  simp only [Rectangle.Dx] at hmdx
  simp only [Rectangle.Add]
  refine ⟨⟨trivial, ?_, ?_, ?_⟩, ?_, ?_, ?_, ?_, ?_, trivial, trivial⟩
  · split_ifs <;> omega
  · split_ifs <;> omega
  · split_ifs <;> omega
  · intro h1
    rw [if_pos h1]
    constructor <;> omega
  · intro h1
    rw [if_neg (by omega), if_pos h1]
    constructor <;> omega
  · intro h1 h2
    rw [if_neg h1, if_neg h2]
    constructor <;> omega
  · intro h1
    rw [if_pos h1]
    constructor <;> omega
  · intro h1
    rw [if_neg h1]
    constructor <;> omega

/-- C16. In every state that the program reaches from the game of `main`, not terminal:
`m` is the ball moved by its velocity, with no life lost, `β` the wall-resolved ball,
which overlaps neither the updated paddle nor any brick. After `Update` the ball is at
`β`, inside the walls (`Min.X >= 25`, `Max.X <= 475`, `Min.Y >= 25`): when `m` crossed
the right wall it has been moved left by the overflow and rests on that wall
(`Max.X = 475`), when `m` crossed the left wall it has been moved right by the overflow
(`Min.X = 25`), when `m` crossed the top wall it has been moved down by the overflow
(`Min.Y = 25`), and otherwise it is where `m` was, also when it reaches below the field:
there is no bottom wall. `vx` is the old `vx`, negated exactly when `m` crossed the right
or the left wall, and `vy` the old `vy`, negated exactly when `m` crossed the top wall. -/
theorem wall_collisions (g : Game) (inp : Input) (m β : Ball) (P : Paddle)
    (hm : m = moveBall g.Ball) (hβ : β = ballWalls m) (hP : P = stepPaddle g.Paddle inp)
    (hr : Reachable g) (hl : g.Lives ≠ 0) (hb : g.Bricks ≠ [])
    (hy : ¬ m.Rect.Min.Y > GameHeight)
    (hpad : (β.Rect.Intersect P.Rect).Empty = true)
    (hbr : ∀ x ∈ g.Bricks, (β.Rect.Intersect x.Rect).Empty = true) :
    ((Update g inp).Ball.Rect = β.Rect ∧
        25 ≤ (Update g inp).Ball.Rect.Min.X ∧ (Update g inp).Ball.Rect.Max.X ≤ 475 ∧
        25 ≤ (Update g inp).Ball.Rect.Min.Y) ∧
      (m.Rect.Max.X > 475 →
        (Update g inp).Ball.Rect.Max.X = 475 ∧
          (Update g inp).Ball.Rect.Min.X = m.Rect.Min.X - (m.Rect.Max.X - 475)) ∧
      (m.Rect.Min.X < 25 →
        (Update g inp).Ball.Rect.Min.X = 25 ∧
          (Update g inp).Ball.Rect.Max.X = m.Rect.Max.X + (25 - m.Rect.Min.X)) ∧
      (¬ m.Rect.Max.X > 475 → ¬ m.Rect.Min.X < 25 →
        (Update g inp).Ball.Rect.Min.X = m.Rect.Min.X ∧
          (Update g inp).Ball.Rect.Max.X = m.Rect.Max.X) ∧
      (m.Rect.Min.Y < 25 →
        (Update g inp).Ball.Rect.Min.Y = 25 ∧
          (Update g inp).Ball.Rect.Max.Y = m.Rect.Max.Y + (25 - m.Rect.Min.Y)) ∧
      (¬ m.Rect.Min.Y < 25 →
        (Update g inp).Ball.Rect.Min.Y = m.Rect.Min.Y ∧
          (Update g inp).Ball.Rect.Max.Y = m.Rect.Max.Y) ∧
      (Update g inp).Ball.Vel.X =
        (if m.Rect.Max.X > 475 ∨ m.Rect.Min.X < 25 then -g.Ball.Vel.X else g.Ball.Vel.X) ∧
      (Update g inp).Ball.Vel.Y =
        (if m.Rect.Min.Y < 25 then -g.Ball.Vel.Y else g.Ball.Vel.Y) := by
  have hpf := Reachable_Playfield g hr
  have hdx : g.Ball.Rect.Dx = 5 := by
    have := hpf.ball.1
    simp only [Rectangle.Dx]
    omega
  have hv : m.Vel = g.Ball.Vel := by
    rw [hm]
    rfl
  obtain ⟨h1, h2, h3, h4, h5, h6, h7, h8⟩ :=
    Update_walls g inp m β P hm hβ hP hl hb hy hdx hpad hbr
  have vx := hpf.velX
  have vy := hpf.velY
  refine ⟨h1, h2, h3, h4, h5, h6, ?_, ?_⟩
  · rw [h7, hv]
    split_ifs
    · exact Clamp_id _ _ _ (by omega) (by omega)
    · exact Clamp_id _ _ _ vx.1 vx.2
  · rw [h8, hv]
    split_ifs
    · exact Clamp_id _ _ _ (by omega) (by omega)
    · exact Clamp_id _ _ _ vy.1 vy.2

/-- C16 on `topWallRun`: the ball at (120,25)-(125,30) with velocity (5, -5) is moved to
`y = 20`, put back on the top wall at (125,25)-(130,30), and leaves with velocity
(5, 5). -/
theorem wall_collisions_witness :
    (Reachable topWallRun ∧ topWallRun.Ball = ⟨⟨⟨120, 25⟩, ⟨125, 30⟩⟩, ⟨5, -5⟩⟩ ∧
        (moveBall topWallRun.Ball).Rect = ⟨⟨125, 20⟩, ⟨130, 25⟩⟩ ∧
        (Update topWallRun idle).Ball = ⟨⟨⟨125, 25⟩, ⟨130, 30⟩⟩, ⟨5, 5⟩⟩) ∧
      ((Update topWallRun idle).Ball.Rect = (ballWalls (moveBall topWallRun.Ball)).Rect ∧
        25 ≤ (Update topWallRun idle).Ball.Rect.Min.X ∧
        (Update topWallRun idle).Ball.Rect.Max.X ≤ 475 ∧
        25 ≤ (Update topWallRun idle).Ball.Rect.Min.Y) ∧
      ((Update topWallRun idle).Ball.Rect.Min.Y = 25 ∧
        (Update topWallRun idle).Ball.Rect.Max.Y =
          (moveBall topWallRun.Ball).Rect.Max.Y +
            (25 - (moveBall topWallRun.Ball).Rect.Min.Y)) ∧
      (Update topWallRun idle).Ball.Vel.Y =
        (if (moveBall topWallRun.Ball).Rect.Min.Y < 25 then -topWallRun.Ball.Vel.Y
          else topWallRun.Ball.Vel.Y) :=
  ⟨⟨topWallRun_reachable, by decide⟩,
    (wall_collisions topWallRun idle _ _ _ rfl rfl rfl topWallRun_reachable (by decide)
      (by decide) (by decide) (by decide) (by decide)).1,
    (wall_collisions topWallRun idle _ _ _ rfl rfl rfl topWallRun_reachable (by decide)
      (by decide) (by decide) (by decide) (by decide)).2.2.2.2.1 (by decide),
    (wall_collisions topWallRun idle _ _ _ rfl rfl rfl topWallRun_reachable (by decide)
      (by decide) (by decide) (by decide) (by decide)).2.2.2.2.2.2.2⟩

/-! ## Paddle side hit -/

/-- A hit on a side face of the paddle, for any state and any velocity. Non-terminal
state, no life lost; `β` is the moved, wall-resolved ball, `P` the updated paddle, whatever its velocity, and `d` their overlap,
non-empty and at least as high as wide. If the ball, once translated by the overlap
width, overlaps no brick, then `Update` sets `vy` to the negated wall-resolved `vy`
clamped to `[-10, 10]` (the negated `vy` itself when it lies in that range) and: if the
left edge of the overlap is the left edge of the paddle, translates the ball left by the
overlap width and sets `vx = -10`; otherwise translates it right by the overlap width
and sets `vx = 10`. -/
theorem Update_paddle_side (g : Game) (inp : Input) (β : Ball) (P : Paddle) (d : Rectangle)
    (hβ : β = ballWalls (moveBall g.Ball)) (hP : P = stepPaddle g.Paddle inp)
    (hd : d = β.Rect.Intersect P.Rect)
    (hl : g.Lives ≠ 0) (hb : g.Bricks ≠ [])
    (hy : ¬ (moveBall g.Ball).Rect.Min.Y > GameHeight)
    (hne : d.Empty = false) (hhw : d.Size.Y ≥ d.Size.X)
    (hbr : ∀ x ∈ g.Bricks,
      ((if d.Min.X = P.Rect.Min.X then β.Rect.Sub ⟨d.Size.X, 0⟩
        else β.Rect.Add ⟨d.Size.X, 0⟩).Intersect x.Rect).Empty = true) :
    (Update g inp).Ball.Vel.Y = Clamp (-β.Vel.Y) (-10) 10 ∧
      (d.Min.X = P.Rect.Min.X →
        (Update g inp).Ball.Rect = β.Rect.Sub ⟨d.Size.X, 0⟩ ∧
          (Update g inp).Ball.Vel.X = -10) ∧
      (d.Min.X ≠ P.Rect.Min.X →
        (Update g inp).Ball.Rect = β.Rect.Add ⟨d.Size.X, 0⟩ ∧
          (Update g inp).Ball.Vel.X = 10) ∧
      (-10 ≤ β.Vel.Y → β.Vel.Y ≤ 10 → (Update g inp).Ball.Vel.Y = -β.Vel.Y) := by
  have hhit : ballAtBricks g inp =
      if d.Min.X = P.Rect.Min.X then
        { Rect := β.Rect.Sub ⟨d.Size.X, 0⟩, Vel := ⟨-10, β.Vel.Y * -1⟩ }
      else
        { Rect := β.Rect.Add ⟨d.Size.X, 0⟩, Vel := ⟨10, β.Vel.Y * -1⟩ } := by
    rw [ballAtBricks, ← hβ, ← hP]
    rw [hd] at hne hhw ⊢
    exact hitPaddle_side β P hne hhw
  have hplay := (Update_play_no_brick g inp hl hb hy
    (by rw [hhit]; split_ifs at hbr ⊢ <;> exact hbr)).1
  rw [hhit] at hplay
  rw [hplay]
  have hneg : β.Vel.Y * -1 = -β.Vel.Y := by omega
  refine ⟨?_, ?_, ?_, ?_⟩
  · split_ifs <;> simp only [hneg]
  · intro h1
    rw [if_pos h1]
    exact ⟨rfl, rfl⟩
  · intro h1
    rw [if_neg h1]
    exact ⟨rfl, rfl⟩
  · intro h1 h2
    have hc : Clamp (-β.Vel.Y) (-10) 10 = -β.Vel.Y := by
      unfold Clamp
      split_ifs <;> omega
    split_ifs <;> simp only [hneg, hc]

/-- C15. In every state that the program reaches from the game of `main`, not terminal,
and for every input, so whatever the velocity of the paddle: `β` is the moved,
wall-resolved ball, `P` the updated paddle and `d` their overlap, non-empty and at least
as high as wide. Then `β` overlaps no brick, and `Update` negates `vy` and: if the left
edge of the overlap is the left edge of the paddle, translates the ball left by the
overlap width and sets `vx = -10`; otherwise translates it right by the overlap width
and sets `vx = 10`. -/
theorem paddle_side_hit (g : Game) (inp : Input) (β : Ball) (P : Paddle) (d : Rectangle)
    (hβ : β = ballWalls (moveBall g.Ball)) (hP : P = stepPaddle g.Paddle inp)
    (hd : d = β.Rect.Intersect P.Rect)
    (hr : Reachable g) (hl : g.Lives ≠ 0) (hb : g.Bricks ≠ [])
    (hne : d.Empty = false) (hhw : d.Size.Y ≥ d.Size.X) :
    (∀ x ∈ g.Bricks, (β.Rect.Intersect x.Rect).Empty = true) ∧
      (Update g inp).Ball.Vel.Y = -g.Ball.Vel.Y ∧
      (d.Min.X = P.Rect.Min.X →
        (Update g inp).Ball.Rect = β.Rect.Sub ⟨d.Size.X, 0⟩ ∧
          (Update g inp).Ball.Vel.X = -10) ∧
      (d.Min.X ≠ P.Rect.Min.X →
        (Update g inp).Ball.Rect = β.Rect.Add ⟨d.Size.X, 0⟩ ∧
          (Update g inp).Ball.Vel.X = 10) := by
  have hpf := Reachable_Playfield g hr
  have hne2 := hne
  rw [hd, hβ, hP] at hne2
  obtain ⟨hy, l2, l3, _, _, _⟩ := paddle_overlap_low g inp hpf hne2
  rw [← hβ] at l2 l3
  have hrow := hpf.row
  have hmiss : ∀ x ∈ g.Bricks, (β.Rect.Intersect x.Rect).Empty = true := by
    intro x hx
    apply Intersect_below
    have := (hrow x hx).2.1
    omega
  have hbr : ∀ x ∈ g.Bricks,
      ((if d.Min.X = P.Rect.Min.X then β.Rect.Sub ⟨d.Size.X, 0⟩
        else β.Rect.Add ⟨d.Size.X, 0⟩).Intersect x.Rect).Empty = true := by
    intro x hx
    apply Intersect_below
    have := (hrow x hx).2.1
    split_ifs
    · simp only [Rectangle.Sub]
      omega
    · simp only [Rectangle.Add]
      omega
  obtain ⟨_, h2, h3, h4⟩ := Update_paddle_side g inp β P d hβ hP hd hl hb hy hne hhw hbr
  have vy := hpf.velY
  refine ⟨hmiss, ?_, h2, h3⟩
  rw [← l2]
  exact h4 (by omega) (by omega)

/-- C15 on `paddleEndRun` with the pointer held at `x = 413`: the paddle is put at
(363..463), the ball is moved to (360,485)-(365,490) and overlaps the left end of the
paddle by 2 by 2; it is moved left by 2, to the paddle edge `x = 363`, and leaves with
velocity (-10, -5). -/
theorem paddle_side_hit_witness :
    (Reachable paddleEndRun ∧
        paddleEndRun.Ball = ⟨⟨⟨355, 480⟩, ⟨360, 485⟩⟩, ⟨5, 5⟩⟩ ∧
        (stepPaddle paddleEndRun.Paddle drag413).Rect = ⟨⟨363, 488⟩, ⟨463, 500⟩⟩ ∧
        (ballWalls (moveBall paddleEndRun.Ball)).Rect = ⟨⟨360, 485⟩, ⟨365, 490⟩⟩ ∧
        (Update paddleEndRun drag413).Ball = ⟨⟨⟨358, 485⟩, ⟨363, 490⟩⟩, ⟨-10, -5⟩⟩) ∧
      (Update paddleEndRun drag413).Ball.Vel.Y = -paddleEndRun.Ball.Vel.Y ∧
      (Update paddleEndRun drag413).Ball.Rect =
        (ballWalls (moveBall paddleEndRun.Ball)).Rect.Sub
          ⟨((ballWalls (moveBall paddleEndRun.Ball)).Rect.Intersect
            (stepPaddle paddleEndRun.Paddle drag413).Rect).Size.X, 0⟩ ∧
      (Update paddleEndRun drag413).Ball.Vel.X = -10 :=
  ⟨⟨paddleEndRun_reachable, by decide⟩,
    (paddle_side_hit paddleEndRun drag413 _ _ _ rfl rfl rfl paddleEndRun_reachable
      (by decide) (by decide) (by decide) (by decide)).2.1,
    (paddle_side_hit paddleEndRun drag413 _ _ _ rfl rfl rfl paddleEndRun_reachable
      (by decide) (by decide) (by decide) (by decide)).2.2.1 (by decide)⟩

/-! ## Paddle zones -/

/-- A hit on the top face of the resting paddle, for any state and any velocity.
Non-terminal state, no life lost, no pointer or key input, paddle velocity 0; `β` is the moved, wall-resolved ball, `P` the updated paddle and `d`
their overlap, non-empty and wider than high. If the ball, once pushed up by the overlap
height, overlaps no brick, then `Update` leaves it there and sets its velocity by the
overlap centre `c = d.Min.X + width/2`: `(-5, -3)` if `c < P.Min.X + Dx/4`, `(5, -3)` if
`c > P.Max.X - Dx/4`, and otherwise `vy = -5` with `vx` the wall-resolved `vx` clamped to
`[-10, 10]`. For the paddle spanning `[25, 125]` the two bounds are 50 and 100, and
`-BallMaxSpeed/3` is `-3`. -/
theorem Update_paddle_top (g : Game) (inp : Input) (β : Ball) (P : Paddle) (d : Rectangle)
    (hβ : β = ballWalls (moveBall g.Ball)) (hP : P = stepPaddle g.Paddle inp)
    (hd : d = β.Rect.Intersect P.Rect)
    (hl : g.Lives ≠ 0) (hb : g.Bricks ≠ [])
    (hy : ¬ (moveBall g.Ball).Rect.Min.Y > GameHeight)
    (hm : inp.mousePressed = false) (hkl : inp.keyLeft = false)
    (hkr : inp.keyRight = false) (hv : g.Paddle.Vel = 0)
    (hne : d.Empty = false) (hwh : d.Size.X > d.Size.Y)
    (hbr : ∀ x ∈ g.Bricks, ((β.Rect.Sub ⟨0, d.Size.Y⟩).Intersect x.Rect).Empty = true) :
    (Update g inp).Ball.Rect = β.Rect.Sub ⟨0, d.Size.Y⟩ ∧
      (d.Min.X + d.Size.X.tdiv 2 < P.Rect.Min.X + P.Rect.Dx.tdiv 4 →
        (Update g inp).Ball.Vel = ⟨-5, -3⟩) ∧
      (d.Min.X + d.Size.X.tdiv 2 > P.Rect.Max.X - P.Rect.Dx.tdiv 4 →
        (Update g inp).Ball.Vel = ⟨5, -3⟩) ∧
      (¬ d.Min.X + d.Size.X.tdiv 2 < P.Rect.Min.X + P.Rect.Dx.tdiv 4 →
        ¬ d.Min.X + d.Size.X.tdiv 2 > P.Rect.Max.X - P.Rect.Dx.tdiv 4 →
        (Update g inp).Ball.Vel = ⟨Clamp β.Vel.X (-10) 10, -5⟩) ∧
      (P.Rect.Min.X = 25 → P.Rect.Max.X = 125 →
        P.Rect.Min.X + P.Rect.Dx.tdiv 4 = 50 ∧ P.Rect.Max.X - P.Rect.Dx.tdiv 4 = 100) ∧
      (-BallMaxSpeed).tdiv 3 = -3 := by
  have hPv : P.Vel = 0 := by
    rw [hP]
    exact stepPaddle_rest g.Paddle inp hm hkl hkr hv
  have hhit : ballAtBricks g inp =
      { Rect := β.Rect.Sub ⟨0, d.Size.Y⟩
        Vel :=
          if d.Min.X + d.Size.X.tdiv 2 < P.Rect.Min.X + P.Rect.Dx.tdiv 4 then ⟨-5, -3⟩
          else if d.Min.X + d.Size.X.tdiv 2 > P.Rect.Max.X - P.Rect.Dx.tdiv 4 then ⟨5, -3⟩
          else ⟨β.Vel.X, -5⟩ } := by
    rw [ballAtBricks, ← hβ, ← hP]
    rw [hd] at hne hwh ⊢
    exact hitPaddle_top_rest β P hne hwh hPv
  have hloop := brickLoop_all_miss g.Bricks ⟨ballAtBricks g inp, g.Score, []⟩
    (by rw [hhit]; exact hbr)
  have hball := Update_play_Ball g inp hl hb hy
  rw [hloop] at hball
  dsimp only at hball
  rw [hball, hhit]
  dsimp only
  have hwidth : P.Rect.Min.X < P.Rect.Max.X := by
    rw [hd] at hne
    exact (Intersect_nonempty_width β.Rect P.Rect hne).1
  have hq : P.Rect.Dx.tdiv 4 = P.Rect.Dx / 4 :=
    Int.tdiv_eq_ediv (by simp only [Rectangle.Dx]; omega) (by decide)
  refine ⟨rfl, ?_, ?_, ?_, ?_, by decide⟩
  · intro h1
    rw [if_pos h1]
    rfl
  · intro h2
    have h1 : ¬ d.Min.X + d.Size.X.tdiv 2 < P.Rect.Min.X + P.Rect.Dx.tdiv 4 := by
      rw [hq] at h2 ⊢
      simp only [Rectangle.Dx] at h2 ⊢
      omega
    rw [if_neg h1, if_pos h2]
    rfl
  · intro h1 h2
    rw [if_neg h1, if_neg h2]
    rfl
  · intro h1 h2
    rw [hq]
    simp only [Rectangle.Dx]
    omega

/-- C9. In every state that the program reaches from the game of `main`, not terminal,
with no pointer or key input and paddle velocity 0: `β` is the moved, wall-resolved ball,
`P` the updated paddle and `d` their overlap, non-empty and wider than high. Then `β`
overlaps no brick, and `Update` moves the ball up by the overlap height and sets its
velocity by the overlap centre `c = d.Min.X + width/2`: `(-5, -3)` if
`c < P.Min.X + Dx/4`, `(5, -3)` if `c > P.Max.X - Dx/4`, and otherwise `vy = -5` with
`vx` unchanged. For the paddle spanning `[25, 125]` the two bounds are 50 and 100, and
`-BallMaxSpeed/3` is `-3`. -/
theorem paddle_zone (g : Game) (inp : Input) (β : Ball) (P : Paddle) (d : Rectangle)
    (hβ : β = ballWalls (moveBall g.Ball)) (hP : P = stepPaddle g.Paddle inp)
    (hd : d = β.Rect.Intersect P.Rect)
    (hr : Reachable g) (hl : g.Lives ≠ 0) (hb : g.Bricks ≠ [])
    (hm : inp.mousePressed = false) (hkl : inp.keyLeft = false)
    (hkr : inp.keyRight = false) (hv : g.Paddle.Vel = 0)
    (hne : d.Empty = false) (hwh : d.Size.X > d.Size.Y) :
    (∀ x ∈ g.Bricks, (β.Rect.Intersect x.Rect).Empty = true) ∧
      (Update g inp).Ball.Rect = β.Rect.Sub ⟨0, d.Size.Y⟩ ∧
      (d.Min.X + d.Size.X.tdiv 2 < P.Rect.Min.X + P.Rect.Dx.tdiv 4 →
        (Update g inp).Ball.Vel = ⟨-5, -3⟩) ∧
      (d.Min.X + d.Size.X.tdiv 2 > P.Rect.Max.X - P.Rect.Dx.tdiv 4 →
        (Update g inp).Ball.Vel = ⟨5, -3⟩) ∧
      (¬ d.Min.X + d.Size.X.tdiv 2 < P.Rect.Min.X + P.Rect.Dx.tdiv 4 →
        ¬ d.Min.X + d.Size.X.tdiv 2 > P.Rect.Max.X - P.Rect.Dx.tdiv 4 →
        (Update g inp).Ball.Vel = ⟨β.Vel.X, -5⟩) ∧
      (P.Rect.Min.X = 25 → P.Rect.Max.X = 125 →
        P.Rect.Min.X + P.Rect.Dx.tdiv 4 = 50 ∧ P.Rect.Max.X - P.Rect.Dx.tdiv 4 = 100) ∧
      (-BallMaxSpeed).tdiv 3 = -3 := by
  have hpf := Reachable_Playfield g hr
  have hne2 := hne
  rw [hd, hβ, hP] at hne2
  obtain ⟨hy, _, l3, l4, _, _⟩ := paddle_overlap_low g inp hpf hne2
  rw [← hβ] at l3 l4
  have hrow := hpf.row
  have hsz := hne
  rw [hd] at hsz
  obtain ⟨_, _, s3, s4, _⟩ := overlap_size β.Rect P.Rect l4 hsz
  rw [← hd] at s3 s4
  have hmiss : ∀ x ∈ g.Bricks, (β.Rect.Intersect x.Rect).Empty = true := by
    intro x hx
    apply Intersect_below
    have := (hrow x hx).2.1
    omega
  have hbr : ∀ x ∈ g.Bricks,
      ((β.Rect.Sub ⟨0, d.Size.Y⟩).Intersect x.Rect).Empty = true := by
    intro x hx
    apply Intersect_below
    have := (hrow x hx).2.1
    simp only [Rectangle.Sub]
    omega
  obtain ⟨h1, h2, h3, h4, h5, h6⟩ :=
    Update_paddle_top g inp β P d hβ hP hd hl hb hy hm hkl hkr hv hne hwh hbr
  have hvx : Clamp β.Vel.X (-10) 10 = β.Vel.X := by
    obtain ⟨m1, _, _, m4⟩ := moveBall_shape g.Ball hpf.ball
    obtain ⟨_, _, _, _, _, w6⟩ := ballWalls_shape (moveBall g.Ball) m1
    rw [m4, ← hβ] at w6
    have vx := hpf.velX
    apply Clamp_id
    · rcases w6 with e | e <;> omega
    · rcases w6 with e | e <;> omega
  refine ⟨hmiss, h1, h2, h3, ?_, h5, h6⟩
  intro c1 c2
  rw [h4 c1 c2, hvx]

/-- C9 on `paddleTopRun`: the ball is moved to (75,485)-(80,490) and overlaps the top of
the resting paddle (25..125) by 5 by 2, with its centre at 77 in the centre zone; it is
moved up by 2 and leaves with velocity (5, -5), `vx` unchanged. -/
theorem paddle_zone_witness :
    (Reachable paddleTopRun ∧
        paddleTopRun.Ball = ⟨⟨⟨70, 480⟩, ⟨75, 485⟩⟩, ⟨5, 5⟩⟩ ∧
        paddleTopRun.Paddle = ⟨⟨⟨25, 488⟩, ⟨125, 500⟩⟩, 0⟩ ∧
        (ballWalls (moveBall paddleTopRun.Ball)).Rect = ⟨⟨75, 485⟩, ⟨80, 490⟩⟩ ∧
        (Update paddleTopRun idle).Ball = ⟨⟨⟨75, 483⟩, ⟨80, 488⟩⟩, ⟨5, -5⟩⟩) ∧
      (Update paddleTopRun idle).Ball.Rect =
        (ballWalls (moveBall paddleTopRun.Ball)).Rect.Sub
          ⟨0, ((ballWalls (moveBall paddleTopRun.Ball)).Rect.Intersect
            (stepPaddle paddleTopRun.Paddle idle).Rect).Size.Y⟩ ∧
      (Update paddleTopRun idle).Ball.Vel =
        ⟨(ballWalls (moveBall paddleTopRun.Ball)).Vel.X, -5⟩ :=
  ⟨⟨paddleTopRun_reachable, by decide⟩,
    (paddle_zone paddleTopRun idle _ _ _ rfl rfl rfl paddleTopRun_reachable (by decide)
      (by decide) rfl rfl rfl rfl (by decide) (by decide)).2.1,
    (paddle_zone paddleTopRun idle _ _ _ rfl rfl rfl paddleTopRun_reachable (by decide)
      (by decide) rfl rfl rfl rfl (by decide) (by decide)).2.2.2.2.1
      (by decide) (by decide)⟩

/-! ## Brick zones -/

/-- A hit on the top or bottom face of one brick, for any state and any velocity.
Non-terminal state, no life lost; `β` is the moved, wall-resolved ball, which overlaps neither the updated paddle nor any brick listed before
the brick `b`, and `d` is its overlap with `b`, non-empty and wider than high. If the
ball, once moved up by the overlap height, overlaps none of the bricks listed after `b`,
then `Update` removes exactly `b`, adds its `Points` to the score (modulo 256), leaves
the ball moved up by the overlap height and sets the velocity by the overlap centre
`c = d.Min.X + width/2`: `vx = -3` if `c < b.Min.X + Dx/3`, `vx = 3` if
`c > b.Max.X - Dx/3`, in both cases with `vy` unchanged; otherwise `vx` is unchanged and
`vy = -5` if the vertical centre of the overlap is less than `b.Min.Y + Dy/2`, else
`vy = 5`. Unchanged components are clamped to `[-10, 10]`. -/
theorem Update_brick_top (g : Game) (inp : Input) (β : Ball) (P : Paddle) (d : Rectangle)
    (pre post : List Brick) (b : Brick)
    (hβ : β = ballWalls (moveBall g.Ball)) (hP : P = stepPaddle g.Paddle inp)
    (hd : d = β.Rect.Intersect b.Rect)
    (hl : g.Lives ≠ 0) (hy : ¬ (moveBall g.Ball).Rect.Min.Y > GameHeight)
    (hsplit : g.Bricks = pre ++ b :: post)
    (hpad : (β.Rect.Intersect P.Rect).Empty = true)
    (hpre : ∀ x ∈ pre, (β.Rect.Intersect x.Rect).Empty = true)
    (hne : d.Empty = false) (hwh : d.Size.X > d.Size.Y)
    (hpost : ∀ x ∈ post, ((β.Rect.Sub ⟨0, d.Size.Y⟩).Intersect x.Rect).Empty = true) :
    (Update g inp).Bricks = pre ++ post ∧
      (Update g inp).Score = (g.Score + b.Points) % 256 ∧
      (Update g inp).Ball.Rect = β.Rect.Sub ⟨0, d.Size.Y⟩ ∧
      (d.Min.X + d.Size.X.tdiv 2 < b.Rect.Min.X + b.Rect.Dx.tdiv 3 →
        (Update g inp).Ball.Vel = ⟨-3, Clamp β.Vel.Y (-10) 10⟩) ∧
      (d.Min.X + d.Size.X.tdiv 2 > b.Rect.Max.X - b.Rect.Dx.tdiv 3 →
        (Update g inp).Ball.Vel = ⟨3, Clamp β.Vel.Y (-10) 10⟩) ∧
      (¬ d.Min.X + d.Size.X.tdiv 2 < b.Rect.Min.X + b.Rect.Dx.tdiv 3 →
        ¬ d.Min.X + d.Size.X.tdiv 2 > b.Rect.Max.X - b.Rect.Dx.tdiv 3 →
        (d.Min.Y + d.Size.Y.tdiv 2 < b.Rect.Min.Y + b.Rect.Dy.tdiv 2 →
          (Update g inp).Ball.Vel = ⟨Clamp β.Vel.X (-10) 10, -5⟩) ∧
        (¬ d.Min.Y + d.Size.Y.tdiv 2 < b.Rect.Min.Y + b.Rect.Dy.tdiv 2 →
          (Update g inp).Ball.Vel = ⟨Clamp β.Vel.X (-10) 10, 5⟩)) := by
  have hb : g.Bricks ≠ [] := by
    rw [hsplit]
    simp
  have hstart : ballAtBricks g inp = β := by
    rw [ballAtBricks, ← hβ, ← hP]
    exact hitPaddle_miss β P hpad
  have hloop : brickLoop ⟨ballAtBricks g inp, g.Score, []⟩ g.Bricks =
      ⟨hitBrick β b d, (g.Score + b.Points) % 256, pre ++ post⟩ := by
    rw [hstart, hsplit, brickLoop_append, brickLoop_all_miss pre ⟨β, g.Score, []⟩ hpre,
      brickLoop_cons, brickStep_hit _ b (by rw [← hd]; exact hne), ← hd,
      brickLoop_all_miss post _ (by rw [hitBrick_top β b d hwh]; exact hpost)]
    simp
  have hbricks := Update_play_Bricks g inp hl hb hy
  have hscore := Update_play_Score g inp hl hb hy
  have hball := Update_play_Ball g inp hl hb hy
  rw [hloop] at hbricks hscore hball
  rw [hitBrick_top β b d hwh] at hball
  dsimp only at hball
  have hwidth : b.Rect.Min.X < b.Rect.Max.X := by
    rw [hd] at hne
    exact (Intersect_nonempty_width β.Rect b.Rect hne).1
  have hq : b.Rect.Dx.tdiv 3 = b.Rect.Dx / 3 :=
    Int.tdiv_eq_ediv (by simp only [Rectangle.Dx]; omega) (by decide)
  refine ⟨hbricks, hscore, ?_, ?_, ?_, ?_⟩
  · rw [hball]
  · intro h1
    rw [hball, if_pos h1]
    rfl
  · intro h2
    have h1 : ¬ d.Min.X + d.Size.X.tdiv 2 < b.Rect.Min.X + b.Rect.Dx.tdiv 3 := by
      rw [hq] at h2 ⊢
      simp only [Rectangle.Dx] at h2 ⊢
      omega
    rw [hball, if_neg h1, if_pos h2]
    rfl
  · intro h1 h2
    constructor
    · intro h3
      rw [hball, if_neg h1, if_neg h2, if_pos h3]
      rfl
    · intro h3
      rw [hball, if_neg h1, if_neg h2, if_neg h3]
      rfl

/-- C13. In every state that the program reaches from the game of `main`, not terminal:
`β` is the moved, wall-resolved ball, which overlaps exactly one brick, `b`, and `d` is
its overlap with `b`, wider than high. Then `β` does not overlap the paddle, and `Update`
removes exactly `b`, adds its `Points` to the score, leaves the ball moved up by the
overlap height and sets the velocity by the overlap centre `c = d.Min.X + width/2`:
`vx = -3` if `c < b.Min.X + Dx/3`, `vx = 3` if `c > b.Max.X - Dx/3`, in both cases with
`vy` unchanged; otherwise `vx` is unchanged and `vy = -5` if the vertical centre of the
overlap is less than `b.Min.Y + Dy/2`, else `vy = 5`. -/
theorem brick_zone (g : Game) (inp : Input) (β : Ball) (P : Paddle) (d : Rectangle)
    (pre post : List Brick) (b : Brick)
    (hβ : β = ballWalls (moveBall g.Ball)) (hP : P = stepPaddle g.Paddle inp)
    (hd : d = β.Rect.Intersect b.Rect)
    (hr : Reachable g) (hl : g.Lives ≠ 0)
    (hsplit : g.Bricks = pre ++ b :: post)
    (hothers : ∀ x ∈ pre ++ post, (β.Rect.Intersect x.Rect).Empty = true)
    (hne : d.Empty = false) (hwh : d.Size.X > d.Size.Y) :
    (β.Rect.Intersect P.Rect).Empty = true ∧
      (Update g inp).Bricks = pre ++ post ∧
      (Update g inp).Score = g.Score + b.Points ∧
      (Update g inp).Ball.Rect = β.Rect.Sub ⟨0, d.Size.Y⟩ ∧
      (d.Min.X + d.Size.X.tdiv 2 < b.Rect.Min.X + b.Rect.Dx.tdiv 3 →
        (Update g inp).Ball.Vel = ⟨-3, β.Vel.Y⟩) ∧
      (d.Min.X + d.Size.X.tdiv 2 > b.Rect.Max.X - b.Rect.Dx.tdiv 3 →
        (Update g inp).Ball.Vel = ⟨3, β.Vel.Y⟩) ∧
      (¬ d.Min.X + d.Size.X.tdiv 2 < b.Rect.Min.X + b.Rect.Dx.tdiv 3 →
        ¬ d.Min.X + d.Size.X.tdiv 2 > b.Rect.Max.X - b.Rect.Dx.tdiv 3 →
        (d.Min.Y + d.Size.Y.tdiv 2 < b.Rect.Min.Y + b.Rect.Dy.tdiv 2 →
          (Update g inp).Ball.Vel = ⟨β.Vel.X, -5⟩) ∧
        (¬ d.Min.Y + d.Size.Y.tdiv 2 < b.Rect.Min.Y + b.Rect.Dy.tdiv 2 →
          (Update g inp).Ball.Vel = ⟨β.Vel.X, 5⟩)) := by
  have hpf := Reachable_Playfield g hr
  have hrow := hpf.row
  have hbrow : InRow b := hrow b (by rw [hsplit]; simp)
  have hne2 := hne
  rw [hd, hβ] at hne2
  obtain ⟨hy, l2, l3, l4, l5⟩ := brick_overlap_high g inp hpf b hbrow hne2
  rw [← hβ] at l2 l3 l4 l5
  rw [← hP] at l5
  have hsz := hne
  rw [hd] at hsz
  obtain ⟨_, _, s3, s4, _⟩ := overlap_size β.Rect b.Rect l2 hsz
  rw [← hd] at s3 s4
  obtain ⟨b1, b2⟩ := l2
  have hpre : ∀ x ∈ pre, (β.Rect.Intersect x.Rect).Empty = true :=
    fun x hx => hothers x (List.mem_append_left post hx)
  have hpost : ∀ x ∈ post,
      ((β.Rect.Sub ⟨0, d.Size.Y⟩).Intersect x.Rect).Empty = true := by
    intro x hx
    have hxrow : InRow x := hrow x (by rw [hsplit]; simp [hx])
    obtain ⟨r1, r2, r3, _, _⟩ := hxrow
    have hmiss := hothers x (List.mem_append_right pre hx)
    rw [Intersect_empty_iff β.Rect x.Rect ⟨by omega, by omega⟩ ⟨by omega, by omega⟩] at hmiss
    rw [Intersect_empty_iff _ x.Rect
      ⟨by simp only [Rectangle.Sub]; omega, by simp only [Rectangle.Sub]; omega⟩
      ⟨by omega, by omega⟩]
    simp only [Rectangle.Sub]
    omega
  obtain ⟨h1, h2, h3, h4, h5, h6⟩ :=
    Update_brick_top g inp β P d pre post b hβ hP hd hl hy hsplit l5 hpre hne hwh hpost
  obtain ⟨m1, _, _, m4⟩ := moveBall_shape g.Ball hpf.ball
  obtain ⟨_, _, _, _, w5, w6⟩ := ballWalls_shape (moveBall g.Ball) m1
  rw [m4, ← hβ] at w5 w6
  have vx := hpf.velX
  have vy := hpf.velY
  have hvx : Clamp β.Vel.X (-10) 10 = β.Vel.X := by
    apply Clamp_id
    · rcases w6 with e | e <;> omega
    · rcases w6 with e | e <;> omega
  have hvy : Clamp β.Vel.Y (-10) 10 = β.Vel.Y := by
    apply Clamp_id
    · split_ifs at w5 <;> omega
    · split_ifs at w5 <;> omega
  have h36 := hpf.score
  rw [hsplit, sumPoints_split] at h36
  rw [hvy] at h4 h5
  rw [hvx] at h6
  refine ⟨l5, h1, ?_, h3, h4, h5, h6⟩
  rw [h2, Nat.mod_eq_of_lt (by omega)]

/-- C13 on `brickTopRun`: the ball is moved to (97,97)-(102,102) and overlaps the top of
the second brick of the row, worth 1 point, by 5 by 2, in its centre third; the brick
goes, the score goes from 0 to 1, and the ball leaves upwards with velocity (4, -5). -/
theorem brick_zone_witness :
    (Reachable brickTopRun ∧
        brickTopRun.Ball = ⟨⟨⟨93, 93⟩, ⟨98, 98⟩⟩, ⟨4, 4⟩⟩ ∧
        (ballWalls (moveBall brickTopRun.Ball)).Rect = ⟨⟨97, 97⟩, ⟨102, 102⟩⟩ ∧
        (Update brickTopRun idle).Ball = ⟨⟨⟨97, 95⟩, ⟨102, 100⟩⟩, ⟨4, -5⟩⟩) ∧
      (Update brickTopRun idle).Bricks =
        brickTopRun.Bricks.take 1 ++ brickTopRun.Bricks.drop 2 ∧
      (Update brickTopRun idle).Score = brickTopRun.Score + 1 ∧
      (Update brickTopRun idle).Ball.Vel =
        ⟨(ballWalls (moveBall brickTopRun.Ball)).Vel.X, -5⟩ :=
  ⟨⟨brickTopRun_reachable, by decide⟩,
    (brick_zone brickTopRun idle _ _ _ (brickTopRun.Bricks.take 1)
      (brickTopRun.Bricks.drop 2) ⟨⟨⟨75, 100⟩, ⟨125, 125⟩⟩, 1⟩ rfl rfl rfl
      brickTopRun_reachable (by decide) (by decide) (by decide) (by decide)
      (by decide)).2.1,
    (brick_zone brickTopRun idle _ _ _ (brickTopRun.Bricks.take 1)
      (brickTopRun.Bricks.drop 2) ⟨⟨⟨75, 100⟩, ⟨125, 125⟩⟩, 1⟩ rfl rfl rfl
      brickTopRun_reachable (by decide) (by decide) (by decide) (by decide)
      (by decide)).2.2.1,
    ((brick_zone brickTopRun idle _ _ _ (brickTopRun.Bricks.take 1)
      (brickTopRun.Bricks.drop 2) ⟨⟨⟨75, 100⟩, ⟨125, 125⟩⟩, 1⟩ rfl rfl rfl
      brickTopRun_reachable (by decide) (by decide) (by decide) (by decide)
      (by decide)).2.2.2.2.2.2 (by decide) (by decide)).1 (by decide)⟩

/-! ## Life loss -/

/-- C6, as the code has it. `Update` moves the ball by its velocity before it tests
`Min.Y > GameHeight`, so the test is on `Min.Y + Vel.Y`. For every non-terminal state
with `Lives` and `Min.Y + Vel.Y` in the 64-bit range, `Lives` above the smallest `int`
(then the 64-bit sum and the 64-bit `Lives - 1` are the exact ones): if
`Min.Y + Vel.Y > 500` (a ball with its top edge at 501 and `Vel.Y >= 0`; in play, a ball
at 497 falling at 4), one `Update` lowers `Lives` by exactly 1, puts a fresh ball at the
start rectangle (25,25)-(30,30) with both velocity components in `[1, 5]`, and leaves
score and bricks unchanged; if `Min.Y + Vel.Y <= 500` (a ball at 501 with `Vel.Y < 0`) no
life is lost. In a state reached from the game of `main` the top edge of the ball is
never beyond `y = 500` when a frame starts. -/
theorem life_loss (g : Game) (inp : Input) (hl : g.Lives ≠ 0) (hb : g.Bricks ≠ [])
    (hlives : MinInt64 < g.Lives ∧ g.Lives ≤ MaxInt64)
    (hsum : MinInt64 ≤ g.Ball.Rect.Min.Y + g.Ball.Vel.Y ∧
      g.Ball.Rect.Min.Y + g.Ball.Vel.Y ≤ MaxInt64) :
    (wrap64 (g.Ball.Rect.Min.Y + g.Ball.Vel.Y) = g.Ball.Rect.Min.Y + g.Ball.Vel.Y ∧
        wrap64 (g.Lives - 1) = g.Lives - 1) ∧
      (500 < g.Ball.Rect.Min.Y + g.Ball.Vel.Y →
        (Update g inp).Lives = g.Lives - 1 ∧
          (Update g inp).Ball.Rect = ⟨⟨25, 25⟩, ⟨30, 30⟩⟩ ∧
          ((1 ≤ (Update g inp).Ball.Vel.X ∧ (Update g inp).Ball.Vel.X ≤ 5) ∧
            (1 ≤ (Update g inp).Ball.Vel.Y ∧ (Update g inp).Ball.Vel.Y ≤ 5)) ∧
          (Update g inp).Score = g.Score ∧ (Update g inp).Bricks = g.Bricks) ∧
      (g.Ball.Rect.Min.Y + g.Ball.Vel.Y ≤ 500 → (Update g inp).Lives = g.Lives) ∧
      (Reachable g → g.Ball.Rect.Min.Y ≤ 500) := by
  refine ⟨⟨wrap64_id _ hsum.1 hsum.2, wrap64_id _ ?_ ?_⟩, ?_, ?_, ?_⟩
  · have := hlives.1
    simp only [MinInt64] at this ⊢
    omega
  · have := hlives.2
    simp only [MaxInt64] at this ⊢
    omega
  · intro hv
    have hlost : (moveBall g.Ball).Rect.Min.Y > GameHeight := by
      simp only [moveBall, Rectangle.Add, GameHeight]
      omega
    rw [Update_lost g inp hl hb hlost]
    have hnb := NewBall_vel inp.randX inp.randY
    exact ⟨rfl, rfl, ⟨⟨hnb.1, hnb.2.1⟩, ⟨hnb.2.2.1, hnb.2.2.2⟩⟩, rfl, rfl⟩
  · intro hv
    have hplay : ¬ (moveBall g.Ball).Rect.Min.Y > GameHeight := by
      simp only [moveBall, Rectangle.Add, GameHeight]
      omega
    rw [Update_play g inp hl hb hplay]
  · intro hr
    exact (Reachable_Playfield g hr).ballTop

/-- C6 on `bottomRun`, a state of play: the top edge of the ball is at 497 and its
velocity is (-5, 4), so the moved ball has its top edge at 501; the frame costs a life,
lives go from 5 to 4, and the new ball starts at (25,25)-(30,30) with velocity (3, 3). -/
theorem life_loss_witness :
    (Reachable bottomRun ∧ bottomRun.Lives = 5 ∧
        bottomRun.Ball = ⟨⟨⟨330, 497⟩, ⟨335, 502⟩⟩, ⟨-5, 4⟩⟩ ∧
        (moveBall bottomRun.Ball).Rect.Min.Y = 501 ∧
        (Update bottomRun idle).Ball = ⟨⟨⟨25, 25⟩, ⟨30, 30⟩⟩, ⟨3, 3⟩⟩) ∧
      (Update bottomRun idle).Lives = bottomRun.Lives - 1 ∧
      (Update bottomRun idle).Ball.Rect = ⟨⟨25, 25⟩, ⟨30, 30⟩⟩ ∧
      ((1 ≤ (Update bottomRun idle).Ball.Vel.X ∧ (Update bottomRun idle).Ball.Vel.X ≤ 5) ∧
        (1 ≤ (Update bottomRun idle).Ball.Vel.Y ∧
          (Update bottomRun idle).Ball.Vel.Y ≤ 5)) ∧
      (Update bottomRun idle).Score = bottomRun.Score ∧
      (Update bottomRun idle).Bricks = bottomRun.Bricks :=
  ⟨⟨bottomRun_reachable, by decide⟩,
    (life_loss bottomRun idle (by decide) (by decide) (by decide) (by decide)).2.1
      (by decide)⟩

/-- C6, as stated, fails: a ball with its top edge at `y = 501` and velocity (3, -5) is
moved to `y = 496`, so `Update` takes no life and does not reset the ball. -/
theorem life_loss_counterexample :
    (risingGame.Lives = 5 ∧ risingGame.Ball = ⟨⟨⟨300, 501⟩, ⟨305, 506⟩⟩, ⟨3, -5⟩⟩ ∧
        (Update risingGame idle).Lives = 5 ∧
        (Update risingGame idle).Ball = ⟨⟨⟨303, 496⟩, ⟨308, 501⟩⟩, ⟨3, -5⟩⟩) ∧
      ¬ ∀ (g : Game) (inp : Input), g.Lives ≠ 0 → g.Bricks ≠ [] →
        g.Ball.Rect.Min.Y = 501 →
        (Update g inp).Lives = g.Lives - 1 ∧
          (Update g inp).Ball.Rect = ⟨⟨25, 25⟩, ⟨30, 30⟩⟩ ∧
          ((1 ≤ (Update g inp).Ball.Vel.X ∧ (Update g inp).Ball.Vel.X ≤ 5) ∧
            (1 ≤ (Update g inp).Ball.Vel.Y ∧ (Update g inp).Ball.Vel.Y ≤ 5)) ∧
          (Update g inp).Score = g.Score ∧ (Update g inp).Bricks = g.Bricks := by
  refine ⟨by decide, ?_⟩
  intro h
  have h1 := (h risingGame idle (by decide) (by decide) (by decide)).1
  revert h1
  decide

/-! ## Pointer drag -/

/-- C17, as the code has it on a 64-bit platform, where the arithmetic on `int` wraps.
Non-terminal state with a paddle `PaddleWidth` wide and the pointer button held, whatever
the keys; paddle coordinates and cursor `x` are 64-bit values. For a cursor `x` in
`[75, 425]`, after the paddle update the centre of the paddle, `Min.X + Dx/2`, is the
cursor `x`, the paddle rectangle is the old one translated once by
`delta = cursor x - old centre`, and the paddle velocity is `delta`, not clamped; `delta`
is computed modulo `2^64`, and it is the exact difference whenever that fits in an
`int`. For a cursor `x` above 425 the paddle ends against the right wall with velocity
0. For a cursor `x` below 75 it ends against the left wall with velocity 0 if
`cursor x >= MinInt64 + 425`; below that `Max.X - RightWall` overflows and the paddle
ends against the right wall, with velocity 0. Where nothing overflows, `Update` in exact
arithmetic computes the same paddle. -/
theorem pointer_drag (g : Game) (inp : Input) (hl : g.Lives ≠ 0) (hb : g.Bricks ≠ [])
    (hw : g.Paddle.Rect.Dx = PaddleWidth)
    (hx : MinInt64 ≤ g.Paddle.Rect.Min.X ∧ g.Paddle.Rect.Max.X ≤ MaxInt64)
    (hy0 : MinInt64 ≤ g.Paddle.Rect.Min.Y ∧ g.Paddle.Rect.Min.Y ≤ MaxInt64)
    (hy1 : MinInt64 ≤ g.Paddle.Rect.Max.Y ∧ g.Paddle.Rect.Max.Y ≤ MaxInt64)
    (hm : inp.mousePressed = true)
    (hc : MinInt64 ≤ inp.cursorX ∧ inp.cursorX ≤ MaxInt64) :
    (75 ≤ inp.cursorX → inp.cursorX ≤ 425 →
        (stepPaddle64 g.Paddle inp).Rect.Min.X +
            (stepPaddle64 g.Paddle inp).Rect.Dx64.tdiv 2 = inp.cursorX ∧
          (stepPaddle64 g.Paddle inp).Rect =
            g.Paddle.Rect.Add64
              ⟨wrap64 (inp.cursorX - (g.Paddle.Rect.Min.X + g.Paddle.Rect.Dx.tdiv 2)), 0⟩ ∧
          (stepPaddle64 g.Paddle inp).Vel =
            wrap64 (inp.cursorX - (g.Paddle.Rect.Min.X + g.Paddle.Rect.Dx.tdiv 2)) ∧
          (MinInt64 ≤ inp.cursorX - (g.Paddle.Rect.Min.X + g.Paddle.Rect.Dx.tdiv 2) →
            inp.cursorX - (g.Paddle.Rect.Min.X + g.Paddle.Rect.Dx.tdiv 2) ≤ MaxInt64 →
            (stepPaddle64 g.Paddle inp).Rect =
                g.Paddle.Rect.Add
                  ⟨inp.cursorX - (g.Paddle.Rect.Min.X + g.Paddle.Rect.Dx.tdiv 2), 0⟩ ∧
              (stepPaddle64 g.Paddle inp).Vel =
                inp.cursorX - (g.Paddle.Rect.Min.X + g.Paddle.Rect.Dx.tdiv 2))) ∧
      (inp.cursorX > 425 →
        (stepPaddle64 g.Paddle inp).Rect.Max.X = RightWall ∧
          (stepPaddle64 g.Paddle inp).Vel = 0) ∧
      (MinInt64 + 425 ≤ inp.cursorX → inp.cursorX < 75 →
        (stepPaddle64 g.Paddle inp).Rect.Min.X = LeftWall ∧
          (stepPaddle64 g.Paddle inp).Vel = 0) ∧
      (inp.cursorX < MinInt64 + 425 →
        (stepPaddle64 g.Paddle inp).Rect.Max.X = RightWall ∧
          (stepPaddle64 g.Paddle inp).Vel = 0) ∧
      (MinInt64 + 425 ≤ inp.cursorX →
        MinInt64 ≤ inp.cursorX - (g.Paddle.Rect.Min.X + g.Paddle.Rect.Dx.tdiv 2) →
        inp.cursorX - (g.Paddle.Rect.Min.X + g.Paddle.Rect.Dx.tdiv 2) ≤ MaxInt64 →
        (Update g inp).Paddle = stepPaddle64 g.Paddle inp) := by
  have hw2 : g.Paddle.Rect.Max.X - g.Paddle.Rect.Min.X = 100 := by
    simp only [Rectangle.Dx, PaddleWidth, WallSize] at hw
    omega
  have hhalf : g.Paddle.Rect.Dx.tdiv 2 = 50 := by
    rw [hw]
    decide
  have h64 := stepPaddle64_drag g.Paddle inp hw2 hx.1 hx.2 hy0 hy1 hm hc
  have hex := stepPaddle_drag g.Paddle inp hw2 hm
  have h50 : (100 : Int).tdiv 2 = 50 := by decide
  obtain ⟨c1, c2⟩ := hc
  obtain ⟨x1, x2⟩ := hx
  rw [hhalf]
  simp only [MinInt64, MaxInt64] at c1 c2 x1 x2 h64 ⊢
  refine ⟨?_, ?_, ?_, ?_, ?_⟩
  · intro k1 k2
    rw [h64, if_neg (by omega), if_neg (by omega), if_pos k2]
    have hY0 : wrap64 (g.Paddle.Rect.Min.Y + 0) = g.Paddle.Rect.Min.Y :=
      by rw [Int.add_zero]; exact wrap64_id _ hy0.1 hy0.2
    have hY1 : wrap64 (g.Paddle.Rect.Max.Y + 0) = g.Paddle.Rect.Max.Y :=
      by rw [Int.add_zero]; exact wrap64_id _ hy1.1 hy1.2
    have e1 : wrap64 (g.Paddle.Rect.Min.X + wrap64 (inp.cursorX - (g.Paddle.Rect.Min.X + 50)))
        = inp.cursorX - 50 := by
      unfold wrap64
      omega
    have e2 : wrap64 (g.Paddle.Rect.Max.X + wrap64 (inp.cursorX - (g.Paddle.Rect.Min.X + 50)))
        = inp.cursorX + 50 := by
      unfold wrap64
      omega
    have e3 : wrap64 (inp.cursorX + 50 - (inp.cursorX - 50)) = 100 := by
      unfold wrap64
      omega
    refine ⟨?_, ?_, rfl, ?_⟩
    · simp only [Rectangle.Dx64, e3, h50]
      omega
    · simp only [Rectangle.Add64, hY0, hY1, e1, e2]
    · intro d1 d2
      have e4 : wrap64 (inp.cursorX - (g.Paddle.Rect.Min.X + 50)) =
          inp.cursorX - (g.Paddle.Rect.Min.X + 50) := by
        unfold wrap64
        omega
      refine ⟨?_, e4⟩
      simp only [Rectangle.Add, Rectangle.mk.injEq, Point.mk.injEq]
      refine ⟨⟨?_, ?_⟩, ?_, ?_⟩ <;> omega
  · intro k1
    rw [h64, if_neg (by omega), if_neg (by omega), if_neg (by omega)]
    exact ⟨rfl, rfl⟩
  · intro k1 k2
    rw [h64, if_neg (by omega), if_pos k2]
    exact ⟨rfl, rfl⟩
  · intro k1
    rw [h64, if_pos k1]
    exact ⟨rfl, rfl⟩
  · intro k1 d1 d2
    have k0 : ¬ inp.cursorX < -9223372036854775808 + 425 := by omega
    have e4 : wrap64 (inp.cursorX - (g.Paddle.Rect.Min.X + 50)) =
        inp.cursorX - (g.Paddle.Rect.Min.X + 50) := by
      unfold wrap64
      omega
    rw [Update_Paddle g inp hl hb, hex, h64, if_neg k0, e4]

/-- C17 on the game of `main`, paddle at rest at (25..125), with the cursor at 263: the
paddle moves by 188, to (213..313), and its velocity is 188, in 64-bit arithmetic and in
`Update`. -/
theorem pointer_drag_witness :
    (stepPaddle64 (mainGame 0 0).Paddle drag263 = ⟨⟨⟨213, 488⟩, ⟨313, 500⟩⟩, 188⟩ ∧
        (Update (mainGame 0 0) drag263).Paddle = ⟨⟨⟨213, 488⟩, ⟨313, 500⟩⟩, 188⟩) ∧
      (stepPaddle64 (mainGame 0 0).Paddle drag263).Rect.Min.X +
          (stepPaddle64 (mainGame 0 0).Paddle drag263).Rect.Dx64.tdiv 2 =
        drag263.cursorX ∧
      (stepPaddle64 (mainGame 0 0).Paddle drag263).Vel =
        wrap64 (drag263.cursorX -
          ((mainGame 0 0).Paddle.Rect.Min.X + (mainGame 0 0).Paddle.Rect.Dx.tdiv 2)) ∧
      (Update (mainGame 0 0) drag263).Paddle = stepPaddle64 (mainGame 0 0).Paddle drag263 :=
  ⟨by decide,
    ((pointer_drag (mainGame 0 0) drag263 (by decide) (by decide) (by decide) (by decide)
      (by decide) (by decide) (by decide) (by decide)).1 (by decide) (by decide)).1,
    ((pointer_drag (mainGame 0 0) drag263 (by decide) (by decide) (by decide) (by decide)
      (by decide) (by decide) (by decide) (by decide)).1 (by decide) (by decide)).2.2.1,
    (pointer_drag (mainGame 0 0) drag263 (by decide) (by decide) (by decide) (by decide)
      (by decide) (by decide) (by decide) (by decide)).2.2.2.2 (by decide) (by decide)
      (by decide)⟩

/-- C17, as stated, fails for a cursor far to the left. On the game of `main` with the
cursor at the smallest `int`: `diff` wraps to `2^63 - 75`, the translated paddle has
`Min.X = 2^63 - 50` and `Max.X = -2^63 + 50`, the right-wall check computes
`Max.X - RightWall`, which wraps to `2^63 - 425 > 0`, and moves the paddle to
(375..475): it ends flush against the right wall, the farther one, not the left. -/
theorem pointer_drag_counterexample :
    (dragMin.mousePressed = true ∧ dragMin.cursorX = -9223372036854775808 ∧
        (mainGame 0 0).Paddle = ⟨⟨⟨25, 488⟩, ⟨125, 500⟩⟩, 0⟩ ∧
        movePaddle64 (mainGame 0 0).Paddle dragMin =
          ⟨⟨⟨9223372036854775758, 488⟩, ⟨-9223372036854775758, 500⟩⟩,
            9223372036854775733⟩ ∧
        wrap64 ((movePaddle64 (mainGame 0 0).Paddle dragMin).Rect.Max.X - RightWall) =
          9223372036854775383 ∧
        stepPaddle64 (mainGame 0 0).Paddle dragMin = ⟨⟨⟨375, 488⟩, ⟨475, 500⟩⟩, 0⟩) ∧
      ¬ ∀ (g : Game) (inp : Input), g.Lives ≠ 0 → g.Bricks ≠ [] →
        g.Paddle.Rect.Dx = PaddleWidth → inp.mousePressed = true → inp.cursorX < 75 →
        (stepPaddle64 g.Paddle inp).Rect.Min.X = LeftWall ∧
          (stepPaddle64 g.Paddle inp).Vel = 0 := by
  refine ⟨by decide, ?_⟩
  intro h
  have h1 := (h (mainGame 0 0) dragMin (by decide) (by decide) (by decide) (by decide)
    (by decide)).1
  revert h1
  decide

/-! ## Ball and obstacles -/

/-- The brick loop over bricks of the row in which no brick is hit on a side: the ball
keeps its horizontal position, and every surviving brick stays clear of the ball, being
beside it or wholly below or above it. -/
theorem brickLoop_vertical (bs : List Brick) (st : LoopState) (hrow : ∀ b ∈ bs, InRow b)
    (hb : IsBall st.ball.Rect)
    (hside : ∀ (pre : List Brick) (b : Brick) (post : List Brick), bs = pre ++ b :: post →
      ((brickLoop st pre).ball.Rect.Intersect b.Rect).Empty = false →
      ((brickLoop st pre).ball.Rect.Intersect b.Rect).Size.X >
        ((brickLoop st pre).ball.Rect.Intersect b.Rect).Size.Y)
    (hsafe : ∀ k ∈ st.remaining, InRow k ∧
      (st.ball.Rect.Max.X ≤ k.Rect.Min.X ∨ k.Rect.Max.X ≤ st.ball.Rect.Min.X ∨
        st.ball.Rect.Max.Y ≤ 100 ∨ 125 ≤ st.ball.Rect.Min.Y)) :
    (brickLoop st bs).ball.Rect.Min.X = st.ball.Rect.Min.X ∧
      (brickLoop st bs).ball.Rect.Max.X = st.ball.Rect.Max.X ∧
      ∀ k ∈ (brickLoop st bs).remaining, InRow k ∧
        ((brickLoop st bs).ball.Rect.Max.X ≤ k.Rect.Min.X ∨
          k.Rect.Max.X ≤ (brickLoop st bs).ball.Rect.Min.X ∨
          (brickLoop st bs).ball.Rect.Max.Y ≤ 100 ∨
          125 ≤ (brickLoop st bs).ball.Rect.Min.Y) := by
  induction bs generalizing st with
  | nil => exact ⟨rfl, rfl, hsafe⟩
  | cons b bs ih =>
      rw [brickLoop_cons]
      have hbrow := hrow b (List.mem_cons_self b bs)
      have hrow2 : ∀ x ∈ bs, InRow x := fun x hx => hrow x (List.mem_cons_of_mem b hx)
      have hside2 : ∀ (pre : List Brick) (c : Brick) (post : List Brick),
          bs = pre ++ c :: post →
          ((brickLoop (brickStep st b) pre).ball.Rect.Intersect c.Rect).Empty = false →
          ((brickLoop (brickStep st b) pre).ball.Rect.Intersect c.Rect).Size.X >
            ((brickLoop (brickStep st b) pre).ball.Rect.Intersect c.Rect).Size.Y := by
        intro pre c post e
        exact hside (b :: pre) c post (by rw [e]; rfl)
      obtain ⟨s1, _, _⟩ := brickStep_shape st b hbrow hb
      obtain ⟨b1, b2⟩ := hb
      obtain ⟨r1, r2, r3, r4, r5⟩ := hbrow
      cases h : (st.ball.Rect.Intersect b.Rect).Empty
      · have hwh := hside [] b bs rfl h
        rw [brickLoop_nil] at hwh
        obtain ⟨o1, o2, o3, o4, _, _, o7, o8⟩ := overlap_size st.ball.Rect b.Rect ⟨b1, b2⟩ h
        have e := brickStep_hit st b h
        have eR : (brickStep st b).ball.Rect =
            st.ball.Rect.Sub ⟨0, (st.ball.Rect.Intersect b.Rect).Size.Y⟩ := by
          rw [e, hitBrick_top st.ball b _ hwh]
        have eRem : (brickStep st b).remaining = st.remaining := by
          rw [e]
        have hsafe2 : ∀ k ∈ (brickStep st b).remaining, InRow k ∧
            ((brickStep st b).ball.Rect.Max.X ≤ k.Rect.Min.X ∨
              k.Rect.Max.X ≤ (brickStep st b).ball.Rect.Min.X ∨
              (brickStep st b).ball.Rect.Max.Y ≤ 100 ∨
              125 ≤ (brickStep st b).ball.Rect.Min.Y) := by
          intro k hk
          rw [eRem] at hk
          obtain ⟨k1, k2⟩ := hsafe k hk
          refine ⟨k1, ?_⟩
          rw [eR]
          simp only [Rectangle.Sub]
          omega
        obtain ⟨i1, i2, i3⟩ := ih (brickStep st b) hrow2 s1 hside2 hsafe2
        refine ⟨?_, ?_, i3⟩
        · rw [i1, eR]
          simp only [Rectangle.Sub]
          omega
        · rw [i2, eR]
          simp only [Rectangle.Sub]
          omega
      · have e := brickStep_miss st b h
        have eB : (brickStep st b).ball = st.ball := by
          rw [e]
        have hsafe2 : ∀ k ∈ (brickStep st b).remaining, InRow k ∧
            ((brickStep st b).ball.Rect.Max.X ≤ k.Rect.Min.X ∨
              k.Rect.Max.X ≤ (brickStep st b).ball.Rect.Min.X ∨
              (brickStep st b).ball.Rect.Max.Y ≤ 100 ∨
              125 ≤ (brickStep st b).ball.Rect.Min.Y) := by
          intro k hk
          rw [eB]
          rw [e] at hk
          rcases List.mem_append.mp hk with hk | hk
          · exact hsafe k hk
          · have ek : k = b := by simpa using hk
            rw [ek]
            refine ⟨⟨r1, r2, r3, r4, r5⟩, ?_⟩
            rw [Intersect_empty_iff st.ball.Rect b.Rect ⟨by omega, by omega⟩
              ⟨by omega, by omega⟩] at h
            omega
        obtain ⟨i1, i2, i3⟩ := ih (brickStep st b) hrow2 s1 hside2 hsafe2
        rw [eB] at i1 i2
        exact ⟨i1, i2, i3⟩

/-- C11, as the code has it. In every state that the program reaches from the game of
`main`, not terminal, for every input, in a frame that takes no life; `β` is the moved,
wall-resolved ball, `P` the updated paddle and `d` their overlap. After `Update`:
the ball is not above the top wall (`Min.Y >= 25`); it has an empty intersection with the
paddle exactly when `β` did not overlap the paddle, or the paddle was at rest and hit on
top by a ball reaching across its top edge, or the paddle was hit on a side by a ball
reaching across its left or right end (a hit on top of a moving paddle, or by a ball
wholly inside the paddle, leaves the ball inside it); and if no brick is hit on a side in
the frame (every brick that the loop finds overlapped is overlapped wider than high), the
ball has an empty intersection with every brick that remains, and, if the paddle is not
hit on a side either, it lies between the side walls (`Min.X >= 25`, `Max.X <= 475`). -/
theorem no_embedding (g : Game) (inp : Input) (β : Ball) (P : Paddle) (d : Rectangle)
    (hβ : β = ballWalls (moveBall g.Ball)) (hP : P = stepPaddle g.Paddle inp)
    (hd : d = β.Rect.Intersect P.Rect)
    (hr : Reachable g) (hl : g.Lives ≠ 0) (hb : g.Bricks ≠ [])
    (hy : ¬ (moveBall g.Ball).Rect.Min.Y > GameHeight) :
    25 ≤ (Update g inp).Ball.Rect.Min.Y ∧
      (((Update g inp).Ball.Rect.Intersect (Update g inp).Paddle.Rect).Empty = true ↔
        (d.Empty = true ∨
          (d.Size.X > d.Size.Y ∧ P.Vel = 0 ∧ β.Rect.Min.Y ≤ P.Rect.Min.Y) ∨
          (d.Size.Y ≥ d.Size.X ∧
            (β.Rect.Min.X ≤ P.Rect.Min.X ∨ P.Rect.Max.X ≤ β.Rect.Max.X)))) ∧
      ((∀ (pre : List Brick) (b : Brick) (post : List Brick), g.Bricks = pre ++ b :: post →
          ((brickLoop ⟨ballAtBricks g inp, g.Score, []⟩ pre).ball.Rect.Intersect
            b.Rect).Empty = false →
          ((brickLoop ⟨ballAtBricks g inp, g.Score, []⟩ pre).ball.Rect.Intersect
              b.Rect).Size.X >
            ((brickLoop ⟨ballAtBricks g inp, g.Score, []⟩ pre).ball.Rect.Intersect
              b.Rect).Size.Y) →
        (∀ x ∈ (Update g inp).Bricks,
            ((Update g inp).Ball.Rect.Intersect x.Rect).Empty = true) ∧
          (d.Empty = true ∨ d.Size.X > d.Size.Y →
            25 ≤ (Update g inp).Ball.Rect.Min.X ∧ (Update g inp).Ball.Rect.Max.X ≤ 475)) := by
  have hpf := Reachable_Playfield g hr
  have hrow := hpf.row
  obtain ⟨m1, _, _, _⟩ := moveBall_shape g.Ball hpf.ball
  obtain ⟨w1, w2, w3, w4, _, _⟩ := ballWalls_shape (moveBall g.Ball) m1
  obtain ⟨⟨py0, py1⟩, px0, px1, px2⟩ := stepPaddle_shape g.Paddle inp hpf.padY hpf.padX.1
  rw [← hβ] at w1 w2 w3 w4
  rw [← hP] at py0 py1 px0 px1 px2
  have hβy : 25 ≤ β.Rect.Min.Y := by
    split_ifs at w4 <;> omega
  have hB : ballAtBricks g inp = hitPaddle β P := by
    rw [ballAtBricks, ← hβ, ← hP]
  obtain ⟨q1, q2, q3⟩ := hitPaddle_shape β P w1
  rw [← hB] at q1 q2 q3
  obtain ⟨l1, l2, l3⟩ := brickLoop_shape g.Bricks ⟨ballAtBricks g inp, g.Score, []⟩ hrow q1
  have eBall := Update_play_Ball g inp hl hb hy
  have eRect : (Update g inp).Ball.Rect =
      (brickLoop ⟨ballAtBricks g inp, g.Score, []⟩ g.Bricks).ball.Rect := by
    rw [eBall]
  have ePad : (Update g inp).Paddle = P := by
    rw [Update_Paddle g inp hl hb, hP]
  have eBricks := Update_play_Bricks g inp hl hb hy
  dsimp only at l2 l3
  obtain ⟨bw, bh⟩ := w1
  -- a ball that overlaps the paddle is out of reach of the bricks
  have hfar : d.Empty = false →
      (brickLoop ⟨ballAtBricks g inp, g.Score, []⟩ g.Bricks).ball.Rect =
        (ballAtBricks g inp).Rect ∧ 483 < β.Rect.Min.Y := by
    intro hne
    rw [hd] at hne
    obtain ⟨_, _, _, _, _, _, o7, o8⟩ := overlap_size β.Rect P.Rect ⟨bw, bh⟩ hne
    have hlow : 483 < β.Rect.Min.Y := by omega
    refine ⟨?_, hlow⟩
    rw [brickLoop_all_miss g.Bricks ⟨ballAtBricks g inp, g.Score, []⟩]
    intro x hx
    apply Intersect_below
    have := (hrow x hx).2.1
    dsimp only
    omega
  refine ⟨?_, ?_, ?_⟩
  · -- top wall
    rw [eRect]
    rcases l3 with l3 | l3
    · rw [l3]
      cases hne : d.Empty
      · have := (hfar hne).2
        omega
      · have e : hitPaddle β P = β := by
          rw [hd] at hne
          exact hitPaddle_miss β P hne
        rw [hB, e]
        exact hβy
    · omega
  · -- paddle
    rw [eRect, ePad]
    cases hne : d.Empty
    · obtain ⟨hsame, hlow⟩ := hfar hne
      rw [hsame, hB]
      have hne2 := hne
      rw [hd] at hne2
      obtain ⟨o1, o2, o3, o4, o5, o6, o7, o8⟩ := overlap_size β.Rect P.Rect ⟨bw, bh⟩ hne2
      obtain ⟨e1, e2, e3, e4, _, _⟩ := Intersect_edges β.Rect P.Rect hne2
      simp only [Rectangle.Size] at o1 o2 o3 o4
      rw [hd]
      simp only [Bool.false_eq_true, false_or, Rectangle.Size]
      by_cases hwh : (β.Rect.Intersect P.Rect).Size.X > (β.Rect.Intersect P.Rect).Size.Y
      · by_cases hv : P.Vel = 0
        · rw [hitPaddle_top_rest β P hne2 hwh hv]
          dsimp only
          simp only [Rectangle.Size] at hwh
          rw [Intersect_empty_iff _ P.Rect
            ⟨by simp only [Rectangle.Sub]; omega, by simp only [Rectangle.Sub]; omega⟩
            ⟨by omega, by omega⟩]
          simp only [Rectangle.Sub, Rectangle.Size]
          split_ifs at e1 e2 e3 e4
          all_goals omega
        · rw [hitPaddle_top_moving β P hne2 hwh hv]
          dsimp only
          simp only [Rectangle.Size] at hwh
          rw [Intersect_empty_iff β.Rect P.Rect ⟨by omega, by omega⟩ ⟨by omega, by omega⟩]
          constructor
          · intro h
            omega
          · intro h
            rcases h with ⟨_, h, _⟩ | ⟨h, _⟩
            · exact absurd h hv
            · omega
      · have hhw : (β.Rect.Intersect P.Rect).Size.Y ≥ (β.Rect.Intersect P.Rect).Size.X := by
          omega
        rw [hitPaddle_side β P hne2 hhw]
        simp only [Rectangle.Size] at hwh hhw
        by_cases hleft : (β.Rect.Intersect P.Rect).Min.X = P.Rect.Min.X
        · rw [if_pos hleft]
          dsimp only
          rw [Intersect_empty_iff _ P.Rect
            ⟨by simp only [Rectangle.Sub]; omega, by simp only [Rectangle.Sub]; omega⟩
            ⟨by omega, by omega⟩]
          simp only [Rectangle.Sub, Rectangle.Size]
          split_ifs at e1 e2 e3 e4
          all_goals omega
        · rw [if_neg hleft]
          dsimp only
          rw [Intersect_empty_iff _ P.Rect
            ⟨by simp only [Rectangle.Add]; omega, by simp only [Rectangle.Add]; omega⟩
            ⟨by omega, by omega⟩]
          simp only [Rectangle.Add, Rectangle.Size]
          split_ifs at e1 e2 e3 e4
          all_goals omega
    · simp only [true_or, iff_true]
      have e : hitPaddle β P = β := by
        rw [hd] at hne
        exact hitPaddle_miss β P hne
      rcases l3 with l3 | l3
      · rw [l3, hB, e, ← hd]
        exact hne
      · apply Intersect_above
        have := l1.2
        omega
  · -- bricks and side walls
    intro hside
    obtain ⟨v1, v2, v3⟩ := brickLoop_vertical g.Bricks ⟨ballAtBricks g inp, g.Score, []⟩
      hrow q1 hside (by intro k hk; exact absurd hk (List.not_mem_nil k))
    dsimp only at v1 v2
    refine ⟨?_, ?_⟩
    · intro x hx
      rw [eBricks] at hx
      rw [eRect]
      obtain ⟨⟨r1, r2, r3, _, _⟩, hs⟩ := v3 x hx
      obtain ⟨c1, c2⟩ := l1
      rw [Intersect_empty_iff _ x.Rect ⟨by omega, by omega⟩ ⟨by omega, by omega⟩]
      omega
    · intro hno
      rw [eRect, v1, v2, hB]
      rcases hno with hno | hno
      · rw [hd] at hno
        rw [hitPaddle_miss β P hno]
        exact ⟨w2, w3⟩
      · cases hne : d.Empty
        · rw [hd] at hne hno
          by_cases hv : P.Vel = 0
          · rw [hitPaddle_top_rest β P hne hno hv]
            simp only [Rectangle.Sub]
            omega
          · rw [hitPaddle_top_moving β P hne hno hv]
            exact ⟨w2, w3⟩
        · rw [hd] at hne
          rw [hitPaddle_miss β P hne]
          exact ⟨w2, w3⟩

/-- A loop that `topHitsOnly` accepts finds every overlapped brick overlapped wider than
high, at whatever position of the list. -/
theorem topHitsOnly_spec (bs : List Brick) (st : LoopState) (h : topHitsOnly st bs = true)
    (pre : List Brick) (b : Brick) (post : List Brick) (hsplit : bs = pre ++ b :: post)
    (hne : ((brickLoop st pre).ball.Rect.Intersect b.Rect).Empty = false) :
    ((brickLoop st pre).ball.Rect.Intersect b.Rect).Size.X >
      ((brickLoop st pre).ball.Rect.Intersect b.Rect).Size.Y := by
  induction pre generalizing st bs with
  | nil =>
      rw [hsplit] at h
      rw [brickLoop_nil] at hne ⊢
      simp only [List.nil_append, topHitsOnly, Bool.and_eq_true, Bool.or_eq_true,
        decide_eq_true_eq] at h
      rcases h.1 with h1 | h1
      · rw [h1] at hne
        exact absurd hne (by decide)
      · exact h1
  | cons c pre ih =>
      rw [hsplit] at h
      simp only [List.cons_append, topHitsOnly, Bool.and_eq_true] at h
      rw [brickLoop_cons] at hne ⊢
      exact ih (pre ++ b :: post) (brickStep st c) h.2 rfl hne

/-- C11 on `brickTopRun`: the ball comes down on the second brick of the row, which is
removed, and ends on top of the row at (97,95)-(102,100), clear of the paddle and of the
eight bricks that remain, between the walls. -/
theorem no_embedding_witness :
    (Reachable brickTopRun ∧
        (Update brickTopRun idle).Ball.Rect = ⟨⟨97, 95⟩, ⟨102, 100⟩⟩ ∧
        (Update brickTopRun idle).Bricks.length = 8) ∧
      25 ≤ (Update brickTopRun idle).Ball.Rect.Min.Y ∧
      ((Update brickTopRun idle).Ball.Rect.Intersect
        (Update brickTopRun idle).Paddle.Rect).Empty = true ∧
      (∀ x ∈ (Update brickTopRun idle).Bricks,
        ((Update brickTopRun idle).Ball.Rect.Intersect x.Rect).Empty = true) ∧
      (25 ≤ (Update brickTopRun idle).Ball.Rect.Min.X ∧
        (Update brickTopRun idle).Ball.Rect.Max.X ≤ 475) :=
  ⟨⟨brickTopRun_reachable, by decide⟩,
    (no_embedding brickTopRun idle _ _ _ rfl rfl rfl brickTopRun_reachable (by decide)
      (by decide) (by decide)).1,
    (no_embedding brickTopRun idle _ _ _ rfl rfl rfl brickTopRun_reachable (by decide)
      (by decide) (by decide)).2.1.mpr (Or.inl (by decide)),
    ((no_embedding brickTopRun idle _ _ _ rfl rfl rfl brickTopRun_reachable (by decide)
      (by decide) (by decide)).2.2
      (topHitsOnly_spec brickTopRun.Bricks _ (by decide))).1,
    ((no_embedding brickTopRun idle _ _ _ rfl rfl rfl brickTopRun_reachable (by decide)
      (by decide) (by decide)).2.2
      (topHitsOnly_spec brickTopRun.Bricks _ (by decide))).2 (Or.inl (by decide))⟩

/-- C11, as stated, fails in each of its three parts, in states of play. On
`paddleLeftRun` with the right key held, the ball lands on the paddle while it moves and
is not pushed back: it ends at (35,485)-(40,490), inside the paddle (30..130). On
`keptBrickRun` the ball enters the eighth brick flush with its left edge and is pushed
left by its own width, into the seventh brick, which stays in the list: it ends at
(370,100)-(375,105), inside the brick (325,100)-(375,125). On `wallPushRun` the ball is
put back from the right wall into the right end of the paddle and pushed right by 1: it
ends at (471,490)-(476,495), beyond the right wall. And on `wallBrickRun` the ball
enters the first brick flush with the left wall and is pushed left by its own width: it
ends at (20,100)-(25,105), beyond the left wall. -/
theorem no_embedding_counterexample :
    ((Reachable paddleLeftRun ∧ Reachable keptBrickRun ∧ Reachable wallPushRun ∧
          Reachable wallBrickRun) ∧
        (Update paddleLeftRun pressRight).Ball.Rect = ⟨⟨35, 485⟩, ⟨40, 490⟩⟩ ∧
        (Update paddleLeftRun pressRight).Paddle = ⟨⟨⟨30, 488⟩, ⟨130, 500⟩⟩, 5⟩ ∧
        (Update keptBrickRun idle).Ball.Rect = ⟨⟨370, 100⟩, ⟨375, 105⟩⟩ ∧
        ⟨⟨⟨325, 100⟩, ⟨375, 125⟩⟩, 6⟩ ∈ (Update keptBrickRun idle).Bricks ∧
        (Update wallPushRun idle).Ball.Rect = ⟨⟨471, 490⟩, ⟨476, 495⟩⟩ ∧
        (Update wallBrickRun idle).Ball.Rect = ⟨⟨20, 100⟩, ⟨25, 105⟩⟩) ∧
      (¬ ∀ (g : Game) (inp : Input), Reachable g → g.Lives ≠ 0 → g.Bricks ≠ [] →
        ¬ (moveBall g.Ball).Rect.Min.Y > GameHeight →
        g.Ball.Rect.Dx = 5 → g.Ball.Rect.Dy = 5 →
        g.Paddle.Rect.Dx = 100 → g.Paddle.Rect.Dy = 12 →
        (∀ b ∈ g.Bricks, b.Rect.Dx = 50 ∧ b.Rect.Dy = 25) →
        ((Update g inp).Ball.Rect.Intersect (Update g inp).Paddle.Rect).Empty = true) ∧
      (¬ ∀ (g : Game) (inp : Input), Reachable g → g.Lives ≠ 0 → g.Bricks ≠ [] →
        ¬ (moveBall g.Ball).Rect.Min.Y > GameHeight →
        g.Ball.Rect.Dx = 5 → g.Ball.Rect.Dy = 5 →
        g.Paddle.Rect.Dx = 100 → g.Paddle.Rect.Dy = 12 →
        (∀ b ∈ g.Bricks, b.Rect.Dx = 50 ∧ b.Rect.Dy = 25) →
        ∀ x ∈ (Update g inp).Bricks,
          ((Update g inp).Ball.Rect.Intersect x.Rect).Empty = true) ∧
      (¬ ∀ (g : Game) (inp : Input), Reachable g → g.Lives ≠ 0 → g.Bricks ≠ [] →
        ¬ (moveBall g.Ball).Rect.Min.Y > GameHeight →
        g.Ball.Rect.Dx = 5 → g.Ball.Rect.Dy = 5 →
        g.Paddle.Rect.Dx = 100 → g.Paddle.Rect.Dy = 12 →
        (∀ b ∈ g.Bricks, b.Rect.Dx = 50 ∧ b.Rect.Dy = 25) →
        25 ≤ (Update g inp).Ball.Rect.Min.X ∧ (Update g inp).Ball.Rect.Max.X ≤ 475 ∧
          25 ≤ (Update g inp).Ball.Rect.Min.Y) := by
  refine ⟨⟨⟨paddleLeftRun_reachable, keptBrickRun_reachable, wallPushRun_reachable,
    wallBrickRun_reachable⟩, by decide⟩, ?_, ?_, ?_⟩
  · intro h
    have h1 := h paddleLeftRun pressRight paddleLeftRun_reachable (by decide) (by decide)
      (by decide) (by decide) (by decide) (by decide) (by decide) (by decide)
    revert h1
    decide
  · intro h
    have h1 := h keptBrickRun idle keptBrickRun_reachable (by decide) (by decide)
      (by decide) (by decide) (by decide) (by decide) (by decide) (by decide)
    revert h1
    decide
  · intro h
    have h1 := h wallPushRun idle wallPushRun_reachable (by decide) (by decide)
      (by decide) (by decide) (by decide) (by decide) (by decide) (by decide)
    revert h1
    decide

end Breakem
